import Mathlib

/-!
SoC FPGA XGMAC network interface: buffer pools, bring-up state machine, transmit.

Shallow embedding of `NetworkInterface.c` (FreeRTOS+TCP port for the Altera
SoC FPGA XGMAC).  Pointers are natural numbers with `NULL = 0`, `uint16_t`
arithmetic is written with an explicit `% 2 ^ 16`, and every call that leaves
the file (engine driver, allocator, RTOS) takes its result from an explicit
environment record and is written to a call log.  The RTOS tick count is a
`TickType_t` that wraps after `portMAX_DELAY`.  The record of the Tx pool is
part of the memory that the zero-fill of a released buffer writes.
-/

namespace SocfpgaNet

/-! ## Basic types -/

abbrev BaseType_t := Int

def pdFALSE : BaseType_t := 0

def pdTRUE : BaseType_t := 1

def pdFAIL : BaseType_t := 0

def pdPASS : BaseType_t := 1

/-- The null pointer. -/
def NULL : Nat := 0

/-- Build-time constants.  `TX_BUFFER_COUNT` and `RX_BUFFER_COUNT` are `512U` in
the source (see `socfpga`) and are fields here so that the code can also be run
on small pools; `XGMAC_MAX_PACKET_SIZE`, `XGMAC_NUM_RX_DESC`, the `ipconfig*`
switches, `pdMS_TO_TICKS` and `portMAX_DELAY` come from headers that are not
part of the sources, so they are parameters.  `portMAX_DELAY` is the largest
value of the unsigned type `TickType_t`: a tick count that is increased past it
starts again at 0.  `TxBufferPool_addr` is the address `&TxBufferPool` of the
static pool record, the value that the pointer `pxTxBufferPool` holds; the
linker chooses it. -/
structure Config where
  TX_BUFFER_COUNT : Nat
  RX_BUFFER_COUNT : Nat
  XGMAC_MAX_PACKET_SIZE : Nat
  XGMAC_NUM_RX_DESC : Nat
  ipconfigZERO_COPY_TX_DRIVER : Bool
  ipconfigZERO_COPY_RX_DRIVER : Bool
  pdMS_TO_TICKS : Nat → Nat
  portMAX_DELAY : Nat
  TxBufferPool_addr : Nat

/-- Macro `#define TX_BUFFER_SIZE XGMAC_MAX_PACKET_SIZE` -/
def Config.TX_BUFFER_SIZE (cfg : Config) : Nat := cfg.XGMAC_MAX_PACKET_SIZE

/-- Macro `#define RX_BUFFER_SIZE XGMAC_MAX_PACKET_SIZE` -/
def Config.RX_BUFFER_SIZE (cfg : Config) : Nat := cfg.XGMAC_MAX_PACKET_SIZE

/-- The constants of the source: 512 buffers per pool.  The packet size, the
descriptor count and the address of the pool record are given by the caller;
copy mode in both directions, a tick of one millisecond and the 64-bit tick
count of the port `ARM_CA55_64_BIT` are assumed. -/
def socfpga (maxPacket numRxDesc poolAddr : Nat) : Config where
  TX_BUFFER_COUNT := 512
  RX_BUFFER_COUNT := 512
  XGMAC_MAX_PACKET_SIZE := maxPacket
  XGMAC_NUM_RX_DESC := numRxDesc
  ipconfigZERO_COPY_TX_DRIVER := false
  ipconfigZERO_COPY_RX_DRIVER := false
  pdMS_TO_TICKS := fun ms => ms
  portMAX_DELAY := 2 ^ 64 - 1
  TxBufferPool_addr := poolAddr

/-- A small configuration used to run the code on concrete inputs: pools of
four buffers of sixteen bytes, two receive descriptors, a 64-bit tick count,
and the Tx pool record at address 1024 (it ends before address 1064). -/
def tiny : Config where
  TX_BUFFER_COUNT := 4
  RX_BUFFER_COUNT := 4
  XGMAC_MAX_PACKET_SIZE := 16
  XGMAC_NUM_RX_DESC := 2
  ipconfigZERO_COPY_TX_DRIVER := false
  ipconfigZERO_COPY_RX_DRIVER := false
  pdMS_TO_TICKS := fun ms => ms
  portMAX_DELAY := 2 ^ 64 - 1
  TxBufferPool_addr := 1024

/-- Byte-addressed memory. -/
abbrev Mem := Nat → Nat

/-- Function `memset( p, c, n )` -/
def memset (mem : Mem) (p c n : Nat) : Mem :=
  fun a => if p ≤ a ∧ a < p + n then c else mem a

/-- Function `memcpy( dst, src, n )` -/
def memcpy (mem : Mem) (dst src n : Nat) : Mem :=
  fun a => if dst ≤ a ∧ a < dst + n then mem (src + (a - dst)) else mem a

/-! ## The pool lock -/

/-- Modelled from the spec: the mutual-exclusion lock of a pool, a FreeRTOS
mutex whose implementation (`xSemaphoreCreateMutex`, `xSemaphoreTake`,
`xSemaphoreGive`) is not part of the sources.  It is held or free, and it
stays held until it is given back. -/
structure Mutex where
  held : Bool
deriving DecidableEq, Repr

/-- Modelled from the spec: `xSemaphoreTake( sem, xBlockTimeTicks )` obtains a
free lock, and fails once the bounded wait expires on a lock that stays held. -/
def xSemaphoreTake (sem : Mutex) : Bool × Mutex :=
  if sem.held then (false, sem) else (true, { held := true })

/-- Modelled from the spec: `xSemaphoreGive( sem )` releases the lock. -/
def xSemaphoreGive (_sem : Mutex) : Mutex := { held := false }

/-! ## Buffer pools -/

/-- Type `TxBufferPool_t`: the slot array and the three `uint16_t` ring fields. -/
structure TxBufferPool_t where
  pTxBuffer : List Nat
  usHeadIndex : Nat
  usTailIndex : Nat
  usBufUsedCnt : Nat
  ucIsInitiazed : Nat
deriving DecidableEq, Repr

/-- Type `RxBufferPool_t` -/
structure RxBufferPool_t where
  pRxBuffer : List Nat
  usHeadIndex : Nat
  usTailIndex : Nat
  usBufUsedCnt : Nat
  ucIsInitiazed : Nat
deriving DecidableEq, Repr

/-- The static initialiser `TxBufferPool = { NULL }`. -/
def TxBufferPool (cfg : Config) : TxBufferPool_t where
  pTxBuffer := List.replicate cfg.TX_BUFFER_COUNT NULL
  usHeadIndex := 0
  usTailIndex := 0
  usBufUsedCnt := 0
  ucIsInitiazed := 0

/-- The static initialiser `RxBufferPool = { NULL }`. -/
def RxBufferPool (cfg : Config) : RxBufferPool_t where
  pRxBuffer := List.replicate cfg.RX_BUFFER_COUNT NULL
  usHeadIndex := 0
  usTailIndex := 0
  usBufUsedCnt := 0
  ucIsInitiazed := 0

/-- The Tx pool together with the globals its functions touch: the lock
`xTxBufSynchSem` and the memory that release zero-fills. -/
structure TxPoolState where
  pool : TxBufferPool_t
  xTxBufSynchSem : Mutex
  mem : Mem

/-- The Rx pool together with its lock `xRxBufSynchSem`. -/
structure RxPoolState where
  pool : RxBufferPool_t
  xRxBufSynchSem : Mutex
deriving DecidableEq, Repr

/-- Function `prvCreateTxBufferPool`.  `pTxBuf` is what `pvPortMalloc` returned and
`sem` what `xSemaphoreCreateMutex` returned (`none` is `NULL`); the second
component is the new value of `xTxBufSynchSem`.  The index `i` is a
`uint32_t`, so is the product `i * TX_BUFFER_SIZE`. -/
def prvCreateTxBufferPool (cfg : Config) (pTxBuf : Nat) (sem : Option Mutex)
    (old : Option Mutex) (p : TxBufferPool_t) :
    BaseType_t × Option Mutex × TxBufferPool_t :=
  if pTxBuf = NULL then (pdFAIL, old, p)
  else
    let p1 : TxBufferPool_t :=
      { pTxBuffer := (List.range cfg.TX_BUFFER_COUNT).map
          (fun i => pTxBuf + (i * cfg.TX_BUFFER_SIZE) % 2 ^ 32)
        usHeadIndex := 0
        usTailIndex := 0
        usBufUsedCnt := 0
        ucIsInitiazed := 1 }
    match sem with
    | none => (pdFAIL, none, p1)
    | some m => (pdPASS, some m, p1)

/-- Function `prvCreateRxBufferPool`, with `pRxBuf` the result of `pvPortAlignedAlloc`. -/
def prvCreateRxBufferPool (cfg : Config) (pRxBuf : Nat) (sem : Option Mutex)
    (old : Option Mutex) (p : RxBufferPool_t) :
    BaseType_t × Option Mutex × RxBufferPool_t :=
  if pRxBuf = NULL then (pdFAIL, old, p)
  else
    let p1 : RxBufferPool_t :=
      { pRxBuffer := (List.range cfg.RX_BUFFER_COUNT).map
          (fun i => pRxBuf + (i * cfg.RX_BUFFER_SIZE) % 2 ^ 32)
        usHeadIndex := 0
        usTailIndex := 0
        usBufUsedCnt := 0
        ucIsInitiazed := 1 }
    match sem with
    | none => (pdFAIL, none, p1)
    | some m => (pdPASS, some m, p1)

/-- Function `pucGetTXBuffer`: the returned address and the state after the call.  The
pool-full return leaves the function without giving the lock back. -/
def pucGetTXBuffer (cfg : Config) (st : TxPoolState) (xWantedSize : Nat) :
    Nat × TxPoolState :=
  if xWantedSize > cfg.TX_BUFFER_SIZE then (NULL, st)
  else
    match xSemaphoreTake st.xTxBufSynchSem with
    | (false, sem) => (NULL, { st with xTxBufSynchSem := sem })
    | (true, sem) =>
      if st.pool.usBufUsedCnt = cfg.TX_BUFFER_COUNT % 2 ^ 16 then
        (NULL, { st with xTxBufSynchSem := sem })
      else
        let usIndex := st.pool.usHeadIndex
        let head := (st.pool.usHeadIndex + 1) % 2 ^ 16
        let pucBufAddr := st.pool.pTxBuffer.getD usIndex NULL
        let head := head % (cfg.TX_BUFFER_COUNT % 2 ^ 16)
        let used := (st.pool.usBufUsedCnt + 1) % 2 ^ 16
        (pucBufAddr,
          { st with
            pool := { st.pool with usHeadIndex := head, usBufUsedCnt := used }
            xTxBufSynchSem := xSemaphoreGive sem })

/-- Function `pucGetRXBuffer` -/
def pucGetRXBuffer (cfg : Config) (st : RxPoolState) (xWantedSize : Nat) :
    Nat × RxPoolState :=
  if xWantedSize > cfg.RX_BUFFER_SIZE then (NULL, st)
  else
    match xSemaphoreTake st.xRxBufSynchSem with
    | (false, sem) => (NULL, { st with xRxBufSynchSem := sem })
    | (true, sem) =>
      if st.pool.usBufUsedCnt = cfg.RX_BUFFER_COUNT % 2 ^ 16 then
        (NULL, { st with xRxBufSynchSem := sem })
      else
        let usIndex := st.pool.usHeadIndex
        let head := (st.pool.usHeadIndex + 1) % 2 ^ 16
        let pucBufAddr := st.pool.pRxBuffer.getD usIndex NULL
        let head := head % (cfg.RX_BUFFER_COUNT % 2 ^ 16)
        let used := (st.pool.usBufUsedCnt + 1) % 2 ^ 16
        (pucBufAddr,
          { st with
            pool := { st.pool with usHeadIndex := head, usBufUsedCnt := used }
            xRxBufSynchSem := xSemaphoreGive sem })

/-- Size of a pointer in bytes; the port is `ARM_CA55_64_BIT`. -/
def sizeof_pointer : Nat := 8

/-- The value of an object of `n` bytes stored at address `addr`, least
significant byte first, after `memset( p, 0, len )`: the bytes of the object
that lie in the filled range are cleared, the others keep their value. -/
def zeroFilled (p len addr n v : Nat) : Nat :=
  (List.range n).foldl
    (fun acc k =>
      if p ≤ addr + k ∧ addr + k < p + len then acc - acc / 256 ^ k % 256 * 256 ^ k else acc)
    v

/-- The slot array of the Tx pool record, from slot `i` on, after
`memset( p, 0, TX_BUFFER_SIZE )`: slot `i` lies at offset `i * sizeof_pointer`
of the record.  The array has `TX_BUFFER_COUNT` elements; a list entry past them
stands for no memory and is kept. -/
def zeroFilledSlots (cfg : Config) (p : Nat) : Nat → List Nat → List Nat
  | _, [] => []
  | i, v :: vs =>
    (if i < cfg.TX_BUFFER_COUNT then
      zeroFilled p cfg.TX_BUFFER_SIZE (cfg.TxBufferPool_addr + i * sizeof_pointer)
        sizeof_pointer v
    else v) :: zeroFilledSlots cfg p (i + 1) vs

/-- The Tx pool record after `memset( p, 0, TX_BUFFER_SIZE )`.  The record is the
static object `TxBufferPool` at address `TxBufferPool_addr`; its members lie in
the order of the declaration of `TxBufferPool_t`, each at its natural
alignment: the slot array, then `usHeadIndex`, `usTailIndex` and `usBufUsedCnt`
(two bytes each), then `ucIsInitiazed` (one byte). -/
def TxBufferPool_t.zeroFill (cfg : Config) (pool : TxBufferPool_t) (p : Nat) :
    TxBufferPool_t :=
  let ring := cfg.TxBufferPool_addr + cfg.TX_BUFFER_COUNT * sizeof_pointer
  { pTxBuffer := zeroFilledSlots cfg p 0 pool.pTxBuffer
    usHeadIndex := zeroFilled p cfg.TX_BUFFER_SIZE ring 2 pool.usHeadIndex
    usTailIndex := zeroFilled p cfg.TX_BUFFER_SIZE (ring + 2) 2 pool.usTailIndex
    usBufUsedCnt := zeroFilled p cfg.TX_BUFFER_SIZE (ring + 4) 2 pool.usBufUsedCnt
    ucIsInitiazed := zeroFilled p cfg.TX_BUFFER_SIZE (ring + 6) 1 pool.ucIsInitiazed }

/-- The `TX_BUFFER_SIZE` bytes at `p` lie outside the Tx pool record, below it or
above it. -/
def missesPoolRecord (cfg : Config) (p : Nat) : Prop :=
  p + cfg.TX_BUFFER_SIZE ≤ cfg.TxBufferPool_addr ∨
    cfg.TxBufferPool_addr + (cfg.TX_BUFFER_COUNT * sizeof_pointer + 7) ≤ p

instance (cfg : Config) (p : Nat) : Decidable (missesPoolRecord cfg p) := by
  unfold missesPoolRecord
  infer_instance

/-- The backing region of the Tx pool, `TX_BUFFER_COUNT * TX_BUFFER_SIZE` bytes
at `base`, does not overlap the pool record: the allocator hands out memory
that belongs to no other object. -/
def regionMissesPoolRecord (cfg : Config) (base : Nat) : Prop :=
  base + cfg.TX_BUFFER_COUNT * cfg.TX_BUFFER_SIZE ≤ cfg.TxBufferPool_addr ∨
    cfg.TxBufferPool_addr + (cfg.TX_BUFFER_COUNT * sizeof_pointer + 7) ≤ base

instance (cfg : Config) (base : Nat) : Decidable (regionMissesPoolRecord cfg base) := by
  unfold regionMissesPoolRecord
  infer_instance

/-- Function `pucReleaseTXBuffer`: the return code and the state after the call.  The
pool-empty return leaves the function without giving the lock back.  The
`memset` writes the memory that the pool record lives in like any other
memory, and the record is read after it: `usTailIndex`, `usBufUsedCnt` and the
slots are those that the `memset` left. -/
def pucReleaseTXBuffer (cfg : Config) (st : TxPoolState) (pvBuffer : Nat) :
    BaseType_t × TxPoolState :=
  match xSemaphoreTake st.xTxBufSynchSem with
  | (false, sem) => (pdFAIL, { st with xTxBufSynchSem := sem })
  | (true, sem) =>
    if st.pool.usBufUsedCnt = 0 then
      (pdFAIL, { st with xTxBufSynchSem := sem })
    else
      let mem := memset st.mem pvBuffer 0 cfg.TX_BUFFER_SIZE
      let pool := st.pool.zeroFill cfg pvBuffer
      let usIndex := pool.usTailIndex
      let tail := (pool.usTailIndex + 1) % 2 ^ 16
      let slots := pool.pTxBuffer.set usIndex pvBuffer
      let tail := tail % (cfg.TX_BUFFER_COUNT % 2 ^ 16)
      let used := (pool.usBufUsedCnt + 2 ^ 16 - 1) % 2 ^ 16
      (pdPASS,
        { pool := { pool with
                    pTxBuffer := slots, usTailIndex := tail, usBufUsedCnt := used }
          xTxBufSynchSem := xSemaphoreGive sem
          mem := mem })

/-! ## Sequences of pool calls -/

/-- What a pool call returns: an address (acquire) or a status (release). -/
inductive PoolRet where
  | addr (a : Nat)
  | code (c : BaseType_t)
deriving DecidableEq, Repr

/-- One event in the life of the Tx pool: a call of one of its two functions,
or another task taking (`lock true`) or giving back (`lock false`) the lock
between two calls. -/
inductive TxPoolEvent where
  | get (xWantedSize : Nat)
  | release (pvBuffer : Nat)
  | lock (held : Bool)
deriving DecidableEq, Repr

/-- An event writes no byte of the pool record: it is not a release, or it is a
release of an address whose `TX_BUFFER_SIZE` bytes lie outside the record. -/
def TxPoolEvent.missesPoolRecord (cfg : Config) : TxPoolEvent → Prop
  | .release b => SocfpgaNet.missesPoolRecord cfg b
  | _ => True

instance (cfg : Config) (e : TxPoolEvent) : Decidable (e.missesPoolRecord cfg) := by
  cases e <;> unfold TxPoolEvent.missesPoolRecord <;> infer_instance

/-- Runs one event: the value returned, if the event is a call, and the state
after it. -/
def TxPoolEvent.exec (cfg : Config) (st : TxPoolState) :
    TxPoolEvent → Option PoolRet × TxPoolState
  | .get w => (some (.addr (pucGetTXBuffer cfg st w).1), (pucGetTXBuffer cfg st w).2)
  | .release b =>
    (some (.code (pucReleaseTXBuffer cfg st b).1), (pucReleaseTXBuffer cfg st b).2)
  | .lock h => (none, { st with xTxBufSynchSem := { held := h } })

/-- Runs a sequence of events from left to right: the values returned by the
calls, in order, and the final state. -/
def execTx (cfg : Config) (st : TxPoolState) : List TxPoolEvent → List PoolRet × TxPoolState
  | [] => ([], st)
  | e :: es =>
    ((e.exec cfg st).1.toList ++ (execTx cfg (e.exec cfg st).2 es).1,
      (execTx cfg (e.exec cfg st).2 es).2)

/-- One event in the life of the Rx pool, which has no release function. -/
inductive RxPoolEvent where
  | get (xWantedSize : Nat)
  | lock (held : Bool)
deriving DecidableEq, Repr

/-- Runs one Rx event. -/
def RxPoolEvent.exec (cfg : Config) (st : RxPoolState) :
    RxPoolEvent → Option PoolRet × RxPoolState
  | .get w => (some (.addr (pucGetRXBuffer cfg st w).1), (pucGetRXBuffer cfg st w).2)
  | .lock h => (none, { st with xRxBufSynchSem := { held := h } })

/-- Runs a sequence of Rx events from left to right. -/
def execRx (cfg : Config) (st : RxPoolState) : List RxPoolEvent → List PoolRet × RxPoolState
  | [] => ([], st)
  | e :: es =>
    ((e.exec cfg st).1.toList ++ (execRx cfg (e.exec cfg st).2 es).1,
      (execRx cfg (e.exec cfg st).2 es).2)

/-- The Tx pool right after a successful `prvCreateTxBufferPool` with backing
region `base`, whatever the pool held before and whatever the memory holds. -/
def createdTx (cfg : Config) (base : Nat) (p0 : TxBufferPool_t) (mem : Mem) : TxPoolState where
  pool := (prvCreateTxBufferPool cfg base (some { held := false }) none p0).2.2
  xTxBufSynchSem := { held := false }
  mem := mem

/-- The Rx pool right after a successful `prvCreateRxBufferPool`. -/
def createdRx (cfg : Config) (base : Nat) (p0 : RxBufferPool_t) : RxPoolState where
  pool := (prvCreateRxBufferPool cfg base (some { held := false }) none p0).2.2
  xRxBufSynchSem := { held := false }

/-- The slot addresses of a backing region: `base + i * size` for `i < count`. -/
def isSlot (base size count a : Nat) : Prop := ∃ i, i < count ∧ a = base + i * size

/-! ## Driver globals, environment and call log -/

/-- Type `XGMACState_t` -/
inductive XGMACState_t where
  | XGMAC_EMACInit
  | XGMAC_PHYInit
  | XGMAC_DMAInit
  | XGMAC_EMACStart
  | XGMAC_PHYWait
  | XGMAC_Ready
  | XGMAC_Failed
deriving DecidableEq, Repr

/-- Macro `#define niBMSR_LINK_STATUS 0x0004uL` -/
def niBMSR_LINK_STATUS : Nat := 0x0004

/-- PHY register 1, as the comment on `ulPHYLinkStatus` says. -/
def COPPER_STATUS_REG : Nat := 1

/-- The part of `NetworkInterface_t` the driver reads: `pvArgument`, the EMAC
instance index. -/
structure NetworkInterface_t where
  pvArgument : Nat
deriving DecidableEq, Repr

/-- The part of `NetworkBufferDescriptor_t` the driver reads or writes; the
interface and the end-point are the ones the receive path stamps, empty until
then. -/
structure NetworkBufferDescriptor_t where
  pucEthernetBuffer : Nat
  xDataLength : Nat
  pxInterface : Option NetworkInterface_t := none
  pxEndPoint : Nat := NULL
deriving DecidableEq, Repr

/-- The file-scope variables of `NetworkInterface.c`, the RTOS tick count and
the memory.  `hxgmac i` is `xEmacConfig[ i ].hxgmac`; a semaphore handle that is
`none` is `NULL`; `pxTxBufferPool` and `pxRxBufferPool` are the pools the two
pointers of that name point to; `xSemaphoreCounterTx` holds the count of the counting
semaphore. -/
structure Driver where
  eXGMACState : XGMACState_t
  hxgmac : Nat → Nat
  xSemaphoreCounterTx : Option Nat
  AgxInterface : Option NetworkInterface_t
  pxTxBufferPool : TxBufferPool_t
  xTxBufSynchSem : Option Mutex
  pxRxBufferPool : RxBufferPool_t
  xRxBufSynchSem : Option Mutex
  xEMACTaskHandle : Nat
  ulPHYLinkStatus : Nat
  tick : Nat
  mem : Mem

/-- The globals as the static initialisers leave them. -/
def Driver.boot (cfg : Config) (mem : Mem) : Driver where
  eXGMACState := .XGMAC_EMACInit
  hxgmac := fun _ => NULL
  xSemaphoreCounterTx := none
  AgxInterface := none
  pxTxBufferPool := TxBufferPool cfg
  xTxBufSynchSem := none
  pxRxBufferPool := RxBufferPool cfg
  xRxBufSynchSem := none
  xEMACTaskHandle := NULL
  ulPHYLinkStatus := 0
  tick := 0
  mem := mem

/-- What the collaborators answer during one call of a driver function: the
engine driver (`xgmac_*`), the PHY register (as a function of the tick at which
it is read), the allocators, the RTOS and the stack.  `*_ret k` is the answer
to the `k`-th request of that kind in the call. -/
structure Env where
  xSemaphoreCreateCounting_ret : Bool
  xgmac_emac_init_ret : Nat
  xgmac_set_callback_ret : Int
  xgmac_phy_discover_ret : Int
  xgmac_phy_initialize_ret : Int
  pvPortMalloc_ret : Nat
  xSemaphoreCreateMutex_tx_ret : Bool
  pvPortAlignedAlloc_ret : Nat
  xSemaphoreCreateMutex_rx_ret : Bool
  xgmac_dma_initialize_ret : Int
  pxGetNetworkBufferWithDescriptor_ret : Nat → Option NetworkBufferDescriptor_t
  xgmac_refill_rx_descriptor_ret : Nat → Int
  xgmac_cfg_speed_mode_ret : Int
  xgmac_emac_start_ret : Int
  read_phy_reg_ret : Nat → Nat
  xTaskCreate_ret : Nat
  xgmac_dma_transmit_ret : Int

/-- A function call made by the driver, with its arguments and its result. -/
inductive Call where
  | xSemaphoreCreateCounting (uxMaxCount uxInitialCount : Nat) (ok : Bool)
  | xgmac_emac_init (inst : Nat) (handle : Nat)
  | xgmac_set_callback (h : Nat) (status : Int)
  | xgmac_phy_discover (h : Nat) (status : Int)
  | xgmac_phy_initialize (h : Nat) (status : Int)
  | pvPortMalloc (size : Nat) (p : Nat)
  | pvPortAlignedAlloc (align size : Nat) (p : Nat)
  | xSemaphoreCreateMutex (ok : Bool)
  | xgmac_dma_initialize (h : Nat) (status : Int)
  | pucGetRXBuffer (xWantedSize : Nat) (p : Nat)
  | pxGetNetworkBufferWithDescriptor (size ticks : Nat)
      (desc : Option NetworkBufferDescriptor_t)
  | xgmac_refill_rx_descriptor (h buf : Nat) (status : Int)
  | xgmac_cfg_speed_mode (h : Nat) (status : Int)
  | xgmac_emac_start (h : Nat) (status : Int)
  | read_phy_reg (h reg value : Nat)
  | vTaskDelay (ticks : Nat)
  | xTaskCreate (handle : Nat)
  | pucGetTXBuffer (xWantedSize : Nat) (p : Nat)
  | xgmac_dma_transmit (h buf size : Nat) (status : Int)
  | vReleaseNetworkBufferAndDescriptor (desc : NetworkBufferDescriptor_t)
deriving DecidableEq, Repr

/-- The stage of the bring-up a call belongs to: 0 for the creation of the
transmit-completion counter, 1 EngineInit, 2 LinkPartnerInit, 3 TransferInit,
4 EngineStart, 5 LinkWait, 6 creation of the deferred task, 7 for calls that
the initializer never makes. -/
def Call.stage : Call → Nat
  | Call.xSemaphoreCreateCounting _ _ _ => 0
  | Call.xgmac_emac_init _ _ => 1
  | Call.xgmac_set_callback _ _ => 1
  | Call.xgmac_phy_discover _ _ => 2
  | Call.xgmac_phy_initialize _ _ => 2
  | Call.pvPortMalloc _ _ => 3
  | Call.pvPortAlignedAlloc _ _ _ => 3
  | Call.xSemaphoreCreateMutex _ => 3
  | Call.xgmac_dma_initialize _ _ => 3
  | Call.pucGetRXBuffer _ _ => 3
  | Call.pxGetNetworkBufferWithDescriptor _ _ _ => 3
  | Call.xgmac_refill_rx_descriptor _ _ _ => 3
  | Call.xgmac_cfg_speed_mode _ _ => 4
  | Call.xgmac_emac_start _ _ => 4
  | Call.read_phy_reg _ _ _ => 5
  | Call.vTaskDelay _ => 5
  | Call.xTaskCreate _ => 6
  | Call.pucGetTXBuffer _ _ => 7
  | Call.xgmac_dma_transmit _ _ _ _ => 7
  | Call.vReleaseNetworkBufferAndDescriptor _ => 7

/-- Whether a call is a stage operation of the bring-up that failed: a null
handle, buffer or allocation, a lock or task that was not created, a non-zero
status. -/
def Call.failed : Call → Bool
  | Call.xgmac_emac_init _ handle => handle == NULL
  | Call.xgmac_set_callback _ status => status != 0
  | Call.xgmac_phy_discover _ status => status != 0
  | Call.xgmac_phy_initialize _ status => status != 0
  | Call.pvPortMalloc _ p => p == NULL
  | Call.pvPortAlignedAlloc _ _ p => p == NULL
  | Call.xSemaphoreCreateMutex ok => !ok
  | Call.xgmac_dma_initialize _ status => status != 0
  | Call.pucGetRXBuffer _ p => p == NULL
  | Call.pxGetNetworkBufferWithDescriptor _ _ desc => desc.isNone
  | Call.xgmac_refill_rx_descriptor _ _ status => status != 0
  | Call.xgmac_cfg_speed_mode _ status => status != 0
  | Call.xgmac_emac_start _ status => status != 0
  | Call.xTaskCreate handle => handle == NULL
  | _ => false

/-- What a driver entry point hands back: its return value, the globals after
the call and the calls it made, in order. -/
structure Outcome where
  xReturn : BaseType_t
  d : Driver
  calls : List Call

/-! ## Link status -/

/-- Function `GetPhyLinkStatus` -/
def GetPhyLinkStatus (d : Driver) : BaseType_t :=
  if d.ulPHYLinkStatus &&& niBMSR_LINK_STATUS = 0 then pdFALSE else pdTRUE

/-- Modelled from the spec: `xTaskGetTickCount()`, the tick count of the RTOS as
a `TickType_t`, a count that wraps to 0 after `portMAX_DELAY`. -/
def xTaskGetTickCount (cfg : Config) (d : Driver) : Nat := d.tick % (cfg.portMAX_DELAY + 1)

/-- Function `prvReadMDIO`: the value read and the call made.  The register answers
as a function of the tick count at which it is read. -/
def prvReadMDIO (cfg : Config) (env : Env) (ulReg : Nat) (pxInterface : NetworkInterface_t)
    (d : Driver) : Nat × Call :=
  let inst := pxInterface.pvArgument
  let pXGMACHandle := d.hxgmac inst
  (env.read_phy_reg_ret (xTaskGetTickCount cfg d),
    Call.read_phy_reg pXGMACHandle ulReg (env.read_phy_reg_ret (xTaskGetTickCount cfg d)))

/-- The `for( ; ; )` loop of `prvPhyCheckLinkStatus`, given the number of
iterations it may still run.  `xStartTime`, `xEndTime` and their difference are
`TickType_t` values, so the subtraction is taken modulo `portMAX_DELAY + 1`.
`vTaskDelay` moves the tick count forward by the delay; nothing else takes
time. -/
def prvPhyCheckLinkStatus_loop (cfg : Config) (env : Env) (pxInterface : NetworkInterface_t)
    (xStartTime xMaxTimeTicks xShortDelay : Nat) :
    Nat → Driver → List Call → Option Outcome
  | 0, _, _ => none
  | fuel + 1, d, log =>
    let xEndTime := xTaskGetTickCount cfg d
    if (xEndTime + (cfg.portMAX_DELAY + 1) - xStartTime) % (cfg.portMAX_DELAY + 1) >
        xMaxTimeTicks then
      some { xReturn := pdFALSE, d := d, calls := log }
    else
      let r := prvReadMDIO cfg env COPPER_STATUS_REG pxInterface d
      let d1 := { d with ulPHYLinkStatus := r.1 }
      if d1.ulPHYLinkStatus &&& niBMSR_LINK_STATUS ≠ 0 then
        some { xReturn := pdTRUE, d := d1, calls := log ++ [r.2] }
      else
        prvPhyCheckLinkStatus_loop cfg env pxInterface xStartTime xMaxTimeTicks xShortDelay fuel
          { d1 with tick := (d1.tick + xShortDelay) % (cfg.portMAX_DELAY + 1) }
          (log ++ [r.2, Call.vTaskDelay xShortDelay])

/-- Function `prvPhyCheckLinkStatus`.  The parameter and the delay are `TickType_t`
values.  An iteration of the loop depends on the tick count only, which takes
one of `portMAX_DELAY + 1` values, so a loop that has not ended after
`portMAX_DELAY + 2` iterations never ends: `none` means that the call does not
return. -/
def prvPhyCheckLinkStatus (cfg : Config) (env : Env) (xMaxTimeTicks : Nat)
    (pxInterface : NetworkInterface_t) (d : Driver) : Option Outcome :=
  let xMaxTimeTicks := xMaxTimeTicks % (cfg.portMAX_DELAY + 1)
  let xShortDelay := cfg.pdMS_TO_TICKS 20 % (cfg.portMAX_DELAY + 1)
  let xStartTime := xTaskGetTickCount cfg d
  prvPhyCheckLinkStatus_loop cfg env pxInterface xStartTime xMaxTimeTicks xShortDelay
    (cfg.portMAX_DELAY + 2) d []

/-! ## Pool functions on the driver globals -/

/-- Function `pucGetRXBuffer( pxRxBufferPool, xWantedSize )` on the globals.  `none`: the
call does not return, because it takes the semaphore `xRxBufSynchSem` while that
handle is `NULL`. -/
def Driver.pucGetRXBuffer (cfg : Config) (d : Driver) (xWantedSize : Nat) :
    Option (Nat × Driver) :=
  if xWantedSize > cfg.RX_BUFFER_SIZE then some (NULL, d)
  else
    match d.xRxBufSynchSem with
    | none => none
    | some m =>
      let r := SocfpgaNet.pucGetRXBuffer cfg { pool := d.pxRxBufferPool, xRxBufSynchSem := m } xWantedSize
      some (r.1, { d with pxRxBufferPool := r.2.pool, xRxBufSynchSem := some r.2.xRxBufSynchSem })

/-- Function `pucGetTXBuffer( pxTxBufferPool, xWantedSize )` on the globals.  `none`: the
call does not return, because it takes the semaphore `xTxBufSynchSem` while that
handle is `NULL`. -/
def Driver.pucGetTXBuffer (cfg : Config) (d : Driver) (xWantedSize : Nat) :
    Option (Nat × Driver) :=
  if xWantedSize > cfg.TX_BUFFER_SIZE then some (NULL, d)
  else
    match d.xTxBufSynchSem with
    | none => none
    | some m =>
      let r := SocfpgaNet.pucGetTXBuffer cfg
        { pool := d.pxTxBufferPool, xTxBufSynchSem := m, mem := d.mem } xWantedSize
      some (r.1, { d with pxTxBufferPool := r.2.pool, xTxBufSynchSem := some r.2.xTxBufSynchSem })

/-! ## Interface initialisation -/

/-- The `for` loop of `prvUpdateRxDMADescriptors` with `n` descriptors still to
fill, `usIndex` being the index of the next one.  (The index is a `uint16_t`:
the loop is the source's for `XGMAC_NUM_RX_DESC < 2 ^ 16`.) -/
def prvUpdateRxDMADescriptors_loop (cfg : Config) (env : Env)
    (pxInterface : NetworkInterface_t) :
    Nat → Nat → Driver → List Call → Option Outcome
  | 0, _, d, log => some { xReturn := pdPASS, d := d, calls := log }
  | n + 1, usIndex, d, log =>
    let pXGMACHandle := d.hxgmac pxInterface.pvArgument
    if cfg.ipconfigZERO_COPY_RX_DRIVER then
      let pxBufferDescriptor := env.pxGetNetworkBufferWithDescriptor_ret usIndex
      let log := log ++ [Call.pxGetNetworkBufferWithDescriptor cfg.XGMAC_MAX_PACKET_SIZE
        (cfg.pdMS_TO_TICKS 100) pxBufferDescriptor]
      match pxBufferDescriptor with
      | none => some { xReturn := pdFAIL, d := d, calls := log }
      | some desc =>
        let pucBufAddr := desc.pucEthernetBuffer
        let xStatus := env.xgmac_refill_rx_descriptor_ret usIndex
        let log := log ++ [Call.xgmac_refill_rx_descriptor pXGMACHandle pucBufAddr xStatus]
        if xStatus ≠ 0 then some { xReturn := pdFAIL, d := d, calls := log }
        else prvUpdateRxDMADescriptors_loop cfg env pxInterface n (usIndex + 1) d log
    else
      match d.pucGetRXBuffer cfg cfg.XGMAC_MAX_PACKET_SIZE with
      | none => none
      | some (pucBufAddr, d) =>
        let log := log ++ [Call.pucGetRXBuffer cfg.XGMAC_MAX_PACKET_SIZE pucBufAddr]
        if pucBufAddr = NULL then some { xReturn := pdFAIL, d := d, calls := log }
        else
          let xStatus := env.xgmac_refill_rx_descriptor_ret usIndex
          let log := log ++ [Call.xgmac_refill_rx_descriptor pXGMACHandle pucBufAddr xStatus]
          if xStatus ≠ 0 then some { xReturn := pdFAIL, d := d, calls := log }
          else prvUpdateRxDMADescriptors_loop cfg env pxInterface n (usIndex + 1) d log

/-- Function `prvUpdateRxDMADescriptors`; the calls it makes are appended to `log`. -/
def prvUpdateRxDMADescriptors (cfg : Config) (env : Env) (pxInterface : NetworkInterface_t)
    (d : Driver) (log : List Call) : Option Outcome :=
  prvUpdateRxDMADescriptors_loop cfg env pxInterface cfg.XGMAC_NUM_RX_DESC 0 d log

/-- A stage failed: `eXGMACState = XGMAC_Failed; break;` and the function
returns its initial `xReturn = pdFAIL`. -/
def stageFailed (d : Driver) (log : List Call) : Option Outcome :=
  some { xReturn := pdFAIL, d := { d with eXGMACState := .XGMAC_Failed }, calls := log }

/-- Switch arm `case XGMAC_Ready:` -/
def caseReady (d : Driver) (log : List Call) : Option Outcome :=
  some { xReturn := pdPASS, d := d, calls := log }

/-- Switch arm `case XGMAC_PHYWait:` and the fall through to `XGMAC_Ready`. -/
def casePHYWait (cfg : Config) (env : Env) (pxInterface : NetworkInterface_t)
    (d : Driver) (log : List Call) : Option Outcome :=
  let xWaitLinkDelay := cfg.pdMS_TO_TICKS 1000
  match prvPhyCheckLinkStatus cfg env xWaitLinkDelay pxInterface d with
  | none => none
  | some o =>
    let d := o.d
    let log := log ++ o.calls
    if GetPhyLinkStatus d = pdFALSE then
      some { xReturn := pdFAIL, d := d, calls := log }
    else if d.xEMACTaskHandle = NULL then
      let d := { d with xEMACTaskHandle := env.xTaskCreate_ret }
      let log := log ++ [Call.xTaskCreate env.xTaskCreate_ret]
      if d.xEMACTaskHandle = NULL then stageFailed d log
      else caseReady { d with eXGMACState := .XGMAC_Ready } log
    else caseReady { d with eXGMACState := .XGMAC_Ready } log

/-- Switch arm `case XGMAC_EMACStart:` and the fall through. -/
def caseEMACStart (cfg : Config) (env : Env) (pxInterface : NetworkInterface_t)
    (pXGMACHandle : Nat) (d : Driver) (log : List Call) : Option Outcome :=
  let xStatus := env.xgmac_cfg_speed_mode_ret
  let log := log ++ [Call.xgmac_cfg_speed_mode pXGMACHandle xStatus]
  if xStatus ≠ 0 then stageFailed d log
  else
    let xStatus := env.xgmac_emac_start_ret
    let log := log ++ [Call.xgmac_emac_start pXGMACHandle xStatus]
    if xStatus ≠ 0 then stageFailed d log
    else casePHYWait cfg env pxInterface { d with eXGMACState := .XGMAC_PHYWait } log

/-- Switch arm `case XGMAC_DMAInit:`, from `xgmac_dma_initialize` on, and the fall
through. -/
def caseDMAInit_engine (cfg : Config) (env : Env) (pxInterface : NetworkInterface_t)
    (pXGMACHandle : Nat) (d : Driver) (log : List Call) : Option Outcome :=
  let xStatus := env.xgmac_dma_initialize_ret
  let log := log ++ [ Call.xgmac_dma_initialize pXGMACHandle xStatus]
  if xStatus ≠ 0 then stageFailed d log
  else
    match prvUpdateRxDMADescriptors cfg env pxInterface d log with
    | none => none
    | some o =>
      if o.xReturn ≠ pdPASS then stageFailed o.d o.calls
      else
        caseEMACStart cfg env pxInterface pXGMACHandle
          { o.d with eXGMACState := .XGMAC_EMACStart } o.calls

/-- Switch arm `case XGMAC_DMAInit:`, the creation of the Rx pool (copy mode only, and
only while the pool is not marked initialised), and what follows.  The test
`pucBufferPool == NULL` compares the address of the static `RxBufferPool`
with `NULL` and never holds. -/
def caseDMAInit_rx (cfg : Config) (env : Env) (pxInterface : NetworkInterface_t)
    (pXGMACHandle : Nat) (d : Driver) (log : List Call) : Option Outcome :=
  if ¬ cfg.ipconfigZERO_COPY_RX_DRIVER ∧ d.pxRxBufferPool.ucIsInitiazed = 0 then
    let pRxBuf := env.pvPortAlignedAlloc_ret
    let sem : Option Mutex :=
      if env.xSemaphoreCreateMutex_rx_ret then some { held := false } else none
    let r := prvCreateRxBufferPool cfg pRxBuf sem d.xRxBufSynchSem d.pxRxBufferPool
    let log := log ++
      [Call.pvPortAlignedAlloc 64 (cfg.RX_BUFFER_COUNT * cfg.RX_BUFFER_SIZE) pRxBuf] ++
      (if pRxBuf = NULL then []
       else [Call.xSemaphoreCreateMutex env.xSemaphoreCreateMutex_rx_ret])
    let d := { d with xRxBufSynchSem := r.2.1, pxRxBufferPool := r.2.2 }
    if r.1 ≠ pdPASS then stageFailed d log
    else caseDMAInit_engine cfg env pxInterface pXGMACHandle d log
  else caseDMAInit_engine cfg env pxInterface pXGMACHandle d log

/-- Switch arm `case XGMAC_DMAInit:` from its start (the creation of the Tx pool, copy
mode only, and only while the pool is not marked initialised). -/
def caseDMAInit (cfg : Config) (env : Env) (pxInterface : NetworkInterface_t)
    (pXGMACHandle : Nat) (d : Driver) (log : List Call) : Option Outcome :=
  if ¬ cfg.ipconfigZERO_COPY_TX_DRIVER ∧ d.pxTxBufferPool.ucIsInitiazed = 0 then
    let pTxBuf := env.pvPortMalloc_ret
    let sem : Option Mutex :=
      if env.xSemaphoreCreateMutex_tx_ret then some { held := false } else none
    let r := prvCreateTxBufferPool cfg pTxBuf sem d.xTxBufSynchSem d.pxTxBufferPool
    let log := log ++
      [Call.pvPortMalloc (cfg.TX_BUFFER_COUNT * cfg.TX_BUFFER_SIZE) pTxBuf] ++
      (if pTxBuf = NULL then []
       else [Call.xSemaphoreCreateMutex env.xSemaphoreCreateMutex_tx_ret])
    let d := { d with xTxBufSynchSem := r.2.1, pxTxBufferPool := r.2.2 }
    if r.1 ≠ pdPASS then stageFailed d log
    else caseDMAInit_rx cfg env pxInterface pXGMACHandle d log
  else caseDMAInit_rx cfg env pxInterface pXGMACHandle d log

/-- Switch arm `case XGMAC_PHYInit:` and the fall through. -/
def casePHYInit (cfg : Config) (env : Env) (pxInterface : NetworkInterface_t)
    (pXGMACHandle : Nat) (d : Driver) (log : List Call) : Option Outcome :=
  let xStatus := env.xgmac_phy_discover_ret
  let log := log ++ [Call.xgmac_phy_discover pXGMACHandle xStatus]
  if xStatus ≠ 0 then stageFailed d log
  else
    let xStatus := env.xgmac_phy_initialize_ret
    let log := log ++ [ Call.xgmac_phy_initialize pXGMACHandle xStatus]
    if xStatus ≠ 0 then stageFailed d log
    else caseDMAInit cfg env pxInterface pXGMACHandle { d with eXGMACState := .XGMAC_DMAInit } log

/-- Switch arm `case XGMAC_EMACInit:` and the fall through. -/
def caseEMACInit (cfg : Config) (env : Env) (pxInterface : NetworkInterface_t)
    (d : Driver) (log : List Call) : Option Outcome :=
  let inst := pxInterface.pvArgument
  let pXGMACHandle := env.xgmac_emac_init_ret
  let log := log ++ [Call.xgmac_emac_init inst pXGMACHandle]
  let d := { d with hxgmac := fun i => if i = inst then pXGMACHandle else d.hxgmac i }
  if pXGMACHandle = NULL then stageFailed d log
  else
    let xStatus := env.xgmac_set_callback_ret
    let log := log ++ [Call.xgmac_set_callback pXGMACHandle xStatus]
    if xStatus ≠ 0 then stageFailed d log
    else casePHYInit cfg env pxInterface pXGMACHandle { d with eXGMACState := .XGMAC_PHYInit } log

/-- Function `xNetworkInterfaceInitialise`.  `none`: the call does not return (the
`configASSERT` on the counting semaphore, a null pool semaphore, or a link poll
that never ends).  The local `pXGMACHandle` is `NULL` when the `switch` enters
below `XGMAC_EMACInit`. -/
def xNetworkInterfaceInitialise (cfg : Config) (env : Env)
    (pxInterface : NetworkInterface_t) (d : Driver) : Option Outcome :=
  let pXGMACHandle := NULL
  let d := { d with eXGMACState := .XGMAC_EMACInit }
  let log := [Call.xSemaphoreCreateCounting 512 0 env.xSemaphoreCreateCounting_ret]
  if ¬ env.xSemaphoreCreateCounting_ret then none
  else
    let d := { d with xSemaphoreCounterTx := some 0, AgxInterface := some pxInterface }
    match d.eXGMACState with
    | .XGMAC_EMACInit => caseEMACInit cfg env pxInterface d log
    | .XGMAC_PHYInit => casePHYInit cfg env pxInterface pXGMACHandle d log
    | .XGMAC_DMAInit => caseDMAInit cfg env pxInterface pXGMACHandle d log
    | .XGMAC_EMACStart => caseEMACStart cfg env pxInterface pXGMACHandle d log
    | .XGMAC_PHYWait => casePHYWait cfg env pxInterface d log
    | .XGMAC_Ready => caseReady d log
    | .XGMAC_Failed => some { xReturn := pdFAIL, d := d, calls := log }

/-! ## Transmit -/

/-- The tail of `xNetworkInterfaceOutput`: release the stack buffer if asked
to, return `pdTRUE`. -/
def xNetworkInterfaceOutput_release (pxNetworkBuffer : NetworkBufferDescriptor_t)
    (bReleaseAfterSend : BaseType_t) (d : Driver) (log : List Call) : Option Outcome :=
  if bReleaseAfterSend ≠ pdFALSE then
    some { xReturn := pdTRUE, d := d,
           calls := log ++ [Call.vReleaseNetworkBufferAndDescriptor pxNetworkBuffer] }
  else some { xReturn := pdTRUE, d := d, calls := log }

/-- Function `xNetworkInterfaceOutput`.  `none`: the call does not return (the
`configASSERT` on the pool buffer, or a null pool semaphore). -/
def xNetworkInterfaceOutput (cfg : Config) (env : Env) (pxInterface : NetworkInterface_t)
    (pxNetworkBuffer : NetworkBufferDescriptor_t) (bReleaseAfterSend : BaseType_t)
    (d : Driver) : Option Outcome :=
  let inst := pxInterface.pvArgument
  let pXGMACHandle := d.hxgmac inst
  if pXGMACHandle = NULL then some { xReturn := pdFALSE, d := d, calls := [] }
  else if d.ulPHYLinkStatus &&& niBMSR_LINK_STATUS ≠ 0 then
    let ulDataLength := pxNetworkBuffer.xDataLength % 2 ^ 32
    let ulDataLength :=
      if ulDataLength > cfg.XGMAC_MAX_PACKET_SIZE then cfg.XGMAC_MAX_PACKET_SIZE
      else ulDataLength
    if pxNetworkBuffer.pucEthernetBuffer = NULL then
      some { xReturn := pdFALSE, d := d, calls := [] }
    else if cfg.ipconfigZERO_COPY_TX_DRIVER then
      let pucBuffer := pxNetworkBuffer.pucEthernetBuffer
      let bReleaseAfterSend := pdFALSE
      let xStatus := env.xgmac_dma_transmit_ret
      let log := [Call.xgmac_dma_transmit pXGMACHandle pucBuffer ulDataLength xStatus]
      let bReleaseAfterSend := if xStatus ≠ 0 then pdTRUE else bReleaseAfterSend
      xNetworkInterfaceOutput_release pxNetworkBuffer bReleaseAfterSend d log
    else
      match d.pucGetTXBuffer cfg cfg.XGMAC_MAX_PACKET_SIZE with
      | none => none
      | some (pucBuffer, d) =>
        let log := [Call.pucGetTXBuffer cfg.XGMAC_MAX_PACKET_SIZE pucBuffer]
        if pucBuffer = NULL then none
        else
          let d := { d with mem := memcpy d.mem pucBuffer pxNetworkBuffer.pucEthernetBuffer
                                     ulDataLength }
          let xStatus := env.xgmac_dma_transmit_ret
          let log := log ++ [Call.xgmac_dma_transmit pXGMACHandle pucBuffer ulDataLength xStatus]
          let bReleaseAfterSend := if xStatus ≠ 0 then pdTRUE else bReleaseAfterSend
          xNetworkInterfaceOutput_release pxNetworkBuffer bReleaseAfterSend d log
  else xNetworkInterfaceOutput_release pxNetworkBuffer bReleaseAfterSend d []

/-! ## Concrete inputs -/

/-- Memory holding zero everywhere. -/
def zeroMem : Mem := fun _ => 0

/-- The Tx pool of `tiny` after create, an acquire, a release of the null
address and three more acquires. -/
def nullSlotPool : TxPoolState :=
  (execTx tiny (createdTx tiny 4096 (TxBufferPool tiny) zeroMem)
    [.get 16, .release NULL, .get 16, .get 16, .get 16]).2

/-- Every collaborator succeeds and the PHY reports the link up. -/
def envUp : Env where
  xSemaphoreCreateCounting_ret := true
  xgmac_emac_init_ret := 7
  xgmac_set_callback_ret := 0
  xgmac_phy_discover_ret := 0
  xgmac_phy_initialize_ret := 0
  pvPortMalloc_ret := 4096
  xSemaphoreCreateMutex_tx_ret := true
  pvPortAlignedAlloc_ret := 8192
  xSemaphoreCreateMutex_rx_ret := true
  xgmac_dma_initialize_ret := 0
  pxGetNetworkBufferWithDescriptor_ret := fun _ => none
  xgmac_refill_rx_descriptor_ret := fun _ => 0
  xgmac_cfg_speed_mode_ret := 0
  xgmac_emac_start_ret := 0
  read_phy_reg_ret := fun _ => niBMSR_LINK_STATUS
  xTaskCreate_ret := 9
  xgmac_dma_transmit_ret := 0

/-- Every collaborator succeeds and the PHY reports the link down. -/
def envDown : Env := { envUp with read_phy_reg_ret := fun _ => 0 }

/-- Every collaborator succeeds but the PHY discovery. -/
def envPhyFail : Env := { envUp with xgmac_phy_discover_ret := -1 }

/-- The interface of EMAC instance 0. -/
def ifc0 : NetworkInterface_t := { pvArgument := 0 }

/-- The globals after the first call of the initializer, from boot, with every
collaborator succeeding and the link up. -/
def afterReady : Driver :=
  ((xNetworkInterfaceInitialise tiny envUp ifc0 (Driver.boot tiny zeroMem)).map (·.d)).getD
    (Driver.boot tiny zeroMem)

/-- The globals after the first call of the initializer, from boot, with every
collaborator succeeding and the link down. -/
def afterLinkDown : Driver :=
  ((xNetworkInterfaceInitialise tiny envDown ifc0 (Driver.boot tiny zeroMem)).map (·.d)).getD
    (Driver.boot tiny zeroMem)

/-- The globals after the first call of the initializer, from boot, with the
PHY discovery failing. -/
def afterPhyFail : Driver :=
  ((xNetworkInterfaceInitialise tiny envPhyFail ifc0 (Driver.boot tiny zeroMem)).map (·.d)).getD
    (Driver.boot tiny zeroMem)

/-- Every collaborator that the initializer calls before the descriptor
pre-fill succeeds: the counting semaphore, the engine initialisation, the
callback registration, the PHY discovery and initialisation, the allocation of
the two pools, the Tx pool lock and the DMA initialisation. -/
def Env.stagesBeforePrefillSucceed (env : Env) : Prop :=
  env.xSemaphoreCreateCounting_ret = true ∧ env.xgmac_emac_init_ret ≠ NULL ∧
    env.xgmac_set_callback_ret = 0 ∧ env.xgmac_phy_discover_ret = 0 ∧
    env.xgmac_phy_initialize_ret = 0 ∧ env.pvPortMalloc_ret ≠ NULL ∧
    env.xSemaphoreCreateMutex_tx_ret = true ∧ env.pvPortAlignedAlloc_ret ≠ NULL ∧
    env.xgmac_dma_initialize_ret = 0

/-- Every collaborator succeeds but the creation of the lock of the Rx pool. -/
def envRxLockFail : Env := { envUp with xSemaphoreCreateMutex_rx_ret := false }

/-- The globals after the first call of the initializer, from boot, with the
creation of the Rx pool lock failing. -/
def afterRxLockFail : Driver :=
  ((xNetworkInterfaceInitialise tiny envRxLockFail ifc0 (Driver.boot tiny zeroMem)).map
    (·.d)).getD (Driver.boot tiny zeroMem)

/-! ## The ring invariant -/

/-- The ring invariant of a Tx pool: the three indices are in range, the slot
array has `TX_BUFFER_COUNT` entries, and `head` is `tail + used_count` modulo
the capacity. -/
def Ring (cfg : Config) (p : TxBufferPool_t) : Prop :=
  p.usBufUsedCnt ≤ cfg.TX_BUFFER_COUNT ∧ p.usHeadIndex < cfg.TX_BUFFER_COUNT ∧
    p.usTailIndex < cfg.TX_BUFFER_COUNT ∧ p.pTxBuffer.length = cfg.TX_BUFFER_COUNT ∧
    (p.usTailIndex + p.usBufUsedCnt) % cfg.TX_BUFFER_COUNT = p.usHeadIndex

/-! ## Properties of call logs -/

/-- A log in stage order, made of calls of stage at most `k`, none of which
failed. -/
def LogOK (k : Nat) (log : List Call) : Prop :=
  log.Pairwise (fun a b => a.stage ≤ b.stage) ∧ ∀ x ∈ log, x.failed = false ∧ x.stage ≤ k

/-- An outcome whose log is in stage order, in which no call but the last
failed, and which reports failure in state `XGMAC_Failed` if a call failed. -/
def Finished (o : Outcome) : Prop :=
  o.calls.Pairwise (fun a b => a.stage ≤ b.stage) ∧
  (∀ x ∈ o.calls.dropLast, x.failed = false) ∧
  ((∃ x ∈ o.calls, x.failed = true) →
    o.xReturn = pdFAIL ∧ o.d.eXGMACState = .XGMAC_Failed)

/-! ## Link poll: expected call sequence -/

/-- The tick count `k` delays of `delay` ticks after the tick count `start`. -/
def tickAfter (cfg : Config) (start delay k : Nat) : Nat :=
  (start + k * delay) % (cfg.portMAX_DELAY + 1)

/-- The calls of `j` unsuccessful polls, the first of them being poll number `k`
of a wait that started at tick `start`: a read of the PHY status register at
the tick count reached after `i` delays, followed by a delay, for
`i = k, ..., k + j - 1`. -/
def pollCalls (cfg : Config) (env : Env) (h start delay : Nat) : Nat → Nat → List Call
  | _, 0 => []
  | k, j + 1 =>
    Call.read_phy_reg h COPPER_STATUS_REG
        (env.read_phy_reg_ret (tickAfter cfg start delay k)) ::
      Call.vTaskDelay delay :: pollCalls cfg env h start delay (k + 1) j

/-- Whether a call is a read of a PHY register. -/
def Call.isPhyRead : Call → Bool
  | Call.read_phy_reg _ _ _ => true
  | _ => false

/-! ## DMA channel configuration -/

/-- The values that `socfpga_dma.c` takes from headers outside the driver
sources: the error numbers of the C library (`errno.h`) and the bit positions
and masks of the channel configuration register (`socfpga_dma_reg.h`). The
masks are read as 64-bit values. -/
structure DmaConsts where
  EINVAL : Int
  EIO : Int
  EBUSY : Int
  EFAULT : Int
  DMA_CH_CFG2_TT_FC_POS : Nat
  DMA_CH_CFG2_DST_PER_POS : Nat
  DMA_CH_CFG2_SRC_PER_POS : Nat
  DMA_CH_CFG2_DST_MULTBLK_TYPE_MASK : Nat
  DMA_CH_CFG2_SRC_MULTBLK_TYPE_MASK : Nat
  DMA_CH_CFG2_DST_MULTBLK_TYPE_POS : Nat
  DMA_CH_CFG2_SRC_MULTBLK_TYPE_POS : Nat

/-- First value of `dma_ch_state_t`: the channel is idle. -/
def DMA_CH_IDLE : Nat := 0

/-- Value of `dma_ch_state_t`: the channel is active. -/
def DMA_CH_ACTIVE : Nat := 3

/-- Value of `dma_xfer_type_t`: memory to peripheral, DMAC as flow controller. -/
def DMA_MEM_TO_PERI_DMAC : Nat := 1

/-- Value of `dma_xfer_type_t`: peripheral to memory, DMAC as flow controller. -/
def DMA_PERI_TO_MEM_DMAC : Nat := 2

/-- Value of `dma_multi_blk_xfer_type_t`: multi-block linked list transfer. -/
def DMA_MULTI_BLK_LL : Nat := 3

/-- The channel configuration `dma_config_t`; the field `instance` of the source
is `inst` here, and the callback is the address of the function. -/
structure dma_config_t where
  inst : Nat
  ch_dir : Nat
  ch_prio : Nat
  peri_id : Nat
  callback : Nat
deriving DecidableEq, Repr

/-- The channel context `struct dma_ch_cntxt`; pointers are addresses. -/
structure dma_ch_cntxt where
  is_open : BaseType_t
  base_address : Nat
  ch_offset : Nat
  channel_num : Nat
  channel_state : Nat
  intr_id : Nat
  linked_list_base : Nat
  direction : Nat
  config : Nat
  interrupt_en : Nat
  xp_dma_callback : Nat
deriving DecidableEq, Repr

/-- The value of `hdma->config` that `dma_config` builds (64-bit register image;
`MULTI_BLK_LLI_MODE_ENABLED` is defined in the file, so the linked-list type is
written with 32-bit shifts). -/
def dma_config_word (k : DmaConsts) (pcfg : dma_config_t) : Nat :=
  let c0 : Nat := 0
  let c1 := c0 ||| (pcfg.ch_dir <<< k.DMA_CH_CFG2_TT_FC_POS) % 2 ^ 64
  let c2 := if pcfg.ch_dir = DMA_MEM_TO_PERI_DMAC then
      c1 ||| (pcfg.peri_id <<< k.DMA_CH_CFG2_DST_PER_POS) % 2 ^ 64
    else c1
  let c3 := if pcfg.ch_dir = DMA_PERI_TO_MEM_DMAC then
      c2 ||| (pcfg.peri_id <<< k.DMA_CH_CFG2_SRC_PER_POS) % 2 ^ 64
    else c2
  let c4 := c3 &&& ((2 ^ 64 - 1) ^^^
      ((k.DMA_CH_CFG2_DST_MULTBLK_TYPE_MASK ||| k.DMA_CH_CFG2_SRC_MULTBLK_TYPE_MASK) % 2 ^ 64))
  c4 ||| ((DMA_MULTI_BLK_LL <<< k.DMA_CH_CFG2_DST_MULTBLK_TYPE_POS) % 2 ^ 32 |||
    (DMA_MULTI_BLK_LL <<< k.DMA_CH_CFG2_SRC_MULTBLK_TYPE_POS) % 2 ^ 32)

/-- Embedding of `dma_config` (socfpga_dma.c): the handle is `none` for `NULL` and
the channel context it points to otherwise; the result is the returned code and
the context after the call. -/
def dma_config (k : DmaConsts) (hdma : Option dma_ch_cntxt) (pcfg : dma_config_t) :
    Int × Option dma_ch_cntxt :=
  match hdma with
  | none => (-k.EINVAL, none)
  | some c =>
    if c.is_open ≠ 1 then (-k.EFAULT, some c)
    else if c.channel_state ≠ DMA_CH_IDLE then (-k.EBUSY, some c)
    else
      (0, some { c with
        config := dma_config_word k pcfg
        interrupt_en := 0
        direction := pcfg.ch_dir
        xp_dma_callback := pcfg.callback })

/-- Sample header values: the error numbers of newlib and Linux, and the
`CHx_CFG2` layout of the DesignWare AXI DMA controller. -/
def dmaConsts0 : DmaConsts :=
  { EINVAL := 22, EIO := 5, EBUSY := 16, EFAULT := 14
    DMA_CH_CFG2_TT_FC_POS := 32
    DMA_CH_CFG2_DST_PER_POS := 11
    DMA_CH_CFG2_SRC_PER_POS := 4
    DMA_CH_CFG2_DST_MULTBLK_TYPE_MASK := 12
    DMA_CH_CFG2_SRC_MULTBLK_TYPE_MASK := 3
    DMA_CH_CFG2_DST_MULTBLK_TYPE_POS := 2
    DMA_CH_CFG2_SRC_MULTBLK_TYPE_POS := 0 }

/-- A channel context as `memset` leaves it: never opened. -/
def dmaClosed : dma_ch_cntxt :=
  { is_open := 0, base_address := 0, ch_offset := 0, channel_num := 0
    channel_state := DMA_CH_IDLE, intr_id := 0, linked_list_base := 0, direction := 0
    config := 0, interrupt_en := 0, xp_dma_callback := 0 }

/-- A memory-to-peripheral configuration with a callback at address 64. -/
def dmaCfg0 : dma_config_t :=
  { inst := 0, ch_dir := DMA_MEM_TO_PERI_DMAC, ch_prio := 0, peri_id := 8, callback := 64 }

/-! ## Receive -/

/-- The macros of the receive path that come from the engine driver's header
and from the stack configuration, neither of which is part of the sources. -/
structure RxConsts where
  RDES3_NORM_WR_LD_MASK : Nat
  RDES3_NORM_WR_ES_MASK : Nat
  XGMAC_RX_PACKET_ERROR : Nat
  ipconfigUSE_LINKED_RX_MESSAGES : Bool

/-- Modelled from the spec: the verdict of the frame-type filter
`eConsiderFrameForProcessing`, accept (`eProcessBuffer`) or drop. -/
inductive eFrameProcessingResult_t where
  | eReleaseBuffer
  | eProcessBuffer
deriving DecidableEq, Repr

/-- The fields of `xgmac_rx_buf_t` that the receive path reads. -/
structure xgmac_rx_buf_t where
  buf : Nat
  size : Nat
  packet_status : Nat
deriving DecidableEq, Repr

/-- What the collaborators answer while the receive path handles one completed
descriptor: the engine's status and descriptor, the filter, the stack
allocator, the buffer-to-descriptor lookup, the end-point match, the stack's
queue and the refill. -/
structure RxStep where
  xgmac_dma_receive_ret : Int
  xDMARxBufferIn : xgmac_rx_buf_t
  eConsiderFrameForProcessing_ret : eFrameProcessingResult_t
  pxGetNetworkBufferWithDescriptor_ret : Option NetworkBufferDescriptor_t
  pxPacketBuffer_to_NetworkBuffer_ret : Option NetworkBufferDescriptor_t
  FreeRTOS_MatchingEndpoint_ret : Nat
  xSendEventStructToIPTask_ret : BaseType_t
  xgmac_refill_rx_descriptor_ret : Int
deriving DecidableEq, Repr

/-- A function call made by the receive path, with its arguments and its
result.  The descriptor list of `xSendEventStructToIPTask` is the descriptor
handed over followed by the ones reachable from it through `pxNextBuffer`. -/
inductive RxCall where
  | xgmac_dma_receive (h : Nat) (status : Int)
  | eConsiderFrameForProcessing (buf : Nat) (verdict : eFrameProcessingResult_t)
  | pxGetNetworkBufferWithDescriptor (size ticks : Nat)
      (desc : Option NetworkBufferDescriptor_t)
  | pxPacketBuffer_to_NetworkBuffer (buf : Nat) (desc : Option NetworkBufferDescriptor_t)
  | FreeRTOS_MatchingEndpoint (pxInterface : Option NetworkInterface_t) (buf : Nat)
      (endPoint : Nat)
  | xSendEventStructToIPTask (descs : List NetworkBufferDescriptor_t) (ticks : Nat)
      (ret : BaseType_t)
  | vReleaseNetworkBufferAndDescriptor (desc : NetworkBufferDescriptor_t)
  | xgmac_refill_rx_descriptor (h buf : Nat) (status : Int)
deriving DecidableEq, Repr

/-- Embedding of `prvPassEthMessages`: the calls it makes for the descriptor (or
chain) `pxDescriptor`, given the answer `ret` of the stack's queue. -/
def prvPassEthMessages (k : RxConsts) (pxDescriptor : List NetworkBufferDescriptor_t)
    (ret : BaseType_t) : List RxCall :=
  RxCall.xSendEventStructToIPTask pxDescriptor 1000 ret ::
    (if ret ≠ pdPASS then
      (if k.ipconfigUSE_LINKED_RX_MESSAGES then
        pxDescriptor.map RxCall.vReleaseNetworkBufferAndDescriptor
      else
        (pxDescriptor.take 1).map RxCall.vReleaseNetworkBufferAndDescriptor)
    else [])

/-- The local state of the loop of `prvNetworkInterfaceInput`: the counter
`msgCount`, the chain from `pxFirstDescriptor` to `pxLastDescriptor` (empty
when both are `NULL`), the memory and the calls made so far. -/
structure RxLoop where
  msgCount : Int
  chain : List NetworkBufferDescriptor_t
  mem : Mem
  calls : List RxCall

/-- How one pass of the loop of `prvNetworkInterfaceInput` ends: at the bottom
of the loop (`next`), at a `break`, or at `return 0`. -/
inductive RxExit where
  | next
  | brk
  | ret0
deriving DecidableEq, Repr

/-- The classification of a received frame in `prvNetworkInterfaceInput`:
`some new` when `xSendPacket` stays `pdTRUE`, with `new` the replacement
descriptor `pxNewBufferDesc`, and `none` when `xSendPacket` becomes `pdFALSE`;
with the calls made. -/
def prvNetworkInterfaceInput_classify (cfg : Config) (k : RxConsts) (a : RxStep) :
    Option NetworkBufferDescriptor_t × List RxCall :=
  let pucEthernetBuffer := a.xDMARxBufferIn.buf
  let ulPacketStatus := a.xDMARxBufferIn.packet_status % 2 ^ 32
  if ulPacketStatus &&& (k.RDES3_NORM_WR_LD_MASK ||| k.RDES3_NORM_WR_ES_MASK) =
      k.XGMAC_RX_PACKET_ERROR then
    (none, [])
  else if a.eConsiderFrameForProcessing_ret ≠ eFrameProcessingResult_t.eProcessBuffer then
    (none, [RxCall.eConsiderFrameForProcessing pucEthernetBuffer
      a.eConsiderFrameForProcessing_ret])
  else
    (a.pxGetNetworkBufferWithDescriptor_ret,
      [RxCall.eConsiderFrameForProcessing pucEthernetBuffer a.eConsiderFrameForProcessing_ret,
       RxCall.pxGetNetworkBufferWithDescriptor cfg.XGMAC_MAX_PACKET_SIZE 0
         a.pxGetNetworkBufferWithDescriptor_ret])

/-- The bottom of a pass of the loop: the null checks and the refill of the
hardware descriptor with `pucRefillRxBuffer`. -/
def prvNetworkInterfaceInput_refill (pXGMACHandle : Nat) (a : RxStep)
    (pucRefillRxBuffer : Nat) (s : RxLoop) : RxExit × RxLoop :=
  if pXGMACHandle = NULL ∨ pucRefillRxBuffer = NULL then (RxExit.ret0, s)
  else
    let s1 := { s with calls := s.calls ++
      [RxCall.xgmac_refill_rx_descriptor pXGMACHandle pucRefillRxBuffer
        a.xgmac_refill_rx_descriptor_ret] }
    if a.xgmac_refill_rx_descriptor_ret ≠ 0 then (RxExit.brk, s1) else (RxExit.next, s1)

/-- The data length `xReceivedPacketLength - 4U` of an accepted frame, computed
in `size_t`, which has 64 bits on the port of the sources (`ARM_CA55_64_BIT`). -/
def rxDataLength (xReceivedPacketLength : Nat) : Nat :=
  (xReceivedPacketLength + 2 ^ 64 - 4) % 2 ^ 64

/-- One pass of the `do ... while( true )` loop of `prvNetworkInterfaceInput`
with the answers `a`; `none` when `configASSERT` stops the task. -/
def prvNetworkInterfaceInput_pass (cfg : Config) (k : RxConsts) (pXGMACHandle : Nat)
    (AgxInterface : Option NetworkInterface_t) (a : RxStep) (s : RxLoop) :
    Option (RxExit × RxLoop) :=
  let s0 := { s with calls := s.calls ++
    [RxCall.xgmac_dma_receive pXGMACHandle a.xgmac_dma_receive_ret] }
  if a.xgmac_dma_receive_ret ≠ 0 then some (RxExit.brk, s0)
  else
    let pucEthernetBuffer := a.xDMARxBufferIn.buf
    let xReceivedPacketLength := a.xDMARxBufferIn.size % 2 ^ 64
    if pucEthernetBuffer = NULL then some (RxExit.brk, s0)
    else
      let s1 := { s0 with calls := s0.calls ++
        (prvNetworkInterfaceInput_classify cfg k a).2 }
      match (prvNetworkInterfaceInput_classify cfg k a).1 with
      | none => some (prvNetworkInterfaceInput_refill pXGMACHandle a pucEthernetBuffer s1)
      | some pxNewBufferDesc =>
        let lookup :=
          if cfg.ipconfigZERO_COPY_RX_DRIVER then a.pxPacketBuffer_to_NetworkBuffer_ret
          else some pxNewBufferDesc
        match lookup with
        | none => none
        | some pxCurrentBufferDesc =>
          let s2 : RxLoop :=
            if cfg.ipconfigZERO_COPY_RX_DRIVER then
              { s1 with calls := s1.calls ++
                [RxCall.pxPacketBuffer_to_NetworkBuffer pucEthernetBuffer
                  a.pxPacketBuffer_to_NetworkBuffer_ret] }
            else
              { s1 with
                mem := memcpy s1.mem pxNewBufferDesc.pucEthernetBuffer pucEthernetBuffer
                  xReceivedPacketLength }
          let pucRefillRxBuffer :=
            if cfg.ipconfigZERO_COPY_RX_DRIVER then pxNewBufferDesc.pucEthernetBuffer
            else pucEthernetBuffer
          let stamped : NetworkBufferDescriptor_t :=
            { pxCurrentBufferDesc with
              xDataLength := rxDataLength xReceivedPacketLength
              pxInterface := AgxInterface
              pxEndPoint := a.FreeRTOS_MatchingEndpoint_ret }
          let s3 := { s2 with calls := s2.calls ++
            [RxCall.FreeRTOS_MatchingEndpoint AgxInterface
              pxCurrentBufferDesc.pucEthernetBuffer a.FreeRTOS_MatchingEndpoint_ret] }
          let s4 : RxLoop :=
            if k.ipconfigUSE_LINKED_RX_MESSAGES then
              { s3 with chain := s3.chain ++ [stamped] }
            else
              { s3 with calls := s3.calls ++
                prvPassEthMessages k [stamped] a.xSendEventStructToIPTask_ret }
          let s5 := { s4 with msgCount := s4.msgCount + 1 }
          some (prvNetworkInterfaceInput_refill pXGMACHandle a pucRefillRxBuffer s5)

/-- The loop of `prvNetworkInterfaceInput` over the answers of the
collaborators, one entry per call of `xgmac_dma_receive`; `none` when the
answers run out before the loop is left. -/
def prvNetworkInterfaceInput_loop (cfg : Config) (k : RxConsts) (pXGMACHandle : Nat)
    (AgxInterface : Option NetworkInterface_t) : List RxStep → RxLoop →
    Option (RxExit × RxLoop)
  | [], _ => none
  | a :: rest, s =>
    match prvNetworkInterfaceInput_pass cfg k pXGMACHandle AgxInterface a s with
    | none => none
    | some (RxExit.next, s1) =>
      prvNetworkInterfaceInput_loop cfg k pXGMACHandle AgxInterface rest s1
    | some (e, s1) => some (e, s1)

/-- What `prvNetworkInterfaceInput` hands back: its return value, the globals
after the call and the calls it made, in order. -/
structure RxOutcome where
  xReturn : BaseType_t
  d : Driver
  calls : List RxCall

/-- Embedding of `prvNetworkInterfaceInput`.  `rx` holds the answers of the
collaborators for each pass of the loop and `chain_ret` the answer of the
stack's queue to the chain that linked-message mode passes after the loop.
The counter `msgCount` is an `int` in the source and is not bounded here. -/
def prvNetworkInterfaceInput (cfg : Config) (k : RxConsts) (rx : List RxStep)
    (chain_ret : BaseType_t) (pxInterface : NetworkInterface_t) (d : Driver) :
    Option RxOutcome :=
  let pXGMACHandle := d.hxgmac pxInterface.pvArgument
  match prvNetworkInterfaceInput_loop cfg k pXGMACHandle d.AgxInterface rx
      { msgCount := 0, chain := [], mem := d.mem, calls := [] } with
  | none => none
  | some (RxExit.ret0, s) =>
    some { xReturn := 0
           d := { d with mem := s.mem }
           calls := s.calls }
  | some (_, s) =>
    some { xReturn := s.msgCount
           d := { d with mem := s.mem }
           calls := if k.ipconfigUSE_LINKED_RX_MESSAGES ∧ s.chain ≠ [] then
               s.calls ++ prvPassEthMessages k s.chain chain_ret
             else s.calls }

/-! ## Receive: measures of a call log and concrete inputs -/

/-- Whether a call is a refill of a hardware receive descriptor. -/
def RxCall.isRefill : RxCall → Bool
  | RxCall.xgmac_refill_rx_descriptor _ _ _ => true
  | _ => false

/-- Whether a call is a request to the stack allocator. -/
def RxCall.isAlloc : RxCall → Bool
  | RxCall.pxGetNetworkBufferWithDescriptor _ _ _ => true
  | _ => false

/-- Whether a call hands descriptors to the stack's queue. -/
def RxCall.isQueueSend : RxCall → Bool
  | RxCall.xSendEventStructToIPTask _ _ _ => true
  | _ => false

/-- Whether a call is the end-point match, made once for each frame that the
receive path accepts. -/
def RxCall.isAccept : RxCall → Bool
  | RxCall.FreeRTOS_MatchingEndpoint _ _ _ => true
  | _ => false

/-- The number of frames a call forwards to the stack: the descriptors of a
queue submission that the queue took (`pdPASS`), none otherwise. -/
def RxCall.forwarded : RxCall → Nat
  | RxCall.xSendEventStructToIPTask descs _ ret => if ret = pdPASS then descs.length else 0
  | _ => 0

/-- The number of frames that the calls of a log forwarded to the stack's queue
successfully. -/
def rxForwarded (calls : List RxCall) : Nat := (calls.map RxCall.forwarded).sum

/-- The number of frames that the calls of a log accepted. -/
def rxAccepted (calls : List RxCall) : Nat := (calls.filter RxCall.isAccept).length

/-- A pass of the receive loop that started in state `s` and ended as `r` made
exactly one refill, of address `addr` answered `ret`, and goes on to the next
pass when the refill succeeded and leaves the loop when it failed. -/
def RefillsOnce (s : RxLoop) (h addr : Nat) (ret : Int) (r : Option (RxExit × RxLoop)) :
    Prop :=
  ∃ e s1 cs, r = some (e, s1) ∧ s1.calls = s.calls ++ cs ∧
    cs.filter RxCall.isRefill = [RxCall.xgmac_refill_rx_descriptor h addr ret] ∧
    e = (if ret ≠ 0 then RxExit.brk else RxExit.next)

/-- Sample values of the receive macros: last-descriptor bit 28 and
error-summary bit 15 of the descriptor word, an error frame having both;
per-frame delivery. -/
def rxConsts0 : RxConsts where
  RDES3_NORM_WR_LD_MASK := 2 ^ 28
  RDES3_NORM_WR_ES_MASK := 2 ^ 15
  XGMAC_RX_PACKET_ERROR := 2 ^ 28 + 2 ^ 15
  ipconfigUSE_LINKED_RX_MESSAGES := false

/-- Answers for a frame of `size` bytes received without error in the buffer at
8192: the filter accepts it, the allocator gives a replacement descriptor with
payload at 500, the queue answers `queue_ret` and the refill succeeds. -/
def rxGood (size : Nat) (queue_ret : BaseType_t) : RxStep where
  xgmac_dma_receive_ret := 0
  xDMARxBufferIn := { buf := 8192, size := size, packet_status := 2 ^ 28 }
  eConsiderFrameForProcessing_ret := eFrameProcessingResult_t.eProcessBuffer
  pxGetNetworkBufferWithDescriptor_ret := some { pucEthernetBuffer := 500, xDataLength := 16 }
  pxPacketBuffer_to_NetworkBuffer_ret := some { pucEthernetBuffer := 8192, xDataLength := 16 }
  FreeRTOS_MatchingEndpoint_ret := 77
  xSendEventStructToIPTask_ret := queue_ret
  xgmac_refill_rx_descriptor_ret := 0

/-- Answers for a frame received with the error status. -/
def rxBad : RxStep :=
  { rxGood 64 pdPASS with
    xDMARxBufferIn := { buf := 8192, size := 64, packet_status := 2 ^ 28 + 2 ^ 15 } }

/-- Answers of an engine that has no completed descriptor. -/
def rxNone : RxStep := { rxGood 0 pdPASS with xgmac_dma_receive_ret := -1 }

/-- The state of the receive loop at the start of a drain. -/
def rxStart (mem : Mem) : RxLoop := { msgCount := 0, chain := [], mem := mem, calls := [] }

/-- The configuration `tiny` with zero-copy reception. -/
def tinyZeroCopy : Config := { tiny with ipconfigZERO_COPY_RX_DRIVER := true }

/-- The state of the loop after an accepted frame was stamped, chained or passed
on, and counted. -/
def rxAcceptedState (cfg : Config) (k : RxConsts) (h : Nat)
    (ifc : Option NetworkInterface_t) (a : RxStep) (s : RxLoop)
    (new cur : NetworkBufferDescriptor_t) : RxLoop :=
  let stamped : NetworkBufferDescriptor_t :=
    { cur with
      xDataLength := rxDataLength (a.xDMARxBufferIn.size % 2 ^ 64)
      pxInterface := ifc
      pxEndPoint := a.FreeRTOS_MatchingEndpoint_ret }
  { msgCount := s.msgCount + 1
    chain := if k.ipconfigUSE_LINKED_RX_MESSAGES then s.chain ++ [stamped] else s.chain
    mem := if cfg.ipconfigZERO_COPY_RX_DRIVER then s.mem
      else memcpy s.mem new.pucEthernetBuffer a.xDMARxBufferIn.buf
        (a.xDMARxBufferIn.size % 2 ^ 64)
    calls := s.calls ++ (RxCall.xgmac_dma_receive h 0 ::
      (prvNetworkInterfaceInput_classify cfg k a).2 ++
      (if cfg.ipconfigZERO_COPY_RX_DRIVER then
        [RxCall.pxPacketBuffer_to_NetworkBuffer a.xDMARxBufferIn.buf
          a.pxPacketBuffer_to_NetworkBuffer_ret]
       else []) ++
      [RxCall.FreeRTOS_MatchingEndpoint ifc cur.pucEthernetBuffer
        a.FreeRTOS_MatchingEndpoint_ret] ++
      (if k.ipconfigUSE_LINKED_RX_MESSAGES then []
       else prvPassEthMessages k [stamped] a.xSendEventStructToIPTask_ret)) }

/-- The invariant of the receive loop: the counter is the number of frames
accepted so far, which bounds the number forwarded; in linked-message mode
nothing was forwarded yet and the chain holds the accepted frames. -/
def RxInv (k : RxConsts) (s : RxLoop) : Prop :=
  s.msgCount = (rxAccepted s.calls : Int) ∧ rxForwarded s.calls ≤ rxAccepted s.calls ∧
    (k.ipconfigUSE_LINKED_RX_MESSAGES = true →
      rxForwarded s.calls = 0 ∧ s.chain.length = rxAccepted s.calls)

/-! ## Interrupt callback and deferred task -/

/-- Macro `#define XGMAC_IF_RX_EVENT 1U` -/
def XGMAC_IF_RX_EVENT : Nat := 1

/-- Macro `#define XGMAC_IF_TX_EVENT 2U` -/
def XGMAC_IF_TX_EVENT : Nat := 2

/-- Macro `#define XGMAC_IF_ERR_EVENT 4U` -/
def XGMAC_IF_ERR_EVENT : Nat := 4

/-- Macro `#define XGMAC_IF_ALL_EVENT` -/
def XGMAC_IF_ALL_EVENT : Nat := XGMAC_IF_RX_EVENT ||| XGMAC_IF_TX_EVENT ||| XGMAC_IF_ERR_EVENT

/-- Modelled from the spec: the hardware events that the engine driver reports
to the callback (`xgmac_int_status_t`): receive, transmit complete, error, or
any other value. -/
inductive xgmac_int_status_t where
  | XGMAC_RX_EVENT
  | XGMAC_TX_DONE_EVENT
  | XGMAC_ERR_EVENT
  | other (n : Nat)
deriving DecidableEq, Repr

/-- The fields of `xgmac_err_info_t` that the callback reads. -/
structure xgmac_err_info_t where
  err_type : Nat
  err_ch : Nat
deriving DecidableEq, Repr

/-- A call made by the interrupt callback. -/
inductive IsrCall where
  | xSemaphoreGiveFromISR
  | xTaskNotifyFromISR (xTaskToNotify ulValue : Nat)
deriving DecidableEq, Repr

/-- What the interrupt callback leaves behind: the globals, the notification
value of the deferred task and the calls it made. -/
structure IsrOutcome where
  d : Driver
  ulNotifiedValue : Nat
  calls : List IsrCall

/-- The value of `ulISREvent` that `prvEMACIRQHanlderCallback` builds for an
event (32-bit). -/
def prvEMACIRQHanlderCallback_word (xIntrStatus : xgmac_int_status_t)
    (pxIntData : xgmac_err_info_t) : Nat :=
  let ulISREvent : Nat := 0
  match xIntrStatus with
  | xgmac_int_status_t.XGMAC_RX_EVENT => XGMAC_IF_RX_EVENT
  | xgmac_int_status_t.XGMAC_TX_DONE_EVENT => XGMAC_IF_TX_EVENT
  | xgmac_int_status_t.XGMAC_ERR_EVENT =>
    let e1 := ulISREvent ||| ((pxIntData.err_type % 2 ^ 32) <<< 24) % 2 ^ 32
    let e2 := e1 ||| ((pxIntData.err_ch % 2 ^ 32) <<< 16) % 2 ^ 32
    e2 ||| XGMAC_IF_ERR_EVENT
  | xgmac_int_status_t.other _ => ulISREvent

/-- Embedding of `prvEMACIRQHanlderCallback`.  The notification value of the
deferred task is modelled from the spec: `xTaskNotifyFromISR` with `eSetBits`
ORs the word into it.  The completion counter holds at most 512, the limit it
is created with; `none` when the counter was never created. -/
def prvEMACIRQHanlderCallback (xIntrStatus : xgmac_int_status_t)
    (pxIntData : xgmac_err_info_t) (d : Driver) (ulNotifiedValue : Nat) :
    Option IsrOutcome :=
  if d.xEMACTaskHandle ≠ NULL then
    let ulISREvent := prvEMACIRQHanlderCallback_word xIntrStatus pxIntData
    let notify := IsrCall.xTaskNotifyFromISR d.xEMACTaskHandle ulISREvent
    if xIntrStatus = xgmac_int_status_t.XGMAC_TX_DONE_EVENT then
      match d.xSemaphoreCounterTx with
      | none => none
      | some n =>
        some { d := { d with xSemaphoreCounterTx := some (if n < 512 then n + 1 else n) }
               ulNotifiedValue := ulNotifiedValue ||| ulISREvent
               calls := [IsrCall.xSemaphoreGiveFromISR, notify] }
    else
      some { d := d
             ulNotifiedValue := ulNotifiedValue ||| ulISREvent
             calls := [notify] }
  else some { d := d, ulNotifiedValue := ulNotifiedValue, calls := [] }

/-- Modelled from the spec: `xTaskNotifyWait( 0U, ulBitsToClearOnExit, &v, t )`
hands out the notification value and clears the given bits in it; the result
is the value handed out and the value kept (32-bit). -/
def xTaskNotifyWait (ulBitsToClearOnExit ulNotifiedValue : Nat) : Nat × Nat :=
  (ulNotifiedValue, ulNotifiedValue &&& ((2 ^ 32 - 1) ^^^ (ulBitsToClearOnExit % 2 ^ 32)))

/-- A handler called by the deferred task, with its arguments. -/
inductive TaskCall where
  | prvNetworkInterfaceInput
  | prvNetworkInterfaceOutDone
  | prvHandleErrorEvents (ucErrStatus ucErrChnlNum : Nat)
deriving DecidableEq, Repr

/-- The dispatch of one pass of the `for( ; ; )` loop of `prvEMACHandlerTask` on
the value `ulISREvents` that the wait handed out: the handlers it calls, in
order, when each of them returns; the error type and the channel are cut to
`uint8_t`.  The link check that follows is not part of this function. -/
def prvEMACHandlerTask_dispatch (ulISREvents : Nat) : List TaskCall :=
  (if ulISREvents &&& XGMAC_IF_RX_EVENT ≠ 0 then [TaskCall.prvNetworkInterfaceInput] else []) ++
  (if ulISREvents &&& XGMAC_IF_TX_EVENT ≠ 0 then [TaskCall.prvNetworkInterfaceOutDone]
    else []) ++
  (if ulISREvents &&& XGMAC_IF_ERR_EVENT ≠ 0 then
    [TaskCall.prvHandleErrorEvents ((ulISREvents >>> 24) % 2 ^ 8)
      (((ulISREvents >>> 16) &&& 0xFFFF) % 2 ^ 8)]
   else [])

/-! ## Buffer pool: outstanding addresses -/

/-- Runs a sequence of Tx pool events while keeping the list of outstanding
addresses: those an acquire returned (a null result is a failure and hands out
nothing) and no release has taken back since with `pdPASS`.  The result is
`none` when a release is given an address that is not outstanding. -/
def execTxOwned (cfg : Config) :
    TxPoolState → List Nat → List TxPoolEvent → Option (TxPoolState × List Nat)
  | st, out, [] => some (st, out)
  | st, out, TxPoolEvent.get w :: es =>
    execTxOwned cfg (pucGetTXBuffer cfg st w).2
      (if (pucGetTXBuffer cfg st w).1 = NULL then out else (pucGetTXBuffer cfg st w).1 :: out) es
  | st, out, TxPoolEvent.release b :: es =>
    if b ∈ out then
      execTxOwned cfg (pucReleaseTXBuffer cfg st b).2
        (if (pucReleaseTXBuffer cfg st b).1 = pdPASS then out.erase b else out) es
    else none
  | st, out, TxPoolEvent.lock h :: es =>
    execTxOwned cfg { st with xTxBufSynchSem := { held := h } } out es

/-- The addresses in the `CAPACITY - used_count` slots of a Tx pool starting at
`head`, in ring order: the buffers the pool can still hand out. -/
def freeSlots (cfg : Config) (p : TxBufferPool_t) : List Nat :=
  (List.range (cfg.TX_BUFFER_COUNT - p.usBufUsedCnt)).map
    (fun k => p.pTxBuffer.getD ((p.usHeadIndex + k) % cfg.TX_BUFFER_COUNT) NULL)

/-- The slot addresses of the backing region of a Tx pool at `base`. -/
def slotAddresses (cfg : Config) (base : Nat) : List Nat :=
  (List.range cfg.TX_BUFFER_COUNT).map (fun i => base + i * cfg.TX_BUFFER_SIZE)

/-- The ownership invariant of a Tx pool over the region at `base`: the ring
invariant, and the free slots together with the outstanding addresses are the
slot addresses of the region, each once. -/
def Owned (cfg : Config) (base : Nat) (st : TxPoolState) (out : List Nat) : Prop :=
  Ring cfg st.pool ∧ (freeSlots cfg st.pool ++ out).Perm (slotAddresses cfg base)

/-! ## DMA transfer setup -/

/-- Macro `#define MAX_LLI_PER_CHANNEL 10U` -/
def MAX_LLI_PER_CHANNEL : Nat := 10

/-- Macro `#define MAX_BLOCK_SIZE 0x7FFFU` -/
def MAX_BLOCK_SIZE : Nat := 0x7FFF

/-- Value of `dma_xfer_type_t`: memory to memory, DMAC as flow controller. -/
def DMA_MEM_TO_MEM_DMAC : Nat := 0

/-- Value of `dma_burst_len_t`: bursts of 4. -/
def DMA_BURST_LEN_4 : Nat := 1

/-- Value of `dma_burst_len_t`: bursts of 16. -/
def DMA_BURST_LEN_16 : Nat := 3

/-- The bit positions and masks of the channel control register and the
interrupt mask that `dma_setup_transfer` takes from `socfpga_dma_reg.h`, which
is not part of the sources. -/
structure DmaCtlConsts where
  DMA_CH_CTL_SRC_TR_WIDTH_POS : Nat
  DMA_CH_CTL_DST_TR_WIDTH_POS : Nat
  DMA_CH_CTL_SRC_MSIZE_POS : Nat
  DMA_CH_CTL_DST_MSIZE_POS : Nat
  DMA_CH_CTL_DST_STAT_EN_MASK : Nat
  DMA_CH_CTL_SRC_STAT_EN_MASK : Nat
  DMA_CH_CTL_IOC_BLKTFR_MASK : Nat
  DMA_CH_CTL_SHADOWREG_OR_LLI_VALID_POS : Nat
  DMA_CH_CTL_SHADOWREG_OR_LLI_LAST_POS : Nat
  TFR_DONE_MASK : Nat

/-- One block of a transfer, `dma_xfer_cfg_t`; the pointer `next_trnsfr_cfg` is
the rest of the list that holds the block, `NULL` at its end. -/
structure dma_xfer_cfg_t where
  src : Nat
  dst : Nat
  blk_size : Nat
deriving DecidableEq, Repr

/-- The fields of a descriptor `struct dma_channel_reg_list` that
`dma_setup_transfer` writes.  The structure is packed to 64 bytes. -/
structure dma_channel_reg_list where
  sar : Nat
  dar : Nat
  block_ts : Nat
  llp : Nat
  ctl : Nat
deriving DecidableEq, Repr

/-- Function `dma_get_burst_len`: the source and destination burst lengths. -/
def dma_get_burst_len (hdma : dma_ch_cntxt) : Nat × Nat :=
  if hdma.direction = DMA_MEM_TO_MEM_DMAC then (DMA_BURST_LEN_16, DMA_BURST_LEN_16)
  else (DMA_BURST_LEN_4, DMA_BURST_LEN_4)

/-- The control word `transfer_size` that the loop of `dma_setup_transfer`
builds for every block (64-bit). -/
def dma_setup_transfer_ctl (kc : DmaCtlConsts) (hdma : dma_ch_cntxt)
    (src_width dst_width : Nat) : Nat :=
  let t0 := (src_width <<< kc.DMA_CH_CTL_SRC_TR_WIDTH_POS) % 2 ^ 64 |||
    (dst_width <<< kc.DMA_CH_CTL_DST_TR_WIDTH_POS) % 2 ^ 64
  let t1 := t0 |||
    (((dma_get_burst_len hdma).1 <<< kc.DMA_CH_CTL_SRC_MSIZE_POS) % 2 ^ 64 |||
      ((dma_get_burst_len hdma).2 <<< kc.DMA_CH_CTL_DST_MSIZE_POS) % 2 ^ 64)
  t1 ||| ((kc.DMA_CH_CTL_DST_STAT_EN_MASK ||| kc.DMA_CH_CTL_SRC_STAT_EN_MASK) |||
    kc.DMA_CH_CTL_IOC_BLKTFR_MASK) % 2 ^ 64

/-- The `for` loop of `dma_setup_transfer` with `n` passes left, `i` the index of
the next pass, `ptransfer_cfg` the rest of the transfer list and `acc` the
descriptors written so far: the error code of an early return, or `none` when
the loop ends, and the descriptors written. -/
def dma_setup_transfer_loop (k : DmaConsts) (kc : DmaCtlConsts) (hdma : dma_ch_cntxt)
    (num_xfers src_width dst_width : Nat) :
    Nat → Nat → List dma_xfer_cfg_t → List dma_channel_reg_list →
    Option Int × List dma_channel_reg_list
  | 0, _, _, acc => (none, acc)
  | n + 1, i, ptransfer_cfg, acc =>
    match ptransfer_cfg with
    | [] => (some (-k.EFAULT), acc)
    | c :: next =>
      if (1 <<< src_width) % 2 ^ 64 = 0 then (some (-k.EFAULT), acc)
      else
        let block_ts :=
          ((c.blk_size % 2 ^ 32) / ((1 <<< src_width) % 2 ^ 64) + 2 ^ 64 - 1) % 2 ^ 64
        let ctl := dma_setup_transfer_ctl kc hdma src_width dst_width
        if block_ts > MAX_BLOCK_SIZE then
          (some (-k.EINVAL),
            acc ++ [{ sar := c.src, dar := c.dst, block_ts := block_ts, llp := 0, ctl := ctl }])
        else
          let ctl1 := ctl ||| (1 <<< kc.DMA_CH_CTL_SHADOWREG_OR_LLI_VALID_POS) % 2 ^ 64
          let last := num_xfers = i + 1
          let desc : dma_channel_reg_list :=
            { sar := c.src
              dar := c.dst
              block_ts := block_ts
              llp := if last then 0 else hdma.linked_list_base + (i + 1) * 64
              ctl := if last then
                  ctl1 ||| (1 <<< kc.DMA_CH_CTL_SHADOWREG_OR_LLI_LAST_POS) % 2 ^ 64
                else ctl1 }
          dma_setup_transfer_loop k kc hdma num_xfers src_width dst_width n (i + 1) next
            (acc ++ [desc])

/-- Embedding of `dma_setup_transfer` (socfpga_dma.c): the returned code, the
context after the call and the descriptors written.  The handle is `none` for
`NULL`; the transfer list is empty for `NULL`.  The register writes that follow
the loop do not bear on the result and are left out; a null
`linked_list_base`, which the source hands to `memset` before it tests it, is
taken to the `-EFAULT` return of that test. -/
def dma_setup_transfer (k : DmaConsts) (kc : DmaCtlConsts) (hdma : Option dma_ch_cntxt)
    (xfer_list : List dma_xfer_cfg_t) (num_xfers src_width dst_width : Nat) :
    Int × Option dma_ch_cntxt × List dma_channel_reg_list :=
  match hdma with
  | none => (-k.EINVAL, none, [])
  | some c =>
    if num_xfers > MAX_LLI_PER_CHANNEL then (-k.EINVAL, some c, [])
    else if xfer_list = [] then (-k.EFAULT, some c, [])
    else if c.is_open ≠ 1 then (- k.EIO, some c, [])
    else if c.channel_state ≠ DMA_CH_IDLE then (-k.EBUSY, some c, [])
    else if c.linked_list_base = NULL then (-k.EFAULT, some c, [])
    else
      match dma_setup_transfer_loop k kc c num_xfers src_width dst_width num_xfers 0
          xfer_list [] with
      | (some code, descs) => (code, some c, descs)
      | (none, descs) => (0, some { c with interrupt_en := kc.TFR_DONE_MASK }, descs)

/-- Sample values of the control register layout (DesignWare AXI DMA controller)
and of the transfer-done interrupt mask. -/
def dmaCtlConsts0 : DmaCtlConsts where
  DMA_CH_CTL_SRC_TR_WIDTH_POS := 8
  DMA_CH_CTL_DST_TR_WIDTH_POS := 11
  DMA_CH_CTL_SRC_MSIZE_POS := 14
  DMA_CH_CTL_DST_MSIZE_POS := 18
  DMA_CH_CTL_DST_STAT_EN_MASK := 2 ^ 57
  DMA_CH_CTL_SRC_STAT_EN_MASK := 2 ^ 56
  DMA_CH_CTL_IOC_BLKTFR_MASK := 2 ^ 58
  DMA_CH_CTL_SHADOWREG_OR_LLI_VALID_POS := 63
  DMA_CH_CTL_SHADOWREG_OR_LLI_LAST_POS := 62
  TFR_DONE_MASK := 2

/-- A transfer list of one block of 64 bytes. -/
def dmaXfer0 : List dma_xfer_cfg_t := [{ src := 4096, dst := 8192, blk_size := 64 }]

/-- An opened, idle channel with its descriptors at 65536. -/
def dmaOpen : dma_ch_cntxt :=
  { dmaClosed with is_open := 1, linked_list_base := 65536 }

/-! ## Interrupt registration and dispatch -/

/-- Macro `#define MAX_SPI_HPU_INTERRUPT 274U`, the size of the callback table. -/
def MAX_SPI_HPU_INTERRUPT : Nat := 274

/-- The last enumerator of `socfpga_hpu_interrupt_t`.  It follows
`ECC_DERR_INTR_N = 273`, the 52nd enumerator counted from `EMAC0IRQ = 222`. -/
def MAX_HPU_SPI_INTERRUPT : Nat := 274

/-- Type `socfpga_interrupt_err_t` -/
inductive socfpga_interrupt_err_t where
  | ERR_OK
  | ERR_SPI_ID
  | ERR_SPI_TYPE
  | ERR_SPI_MODE
  | ERR_SPI_TARGET
  | ERR_INTERRUPT_CALLBACK
  | ERR_PPI_ID
deriving DecidableEq, Repr

/-- Type `interrupt_handler_t`: a callback and its data, both addresses. -/
structure interrupt_handler_t where
  callback : Nat
  data : Nat
deriving DecidableEq, Repr

/-- The static initialiser of `interrupt_callbacks`: `MAX_SPI_HPU_INTERRUPT`
entries that hold the default handler, at address `dflt`, and no data. -/
def interrupt_callbacks_init (dflt : Nat) : List interrupt_handler_t :=
  List.replicate MAX_SPI_HPU_INTERRUPT { callback := dflt, data := NULL }

/-- What `interrupt_register_isr` leaves behind: the returned code, the table
`interrupt_callbacks`, and the index and value of a write that fell outside
the table, if there was one. -/
structure RegisterOutcome where
  ret : socfpga_interrupt_err_t
  interrupt_callbacks : List interrupt_handler_t
  outOfBounds : Option (Nat × interrupt_handler_t)
deriving DecidableEq, Repr

/-- Embedding of `interrupt_register_isr`.  The assignment to
`interrupt_callbacks[ id ]` updates the table when `id` is an index of it and is
recorded as a write outside the table otherwise. -/
def interrupt_register_isr (id callback user_data : Nat)
    (interrupt_callbacks : List interrupt_handler_t) : RegisterOutcome :=
  if id > MAX_HPU_SPI_INTERRUPT then
    { ret := socfpga_interrupt_err_t.ERR_SPI_ID
      interrupt_callbacks := interrupt_callbacks
      outOfBounds := none }
  else if callback = 0 then
    { ret := socfpga_interrupt_err_t.ERR_INTERRUPT_CALLBACK
      interrupt_callbacks := interrupt_callbacks
      outOfBounds := none }
  else if id < interrupt_callbacks.length then
    { ret := socfpga_interrupt_err_t.ERR_OK
      interrupt_callbacks :=
        interrupt_callbacks.set id { callback := callback, data := user_data }
      outOfBounds := none }
  else
    { ret := socfpga_interrupt_err_t.ERR_OK
      interrupt_callbacks := interrupt_callbacks
      outOfBounds := some (id, { callback := callback, data := user_data }) }

/-- A call made by `interrupt_irq_handler`. -/
inductive IrqCall where
  | gic_clear_int_pending (interrupt_id gic_redis_id : Nat) (ok : Bool)
  | callback (fn data : Nat)
  | gic_enable_interrupts
deriving DecidableEq, Repr

/-- Embedding of `interrupt_irq_handler`: the calls it makes, the callback being
taken to return; `none` when the handler does not return (the endless loop on
the spurious interrupt 1023).  `gic_redis_id` is the redistributor the GIC
driver reports and `clear_ok` whether clearing the pending interrupt
succeeded. -/
def interrupt_irq_handler (interrupt_id gic_redis_id : Nat) (clear_ok : Bool)
    (interrupt_callbacks : List interrupt_handler_t) : Option (List IrqCall) :=
  if ¬ clear_ok then
    some [IrqCall.gic_clear_int_pending interrupt_id gic_redis_id clear_ok]
  else if interrupt_id < MAX_SPI_HPU_INTERRUPT then
    match interrupt_callbacks[interrupt_id]? with
    | none => none
    | some h =>
      some [IrqCall.gic_clear_int_pending interrupt_id gic_redis_id clear_ok,
        IrqCall.callback h.callback h.data, IrqCall.gic_enable_interrupts]
  else if interrupt_id = 1023 then none
  else
    some [IrqCall.gic_clear_int_pending interrupt_id gic_redis_id clear_ok,
      IrqCall.gic_enable_interrupts]

/-! ## Transmit completion -/

/-- Function `pucReleaseTXBuffer( pxTxBufferPool, pvBuffer )` on the globals.  `none`: the
call does not return, because it takes the semaphore `xTxBufSynchSem` while that
handle is `NULL`. -/
def Driver.pucReleaseTXBuffer (cfg : Config) (d : Driver) (pvBuffer : Nat) :
    Option (BaseType_t × Driver) :=
  match d.xTxBufSynchSem with
  | none => none
  | some m =>
    let r := SocfpgaNet.pucReleaseTXBuffer cfg
      { pool := d.pxTxBufferPool, xTxBufSynchSem := m, mem := d.mem } pvBuffer
    some (r.1, { d with
      pxTxBufferPool := r.2.pool
      xTxBufSynchSem := some r.2.xTxBufSynchSem
      mem := r.2.mem })

/-- What the collaborators answer in one pass of the loop of
`prvNetworkInterfaceOutDone`: the status of `xgmac_dma_tx_done`, the buffer
address it leaves in `pucReleaseBuffer`, and the descriptor that the stack
finds for that buffer (zero-copy mode). -/
structure TxDoneStep where
  xgmac_dma_tx_done_ret : Int
  pucReleaseBuffer : Nat
  pxPacketBuffer_to_NetworkBuffer_ret : Option NetworkBufferDescriptor_t
deriving DecidableEq, Repr

/-- A function call made by `prvNetworkInterfaceOutDone`, with its arguments and
its result. -/
inductive TxDoneCall where
  | xSemaphoreTake (ok : Bool)
  | xgmac_dma_tx_done (h : Nat) (status : Int) (buf : Nat)
  | pucReleaseTXBuffer (pvBuffer : Nat) (ret : BaseType_t)
  | pxPacketBuffer_to_NetworkBuffer (buf : Nat) (desc : Option NetworkBufferDescriptor_t)
  | vReleaseNetworkBufferAndDescriptor (desc : NetworkBufferDescriptor_t)
deriving DecidableEq, Repr

/-- The `while` loop of `prvNetworkInterfaceOutDone` with the completion counter
at `n` and `i` passes made; `ans i` holds the answers for pass `i`.  Each
pass takes one unit of the counter `xSemaphoreCounterTx`. -/
def prvNetworkInterfaceOutDone_loop (cfg : Config) (ans : Nat → TxDoneStep)
    (pXGMACHandle : Nat) : Nat → Nat → Driver → List TxDoneCall →
    Option (Driver × List TxDoneCall)
  | 0, _, d, log =>
    some ({ d with xSemaphoreCounterTx := some 0 }, log ++ [TxDoneCall.xSemaphoreTake false])
  | n + 1, i, d, log =>
    let d := { d with xSemaphoreCounterTx := some n }
    let log := log ++ [TxDoneCall.xSemaphoreTake true,
      TxDoneCall.xgmac_dma_tx_done pXGMACHandle (ans i).xgmac_dma_tx_done_ret
        (ans i).pucReleaseBuffer]
    if (ans i).xgmac_dma_tx_done_ret ≠ 0 then some (d, log)
    else if (ans i).pucReleaseBuffer ≠ NULL then
      if cfg.ipconfigZERO_COPY_TX_DRIVER then
        match (ans i).pxPacketBuffer_to_NetworkBuffer_ret with
        | some pxBuffer =>
          prvNetworkInterfaceOutDone_loop cfg ans pXGMACHandle n (i + 1) d
            (log ++ [TxDoneCall.pxPacketBuffer_to_NetworkBuffer (ans i).pucReleaseBuffer
              (some pxBuffer), TxDoneCall.vReleaseNetworkBufferAndDescriptor pxBuffer])
        | none =>
          prvNetworkInterfaceOutDone_loop cfg ans pXGMACHandle n (i + 1) d
            (log ++ [TxDoneCall.pxPacketBuffer_to_NetworkBuffer (ans i).pucReleaseBuffer none])
      else
        match d.pucReleaseTXBuffer cfg (ans i).pucReleaseBuffer with
        | none => none
        | some (xReturn, d1) =>
          prvNetworkInterfaceOutDone_loop cfg ans pXGMACHandle n (i + 1) d1
            (log ++ [TxDoneCall.pucReleaseTXBuffer (ans i).pucReleaseBuffer xReturn])
    else prvNetworkInterfaceOutDone_loop cfg ans pXGMACHandle n (i + 1) d log

/-- What `prvNetworkInterfaceOutDone` hands back: its return value, the globals
after the call and the calls it made, in order. -/
structure TxDoneOutcome where
  xReturn : BaseType_t
  d : Driver
  calls : List TxDoneCall

/-- Embedding of `prvNetworkInterfaceOutDone`.  `none`: the call does not return,
because it takes a semaphore whose handle is `NULL`. -/
def prvNetworkInterfaceOutDone (cfg : Config) (ans : Nat → TxDoneStep)
    (pxInterface : NetworkInterface_t) (d : Driver) : Option TxDoneOutcome :=
  match d.xSemaphoreCounterTx with
  | none => none
  | some n =>
    match prvNetworkInterfaceOutDone_loop cfg ans (d.hxgmac pxInterface.pvArgument) n 0 d []
      with
    | none => none
    | some (d1, log) => some { xReturn := pdPASS, d := d1, calls := log }

theorem zeroFilled_of_miss (p len addr n v : Nat) (h : p + len ≤ addr ∨ addr + n ≤ p) :
    zeroFilled p len addr n v = v := by
  unfold zeroFilled
  have key : ∀ (l : List Nat), (∀ k ∈ l, k < n) →
      l.foldl (fun acc k =>
        if p ≤ addr + k ∧ addr + k < p + len then acc - acc / 256 ^ k % 256 * 256 ^ k
        else acc) v = v := by
    intro l
    induction l with
    | nil => intro _; rfl
    | cons k ks ih =>
      intro hk
      have hkn : k < n := hk k (List.mem_cons_self _ _)
      rw [List.foldl_cons, if_neg (by omega)]
      exact ih (fun x hx => hk x (List.mem_cons_of_mem _ hx))
  exact key _ (fun k hk => List.mem_range.mp hk)

theorem zeroFilledSlots_of_miss (cfg : Config) (p : Nat) (h : missesPoolRecord cfg p) :
    ∀ (vs : List Nat) (i : Nat), zeroFilledSlots cfg p i vs = vs := by
  intro vs
  induction vs with
  | nil => intro i; rfl
  | cons v vs ih =>
    intro i
    unfold zeroFilledSlots
    rw [ih]
    by_cases hi : i < cfg.TX_BUFFER_COUNT
    · rw [if_pos hi, zeroFilled_of_miss]
      unfold missesPoolRecord at h
      simp only [sizeof_pointer] at h ⊢
      omega
    · rw [if_neg hi]

theorem zeroFill_of_miss (cfg : Config) (pool : TxBufferPool_t) (p : Nat)
    (h : missesPoolRecord cfg p) : pool.zeroFill cfg p = pool := by
  have h2 := h
  unfold missesPoolRecord at h2
  unfold TxBufferPool_t.zeroFill
  simp only
  rw [zeroFilledSlots_of_miss cfg p h, zeroFilled_of_miss _ _ _ _ _ (by omega),
    zeroFilled_of_miss _ _ _ _ _ (by omega), zeroFilled_of_miss _ _ _ _ _ (by omega),
    zeroFilled_of_miss _ _ _ _ _ (by omega)]

theorem execTx_append (cfg : Config) (st : TxPoolState) (a b : List TxPoolEvent) :
    execTx cfg st (a ++ b) =
      ((execTx cfg st a).1 ++ (execTx cfg (execTx cfg st a).2 b).1,
        (execTx cfg (execTx cfg st a).2 b).2) := by
  induction a generalizing st with
  | nil => simp [execTx]
  | cons e es ih => simp [execTx, ih, List.append_assoc]

theorem execRx_append (cfg : Config) (st : RxPoolState) (a b : List RxPoolEvent) :
    execRx cfg st (a ++ b) =
      ((execRx cfg st a).1 ++ (execRx cfg (execRx cfg st a).2 b).1,
        (execRx cfg (execRx cfg st a).2 b).2) := by
  induction a generalizing st with
  | nil => simp [execRx]
  | cons e es ih => simp [execRx, ih, List.append_assoc]

theorem pucGetTXBuffer_used (cfg : Config) (hc : cfg.TX_BUFFER_COUNT < 2 ^ 16)
    (st : TxPoolState) (w : Nat) (h : st.pool.usBufUsedCnt ≤ cfg.TX_BUFFER_COUNT) :
    (pucGetTXBuffer cfg st w).2.pool.usBufUsedCnt ≤ cfg.TX_BUFFER_COUNT ∧
      ((pucGetTXBuffer cfg st w).2.pool.usBufUsedCnt = st.pool.usBufUsedCnt ∨
        (pucGetTXBuffer cfg st w).2.pool.usBufUsedCnt = st.pool.usBufUsedCnt + 1) := by
  unfold pucGetTXBuffer xSemaphoreTake
  rw [Nat.mod_eq_of_lt hc]
  split_ifs with h1 h2 h3 <;> simp_all
  have : st.pool.usBufUsedCnt + 1 < 65536 := by omega
  rw [Nat.mod_eq_of_lt this]
  omega

theorem pucGetRXBuffer_used (cfg : Config) (hc : cfg.RX_BUFFER_COUNT < 2 ^ 16)
    (st : RxPoolState) (w : Nat) (h : st.pool.usBufUsedCnt ≤ cfg.RX_BUFFER_COUNT) :
    (pucGetRXBuffer cfg st w).2.pool.usBufUsedCnt ≤ cfg.RX_BUFFER_COUNT ∧
      ((pucGetRXBuffer cfg st w).2.pool.usBufUsedCnt = st.pool.usBufUsedCnt ∨
        (pucGetRXBuffer cfg st w).2.pool.usBufUsedCnt = st.pool.usBufUsedCnt + 1) := by
  unfold pucGetRXBuffer xSemaphoreTake
  rw [Nat.mod_eq_of_lt hc]
  split_ifs with h1 h2 h3 <;> simp_all
  have : st.pool.usBufUsedCnt + 1 < 65536 := by omega
  rw [Nat.mod_eq_of_lt this]
  omega

theorem pucReleaseTXBuffer_used (cfg : Config) (hc : cfg.TX_BUFFER_COUNT < 2 ^ 16)
    (st : TxPoolState) (b : Nat) (hm : missesPoolRecord cfg b)
    (h : st.pool.usBufUsedCnt ≤ cfg.TX_BUFFER_COUNT) :
    (pucReleaseTXBuffer cfg st b).2.pool.usBufUsedCnt ≤ cfg.TX_BUFFER_COUNT ∧
      ((pucReleaseTXBuffer cfg st b).2.pool.usBufUsedCnt = st.pool.usBufUsedCnt ∨
        (pucReleaseTXBuffer cfg st b).2.pool.usBufUsedCnt + 1 = st.pool.usBufUsedCnt) := by
  unfold pucReleaseTXBuffer xSemaphoreTake
  simp only [zeroFill_of_miss cfg st.pool b hm]
  split_ifs with h1 h2 <;> simp_all
  omega

theorem TxPoolEvent_exec_used (cfg : Config) (hc : cfg.TX_BUFFER_COUNT < 2 ^ 16)
    (st : TxPoolState) (e : TxPoolEvent) (hm : e.missesPoolRecord cfg)
    (h : st.pool.usBufUsedCnt ≤ cfg.TX_BUFFER_COUNT) :
    (e.exec cfg st).2.pool.usBufUsedCnt ≤ cfg.TX_BUFFER_COUNT ∧
      ((e.exec cfg st).2.pool.usBufUsedCnt = st.pool.usBufUsedCnt ∨
        (e.exec cfg st).2.pool.usBufUsedCnt = st.pool.usBufUsedCnt + 1 ∨
        (e.exec cfg st).2.pool.usBufUsedCnt + 1 = st.pool.usBufUsedCnt) := by
  cases e with
  | get w =>
    have := pucGetTXBuffer_used cfg hc st w h
    simp only [TxPoolEvent.exec]
    tauto
  | release b =>
    have := pucReleaseTXBuffer_used cfg hc st b hm h
    simp only [TxPoolEvent.exec]
    tauto
  | lock l => simp [TxPoolEvent.exec, h]

theorem RxPoolEvent_exec_used (cfg : Config) (hc : cfg.RX_BUFFER_COUNT < 2 ^ 16)
    (st : RxPoolState) (e : RxPoolEvent) (h : st.pool.usBufUsedCnt ≤ cfg.RX_BUFFER_COUNT) :
    (e.exec cfg st).2.pool.usBufUsedCnt ≤ cfg.RX_BUFFER_COUNT ∧
      ((e.exec cfg st).2.pool.usBufUsedCnt = st.pool.usBufUsedCnt ∨
        (e.exec cfg st).2.pool.usBufUsedCnt = st.pool.usBufUsedCnt + 1) := by
  cases e with
  | get w =>
    have := pucGetRXBuffer_used cfg hc st w h
    simp only [RxPoolEvent.exec]
    tauto
  | lock l => simp [RxPoolEvent.exec, h]

theorem execTx_used (cfg : Config) (hc : cfg.TX_BUFFER_COUNT < 2 ^ 16)
    (es : List TxPoolEvent) (st : TxPoolState) (hm : ∀ e ∈ es, e.missesPoolRecord cfg)
    (h : st.pool.usBufUsedCnt ≤ cfg.TX_BUFFER_COUNT) :
    (execTx cfg st es).2.pool.usBufUsedCnt ≤ cfg.TX_BUFFER_COUNT := by
  induction es generalizing st with
  | nil => simpa [execTx] using h
  | cons e es ih =>
    simp only [execTx]
    exact ih _ (fun x hx => hm x (List.mem_cons_of_mem _ hx))
      (TxPoolEvent_exec_used cfg hc st e (hm e (List.mem_cons_self _ _)) h).1

theorem execRx_used (cfg : Config) (hc : cfg.RX_BUFFER_COUNT < 2 ^ 16)
    (es : List RxPoolEvent) (st : RxPoolState)
    (h : st.pool.usBufUsedCnt ≤ cfg.RX_BUFFER_COUNT) :
    (execRx cfg st es).2.pool.usBufUsedCnt ≤ cfg.RX_BUFFER_COUNT := by
  induction es generalizing st with
  | nil => simpa [execRx] using h
  | cons e es ih =>
    simp only [execRx]
    exact ih _ (RxPoolEvent_exec_used cfg hc st e h).1

theorem createdTx_used (cfg : Config) (base : Nat) (hb : base ≠ NULL) (p0 : TxBufferPool_t)
    (mem : Mem) : (createdTx cfg base p0 mem).pool.usBufUsedCnt = 0 := by
  simp [createdTx, prvCreateTxBufferPool, hb]

theorem createdRx_used (cfg : Config) (base : Nat) (hb : base ≠ NULL) (p0 : RxBufferPool_t) :
    (createdRx cfg base p0).pool.usBufUsedCnt = 0 := by
  simp [createdRx, prvCreateRxBufferPool, hb]

/-! ## Buffer pool: claims -/

/-- C1 (as amended). On a Tx pool obtained from create, after every event of
every sequence of acquires, releases and lock changes (the lock obtainable or
not) in which no release is given an address whose `TX_BUFFER_SIZE` bytes meet
the pool record itself, `used_count` is at most the capacity and each event
leaves it unchanged, one higher or one lower (it never wraps around); the same
holds on an Rx pool, which has acquire only. -/
theorem used_count_within_capacity (cfg : Config)
    (hTx : cfg.TX_BUFFER_COUNT < 2 ^ 16) (hRx : cfg.RX_BUFFER_COUNT < 2 ^ 16)
    (base : Nat) (hbase : base ≠ NULL) (p0 : TxBufferPool_t) (mem : Mem)
    (es : List TxPoolEvent) (hes : ∀ e ∈ es, e.missesPoolRecord cfg)
    (rbase : Nat) (hrbase : rbase ≠ NULL) (q0 : RxBufferPool_t)
    (rs : List RxPoolEvent) (k : Nat) :
    ((execTx cfg (createdTx cfg base p0 mem) (es.take k)).2.pool.usBufUsedCnt
        ≤ cfg.TX_BUFFER_COUNT ∧
      ((execTx cfg (createdTx cfg base p0 mem) (es.take (k + 1))).2.pool.usBufUsedCnt =
          (execTx cfg (createdTx cfg base p0 mem) (es.take k)).2.pool.usBufUsedCnt ∨
        (execTx cfg (createdTx cfg base p0 mem) (es.take (k + 1))).2.pool.usBufUsedCnt =
          (execTx cfg (createdTx cfg base p0 mem) (es.take k)).2.pool.usBufUsedCnt + 1 ∨
        (execTx cfg (createdTx cfg base p0 mem) (es.take (k + 1))).2.pool.usBufUsedCnt + 1 =
          (execTx cfg (createdTx cfg base p0 mem) (es.take k)).2.pool.usBufUsedCnt)) ∧
    ((execRx cfg (createdRx cfg rbase q0) (rs.take k)).2.pool.usBufUsedCnt
        ≤ cfg.RX_BUFFER_COUNT ∧
      ((execRx cfg (createdRx cfg rbase q0) (rs.take (k + 1))).2.pool.usBufUsedCnt =
          (execRx cfg (createdRx cfg rbase q0) (rs.take k)).2.pool.usBufUsedCnt ∨
        (execRx cfg (createdRx cfg rbase q0) (rs.take (k + 1))).2.pool.usBufUsedCnt =
          (execRx cfg (createdRx cfg rbase q0) (rs.take k)).2.pool.usBufUsedCnt + 1)) := by
  have h0 : (createdTx cfg base p0 mem).pool.usBufUsedCnt ≤ cfg.TX_BUFFER_COUNT := by
    rw [createdTx_used cfg base hbase]; exact Nat.zero_le _
  have r0 : (createdRx cfg rbase q0).pool.usBufUsedCnt ≤ cfg.RX_BUFFER_COUNT := by
    rw [createdRx_used cfg rbase hrbase]; exact Nat.zero_le _
  have hk := execTx_used cfg hTx (es.take k) _
    (fun e he => hes e (List.mem_of_mem_take he)) h0
  have rk := execRx_used cfg hRx (rs.take k) _ r0
  refine ⟨⟨hk, ?_⟩, ⟨rk, ?_⟩⟩
  · rw [List.take_succ, execTx_append]
    cases hek : es[k]? with
    | none => simp [execTx]
    | some e =>
      simpa [execTx] using
        (TxPoolEvent_exec_used cfg hTx _ e (hes e (List.getElem?_mem hek)) hk).2
  · rw [List.take_succ, execRx_append]
    cases hek : rs[k]? with
    | none => simp [execRx]
    | some e =>
      simpa [execRx] using (RxPoolEvent_exec_used cfg hRx _ e rk).2

/-- Witness for C1: five acquires on a pool of four, a lock change and a release. -/
theorem used_count_within_capacity_witness :
    (tiny.TX_BUFFER_COUNT < 2 ^ 16 ∧ tiny.RX_BUFFER_COUNT < 2 ^ 16 ∧ 4096 ≠ NULL ∧
      8192 ≠ NULL ∧
      ∀ e ∈ [TxPoolEvent.get 16, .get 16, .get 16, .get 16, .get 16, .lock false,
        .release 4096], e.missesPoolRecord tiny) ∧
    (execTx tiny (createdTx tiny 4096 (TxBufferPool tiny) zeroMem)
      ([TxPoolEvent.get 16, .get 16, .get 16, .get 16, .get 16, .lock false,
        .release 4096].take 5)).2.pool.usBufUsedCnt ≤ tiny.TX_BUFFER_COUNT :=
  ⟨by decide,
    (used_count_within_capacity tiny (by decide) (by decide) 4096 (by decide)
      (TxBufferPool tiny) zeroMem
      [.get 16, .get 16, .get 16, .get 16, .get 16, .lock false, .release 4096] (by decide)
      8192 (by decide) (RxBufferPool tiny) [.get 16, .get 16] 5).1.1⟩

/-- C1, counterexample.  On the pool of `tiny`, whose record lies at address
1024 with `usHeadIndex` at 1056 and `usBufUsedCnt` at 1060: after create and
one acquire, a release of the address 1056 succeeds and leaves `used_count` at
65535, far above the capacity of 4.  The zero-fill of the sixteen bytes at 1056
clears `usBufUsedCnt` before it is decremented. -/
theorem release_into_record_wraps_used_count :
    (execTx tiny (createdTx tiny 4096 (TxBufferPool tiny) zeroMem)
      [.get 16, .release 1056]).1 = [.addr 4096, .code pdPASS] ∧
    (execTx tiny (createdTx tiny 4096 (TxBufferPool tiny) zeroMem)
      [.get 16]).2.pool.usBufUsedCnt = 1 ∧
    (execTx tiny (createdTx tiny 4096 (TxBufferPool tiny) zeroMem)
      [.get 16, .release 1056]).2.pool.usBufUsedCnt = 65535 ∧
    tiny.TX_BUFFER_COUNT = 4 ∧
    tiny.TxBufferPool_addr + tiny.TX_BUFFER_COUNT * sizeof_pointer + 4 = 1060 := by
  decide

/-- C2 (as amended). Acquire returns null whenever the wanted size exceeds the
slot size or `used_count` equals the capacity, and then the pool (head, tail,
`used_count`, slot array) and the memory are as before the call; with the lock
free and a non-null address stored in the slot at `head`, these are the only
cases in which acquire returns null.  Both for the Tx and the Rx pool. -/
theorem acquire_null_cases (cfg : Config)
    (hTx : cfg.TX_BUFFER_COUNT < 2 ^ 16) (hRx : cfg.RX_BUFFER_COUNT < 2 ^ 16)
    (st : TxPoolState) (rst : RxPoolState) (w : Nat) :
    ((w > cfg.TX_BUFFER_SIZE ∨ st.pool.usBufUsedCnt = cfg.TX_BUFFER_COUNT →
        (pucGetTXBuffer cfg st w).1 = NULL ∧ (pucGetTXBuffer cfg st w).2.pool = st.pool ∧
          (pucGetTXBuffer cfg st w).2.mem = st.mem) ∧
      (st.xTxBufSynchSem.held = false →
        st.pool.pTxBuffer.getD st.pool.usHeadIndex NULL ≠ NULL →
        (pucGetTXBuffer cfg st w).1 = NULL →
        w > cfg.TX_BUFFER_SIZE ∨ st.pool.usBufUsedCnt = cfg.TX_BUFFER_COUNT)) ∧
    ((w > cfg.RX_BUFFER_SIZE ∨ rst.pool.usBufUsedCnt = cfg.RX_BUFFER_COUNT →
        (pucGetRXBuffer cfg rst w).1 = NULL ∧ (pucGetRXBuffer cfg rst w).2.pool = rst.pool) ∧
      (rst.xRxBufSynchSem.held = false →
        rst.pool.pRxBuffer.getD rst.pool.usHeadIndex NULL ≠ NULL →
        (pucGetRXBuffer cfg rst w).1 = NULL →
        w > cfg.RX_BUFFER_SIZE ∨ rst.pool.usBufUsedCnt = cfg.RX_BUFFER_COUNT)) := by
  refine ⟨⟨?_, ?_⟩, ⟨?_, ?_⟩⟩
  · intro h
    unfold pucGetTXBuffer xSemaphoreTake
    rw [Nat.mod_eq_of_lt hTx]
    split_ifs with h1 h2 h3 <;> simp_all
  · intro hl hs
    unfold pucGetTXBuffer xSemaphoreTake
    rw [Nat.mod_eq_of_lt hTx]
    split_ifs with h1 h2 h3 <;> simp_all
  · intro h
    unfold pucGetRXBuffer xSemaphoreTake
    rw [Nat.mod_eq_of_lt hRx]
    split_ifs with h1 h2 h3 <;> simp_all
  · intro hl hs
    unfold pucGetRXBuffer xSemaphoreTake
    rw [Nat.mod_eq_of_lt hRx]
    split_ifs with h1 h2 h3 <;> simp_all

/-- Witness for C2: an acquire of seventeen bytes from slots of sixteen. -/
theorem acquire_null_cases_witness :
    (tiny.TX_BUFFER_COUNT < 2 ^ 16 ∧ tiny.RX_BUFFER_COUNT < 2 ^ 16 ∧
      (17 > tiny.TX_BUFFER_SIZE ∨
        (createdTx tiny 4096 (TxBufferPool tiny) zeroMem).pool.usBufUsedCnt =
          tiny.TX_BUFFER_COUNT)) ∧
    (pucGetTXBuffer tiny (createdTx tiny 4096 (TxBufferPool tiny) zeroMem) 17).1 = NULL :=
  ⟨by decide,
    ((acquire_null_cases tiny (by decide) (by decide)
      (createdTx tiny 4096 (TxBufferPool tiny) zeroMem)
      (createdRx tiny 8192 (RxBufferPool tiny)) 17).1.1 (by decide)).1⟩

/-- C2, counterexample.  In the pool reached from create by an acquire, a
release of the null address and three more acquires, the lock is free, the
wanted size fits and `used_count` is 3 of 4, and yet acquire returns null (and
counts the slot as used): the slot at `head` holds the null address. -/
theorem acquire_null_from_null_slot :
    nullSlotPool.xTxBufSynchSem.held = false ∧
    ¬ (16 > tiny.TX_BUFFER_SIZE) ∧
    nullSlotPool.pool.usBufUsedCnt = 3 ∧ tiny.TX_BUFFER_COUNT = 4 ∧
    (pucGetTXBuffer tiny nullSlotPool 16).1 = NULL ∧
    (pucGetTXBuffer tiny nullSlotPool 16).2.pool.usBufUsedCnt = 4 := by
  decide

/-- C3. Release on a pool with `used_count = 0` returns the failure code and
leaves `used_count`, head, tail, the slot array and the memory unchanged,
whatever the address and whatever the state of the lock. -/
theorem release_on_empty_pool (cfg : Config) (st : TxPoolState) (pvBuffer : Nat)
    (h : st.pool.usBufUsedCnt = 0) :
    (pucReleaseTXBuffer cfg st pvBuffer).1 = pdFAIL ∧
      (pucReleaseTXBuffer cfg st pvBuffer).2.pool = st.pool ∧
      (pucReleaseTXBuffer cfg st pvBuffer).2.mem = st.mem := by
  unfold pucReleaseTXBuffer xSemaphoreTake
  split_ifs <;> simp_all

/-- Witness for C3: a release on a pool that was just created. -/
theorem release_on_empty_pool_witness :
    (createdTx tiny 4096 (TxBufferPool tiny) zeroMem).pool.usBufUsedCnt = 0 ∧
    (pucReleaseTXBuffer tiny (createdTx tiny 4096 (TxBufferPool tiny) zeroMem) 4096).1
      = pdFAIL :=
  ⟨by decide,
    (release_on_empty_pool tiny (createdTx tiny 4096 (TxBufferPool tiny) zeroMem) 4096
      (by decide)).1⟩

theorem getD_null_or_mem (l : List Nat) (i : Nat) : l.getD i NULL = NULL ∨ l.getD i NULL ∈ l := by
  by_cases h : i < l.length
  · right
    rw [List.getD_eq_getElem l NULL h]
    exact List.getElem_mem h
  · left
    rw [List.getD_eq_default l NULL (Nat.le_of_not_lt h)]

theorem pucGetTXBuffer_slots (cfg : Config) (st : TxPoolState) (w : Nat) :
    (pucGetTXBuffer cfg st w).2.pool.pTxBuffer = st.pool.pTxBuffer ∧
      ((pucGetTXBuffer cfg st w).1 = NULL ∨ (pucGetTXBuffer cfg st w).1 ∈ st.pool.pTxBuffer) := by
  unfold pucGetTXBuffer xSemaphoreTake
  split_ifs with h1 h2 h3 <;> simp only [true_and, true_or]
  exact getD_null_or_mem _ _

theorem pucGetRXBuffer_slots (cfg : Config) (st : RxPoolState) (w : Nat) :
    (pucGetRXBuffer cfg st w).2.pool.pRxBuffer = st.pool.pRxBuffer ∧
      ((pucGetRXBuffer cfg st w).1 = NULL ∨ (pucGetRXBuffer cfg st w).1 ∈ st.pool.pRxBuffer) := by
  unfold pucGetRXBuffer xSemaphoreTake
  split_ifs with h1 h2 h3 <;> simp only [true_and, true_or]
  exact getD_null_or_mem _ _

theorem isSlot_missesPoolRecord (cfg : Config) (base b : Nat)
    (hreg : regionMissesPoolRecord cfg base)
    (hb : isSlot base cfg.TX_BUFFER_SIZE cfg.TX_BUFFER_COUNT b) : missesPoolRecord cfg b := by
  obtain ⟨i, hi, rfl⟩ := hb
  have h1 : i * cfg.TX_BUFFER_SIZE + cfg.TX_BUFFER_SIZE ≤
      cfg.TX_BUFFER_COUNT * cfg.TX_BUFFER_SIZE := by
    have := Nat.mul_le_mul_right cfg.TX_BUFFER_SIZE (Nat.succ_le_of_lt hi)
    rw [Nat.succ_mul] at this
    exact this
  unfold regionMissesPoolRecord at hreg
  unfold missesPoolRecord
  omega

theorem pucReleaseTXBuffer_slots (cfg : Config) (st : TxPoolState) (b : Nat) (a : Nat)
    (hm : missesPoolRecord cfg b)
    (h : a ∈ (pucReleaseTXBuffer cfg st b).2.pool.pTxBuffer) :
    a ∈ st.pool.pTxBuffer ∨ a = b := by
  unfold pucReleaseTXBuffer xSemaphoreTake at h
  simp only [zeroFill_of_miss cfg st.pool b hm] at h
  split_ifs at h with h1 h2
  · exact Or.inl h
  · exact Or.inl h
  · exact Or.inl h
  · exact List.mem_or_eq_of_mem_set h

theorem execTx_slots (cfg : Config) (P : Nat → Prop) (es : List TxPoolEvent)
    (st : TxPoolState) (hs : ∀ a ∈ st.pool.pTxBuffer, P a)
    (hr : ∀ b, TxPoolEvent.release b ∈ es → P b ∧ missesPoolRecord cfg b) :
    ∀ a, PoolRet.addr a ∈ (execTx cfg st es).1 → a = NULL ∨ P a := by
  induction es generalizing st with
  | nil => intro a h; simp [execTx] at h
  | cons e es ih =>
    intro a h
    simp only [execTx, List.mem_append] at h
    have hr2 : ∀ b, TxPoolEvent.release b ∈ es → P b ∧ missesPoolRecord cfg b :=
      fun b hb => hr b (List.mem_cons_of_mem _ hb)
    cases e with
    | get w =>
      have hg := pucGetTXBuffer_slots cfg st w
      rcases h with h | h
      · simp only [TxPoolEvent.exec, Option.toList, List.mem_singleton, PoolRet.addr.injEq] at h
        subst h
        rcases hg.2 with h0 | hm
        · exact Or.inl h0
        · exact Or.inr (hs _ hm)
      · refine ih _ ?_ hr2 a h
        intro x hx
        simp only [TxPoolEvent.exec] at hx
        rw [hg.1] at hx
        exact hs x hx
    | release b =>
      rcases h with h | h
      · simp [TxPoolEvent.exec, Option.toList] at h
      · refine ih _ ?_ hr2 a h
        intro x hx
        simp only [TxPoolEvent.exec] at hx
        rcases pucReleaseTXBuffer_slots cfg st b x
          (hr b (List.mem_cons_self _ _)).2 hx with h1 | h1
        · exact hs x h1
        · subst h1
          exact (hr x (List.mem_cons_self _ _)).1
    | lock l =>
      rcases h with h | h
      · simp [TxPoolEvent.exec, Option.toList] at h
      · exact ih _ (by simpa [TxPoolEvent.exec] using hs) hr2 a h

theorem execRx_slots (cfg : Config) (P : Nat → Prop) (es : List RxPoolEvent)
    (st : RxPoolState) (hs : ∀ a ∈ st.pool.pRxBuffer, P a) :
    ∀ a, PoolRet.addr a ∈ (execRx cfg st es).1 → a = NULL ∨ P a := by
  induction es generalizing st with
  | nil => intro a h; simp [execRx] at h
  | cons e es ih =>
    intro a h
    simp only [execRx, List.mem_append] at h
    cases e with
    | get w =>
      have hg := pucGetRXBuffer_slots cfg st w
      rcases h with h | h
      · simp only [RxPoolEvent.exec, Option.toList, List.mem_singleton, PoolRet.addr.injEq] at h
        subst h
        rcases hg.2 with h0 | hm
        · exact Or.inl h0
        · exact Or.inr (hs _ hm)
      · refine ih _ ?_ a h
        intro x hx
        simp only [RxPoolEvent.exec] at hx
        rw [hg.1] at hx
        exact hs x hx
    | lock l =>
      rcases h with h | h
      · simp [RxPoolEvent.exec, Option.toList] at h
      · exact ih _ (by simpa [RxPoolEvent.exec] using hs) a h

theorem createdTx_slots (cfg : Config)
    (hc : cfg.TX_BUFFER_COUNT * cfg.TX_BUFFER_SIZE < 2 ^ 32)
    (base : Nat) (hb : base ≠ NULL) (p0 : TxBufferPool_t) (mem : Mem) :
    ∀ a ∈ (createdTx cfg base p0 mem).pool.pTxBuffer,
      isSlot base cfg.TX_BUFFER_SIZE cfg.TX_BUFFER_COUNT a := by
  intro a ha
  simp only [createdTx, prvCreateTxBufferPool, hb, if_false, List.mem_map, List.mem_range] at ha
  obtain ⟨i, hi, rfl⟩ := ha
  refine ⟨i, hi, ?_⟩
  have : i * cfg.TX_BUFFER_SIZE ≤ cfg.TX_BUFFER_COUNT * cfg.TX_BUFFER_SIZE :=
    Nat.mul_le_mul_right _ (Nat.le_of_lt hi)
  rw [Nat.mod_eq_of_lt (lt_of_le_of_lt this hc)]

theorem createdRx_slots (cfg : Config)
    (hc : cfg.RX_BUFFER_COUNT * cfg.RX_BUFFER_SIZE < 2 ^ 32)
    (base : Nat) (hb : base ≠ NULL) (p0 : RxBufferPool_t) :
    ∀ a ∈ (createdRx cfg base p0).pool.pRxBuffer,
      isSlot base cfg.RX_BUFFER_SIZE cfg.RX_BUFFER_COUNT a := by
  intro a ha
  simp only [createdRx, prvCreateRxBufferPool, hb, if_false, List.mem_map, List.mem_range] at ha
  obtain ⟨i, hi, rfl⟩ := ha
  refine ⟨i, hi, ?_⟩
  have : i * cfg.RX_BUFFER_SIZE ≤ cfg.RX_BUFFER_COUNT * cfg.RX_BUFFER_SIZE :=
    Nat.mul_le_mul_right _ (Nat.le_of_lt hi)
  rw [Nat.mod_eq_of_lt (lt_of_le_of_lt this hc)]

/-- C5. On a Tx pool created over the backing region at `base` (a region that,
coming from the allocator, does not overlap the pool record), in every
sequence of acquires, releases and lock changes in which each released
address is a slot address `base + i * BUFFER_SIZE` with `i < CAPACITY`, every
non-null address returned by an acquire is such a slot address; on an Rx pool
(acquire only) every non-null acquired address is a slot address of its
region. -/
theorem acquired_address_is_slot (cfg : Config)
    (hTx : cfg.TX_BUFFER_COUNT * cfg.TX_BUFFER_SIZE < 2 ^ 32)
    (hRx : cfg.RX_BUFFER_COUNT * cfg.RX_BUFFER_SIZE < 2 ^ 32)
    (base : Nat) (hbase : base ≠ NULL) (hreg : regionMissesPoolRecord cfg base)
    (p0 : TxBufferPool_t) (mem : Mem)
    (es : List TxPoolEvent)
    (hrel : ∀ b, TxPoolEvent.release b ∈ es →
      isSlot base cfg.TX_BUFFER_SIZE cfg.TX_BUFFER_COUNT b)
    (rbase : Nat) (hrbase : rbase ≠ NULL) (q0 : RxBufferPool_t) (rs : List RxPoolEvent)
    (a : Nat) (ha : a ≠ NULL) :
    (PoolRet.addr a ∈ (execTx cfg (createdTx cfg base p0 mem) es).1 →
      isSlot base cfg.TX_BUFFER_SIZE cfg.TX_BUFFER_COUNT a) ∧
    (PoolRet.addr a ∈ (execRx cfg (createdRx cfg rbase q0) rs).1 →
      isSlot rbase cfg.RX_BUFFER_SIZE cfg.RX_BUFFER_COUNT a) := by
  constructor
  · intro h
    rcases execTx_slots cfg _ es _ (createdTx_slots cfg hTx base hbase p0 mem)
      (fun b hb => ⟨hrel b hb, isSlot_missesPoolRecord cfg base b hreg (hrel b hb)⟩) a h
      with h0 | h1
    · exact absurd h0 ha
    · exact h1
  · intro h
    rcases execRx_slots cfg _ rs _ (createdRx_slots cfg hRx rbase hrbase q0) a h with h0 | h1
    · exact absurd h0 ha
    · exact h1

/-- Witness for C5: the second acquire of a created pool returns the second slot. -/
theorem acquired_address_is_slot_witness :
    (tiny.TX_BUFFER_COUNT * tiny.TX_BUFFER_SIZE < 2 ^ 32 ∧
      tiny.RX_BUFFER_COUNT * tiny.RX_BUFFER_SIZE < 2 ^ 32 ∧ 4096 ≠ NULL ∧ 8192 ≠ NULL ∧
      regionMissesPoolRecord tiny 4096 ∧ 4112 ≠ NULL ∧
      PoolRet.addr 4112 ∈ (execTx tiny (createdTx tiny 4096 (TxBufferPool tiny) zeroMem)
        [.get 16, .get 16, .release 4096, .get 16]).1) ∧
    isSlot 4096 tiny.TX_BUFFER_SIZE tiny.TX_BUFFER_COUNT 4112 :=
  ⟨by decide,
    (acquired_address_is_slot tiny (by decide) (by decide) 4096 (by decide) (by decide)
      (TxBufferPool tiny) zeroMem [.get 16, .get 16, .release 4096, .get 16]
      (by
        intro b hb
        simp only [List.mem_cons, TxPoolEvent.release.injEq, List.mem_singleton,
          reduceCtorEq, false_or, or_false, List.not_mem_nil] at hb
        subst hb
        exact ⟨0, by decide, by decide⟩)
      8192 (by decide) (RxBufferPool tiny) [.get 16] 4112 (by decide)).1 (by decide)⟩

/-! ## Buffer pool: the ring and its FIFO order -/

theorem createdTx_ring (cfg : Config) (h0 : 0 < cfg.TX_BUFFER_COUNT) (base : Nat)
    (hb : base ≠ NULL) (p0 : TxBufferPool_t) (mem : Mem) :
    Ring cfg (createdTx cfg base p0 mem).pool := by
  simp [Ring, createdTx, prvCreateTxBufferPool, hb, h0]

theorem pucGetTXBuffer_ring (cfg : Config) (hc : cfg.TX_BUFFER_COUNT < 2 ^ 16)
    (st : TxPoolState) (w : Nat) (h : Ring cfg st.pool) :
    Ring cfg (pucGetTXBuffer cfg st w).2.pool := by
  obtain ⟨h1, h2, h3, h4, h5⟩ := h
  unfold pucGetTXBuffer xSemaphoreTake
  rw [Nat.mod_eq_of_lt hc]
  split_ifs with c1 c2 c3 c4
  · exact ⟨h1, h2, h3, h4, h5⟩
  · exact ⟨h1, h2, h3, h4, h5⟩
  · exact ⟨h1, h2, h3, h4, h5⟩
  · exact ⟨h1, h2, h3, h4, h5⟩
  · have e1 : (st.pool.usHeadIndex + 1) % 2 ^ 16 = st.pool.usHeadIndex + 1 :=
      Nat.mod_eq_of_lt (by omega)
    have e2 : (st.pool.usBufUsedCnt + 1) % 2 ^ 16 = st.pool.usBufUsedCnt + 1 :=
      Nat.mod_eq_of_lt (by omega)
    simp only [e1, e2]
    unfold Ring
    dsimp only
    refine ⟨by omega, Nat.mod_lt _ (by omega), h3, h4, ?_⟩
    rw [← Nat.add_assoc, ← Nat.mod_add_mod, h5]

theorem pucReleaseTXBuffer_ring (cfg : Config) (hc : cfg.TX_BUFFER_COUNT < 2 ^ 16)
    (st : TxPoolState) (b : Nat) (hm : missesPoolRecord cfg b) (h : Ring cfg st.pool) :
    Ring cfg (pucReleaseTXBuffer cfg st b).2.pool := by
  obtain ⟨h1, h2, h3, h4, h5⟩ := h
  unfold pucReleaseTXBuffer xSemaphoreTake
  simp only [zeroFill_of_miss cfg st.pool b hm]
  rw [Nat.mod_eq_of_lt hc]
  split_ifs with c1 c2 c3
  · exact ⟨h1, h2, h3, h4, h5⟩
  · exact ⟨h1, h2, h3, h4, h5⟩
  · exact ⟨h1, h2, h3, h4, h5⟩
  · have e1 : (st.pool.usTailIndex + 1) % 2 ^ 16 = st.pool.usTailIndex + 1 :=
      Nat.mod_eq_of_lt (by omega)
    have e2 : (st.pool.usBufUsedCnt + 2 ^ 16 - 1) % 2 ^ 16 = st.pool.usBufUsedCnt - 1 := by
      omega
    simp only [e1, e2]
    unfold Ring
    dsimp only
    refine ⟨by omega, h2, Nat.mod_lt _ (by omega), by rw [List.length_set, h4], ?_⟩
    rw [Nat.mod_add_mod, ← h5]
    have e3 : st.pool.usTailIndex + 1 + (st.pool.usBufUsedCnt - 1) =
        st.pool.usTailIndex + st.pool.usBufUsedCnt := by omega
    rw [e3]

theorem execTx_ring (cfg : Config) (hc : cfg.TX_BUFFER_COUNT < 2 ^ 16)
    (es : List TxPoolEvent) (st : TxPoolState) (hm : ∀ e ∈ es, e.missesPoolRecord cfg)
    (h : Ring cfg st.pool) :
    Ring cfg (execTx cfg st es).2.pool := by
  induction es generalizing st with
  | nil => simpa [execTx] using h
  | cons e es ih =>
    simp only [execTx]
    apply ih _ (fun x hx => hm x (List.mem_cons_of_mem _ hx))
    have he := hm e (List.mem_cons_self _ _)
    cases e with
    | get w => exact pucGetTXBuffer_ring cfg hc st w h
    | release b => exact pucReleaseTXBuffer_ring cfg hc st b he h
    | lock l => exact h

theorem execTx_gets (cfg : Config) (hc : cfg.TX_BUFFER_COUNT < 2 ^ 16) (w : Nat)
    (hw : w ≤ cfg.TX_BUFFER_SIZE) :
    ∀ (n : Nat) (st : TxPoolState), st.xTxBufSynchSem.held = false →
      st.pool.usHeadIndex < cfg.TX_BUFFER_COUNT →
      st.pool.usBufUsedCnt + n ≤ cfg.TX_BUFFER_COUNT →
      (execTx cfg st (List.replicate n (.get w))).1 =
        (List.range n).map (fun k => PoolRet.addr
          (st.pool.pTxBuffer.getD ((st.pool.usHeadIndex + k) % cfg.TX_BUFFER_COUNT) NULL)) ∧
      (execTx cfg st (List.replicate n (.get w))).2.pool.usBufUsedCnt =
        st.pool.usBufUsedCnt + n ∧
      (execTx cfg st (List.replicate n (.get w))).2.xTxBufSynchSem.held = false := by
  intro n
  induction n with
  | zero => intro st hl _ _; simp [execTx, hl]
  | succ n ih =>
    intro st hl hh hu
    have hne : ¬ st.pool.usBufUsedCnt = cfg.TX_BUFFER_COUNT := by omega
    have hget : pucGetTXBuffer cfg st w =
        (st.pool.pTxBuffer.getD st.pool.usHeadIndex NULL,
          { st with
            pool := { st.pool with
              usHeadIndex := (st.pool.usHeadIndex + 1) % cfg.TX_BUFFER_COUNT
              usBufUsedCnt := st.pool.usBufUsedCnt + 1 }
            xTxBufSynchSem := { held := false } }) := by
      unfold pucGetTXBuffer xSemaphoreTake xSemaphoreGive
      rw [Nat.mod_eq_of_lt hc]
      rw [if_neg (by omega), if_neg (by simp [hl])]
      simp only [hne, if_false]
      rw [Nat.mod_eq_of_lt (show st.pool.usHeadIndex + 1 < 2 ^ 16 by omega),
        Nat.mod_eq_of_lt (show st.pool.usBufUsedCnt + 1 < 2 ^ 16 by omega)]
    have h0 : 0 < cfg.TX_BUFFER_COUNT := by omega
    obtain ⟨i1, i2, i3⟩ := ih
      { st with
        pool := { st.pool with
          usHeadIndex := (st.pool.usHeadIndex + 1) % cfg.TX_BUFFER_COUNT
          usBufUsedCnt := st.pool.usBufUsedCnt + 1 }
        xTxBufSynchSem := { held := false } } rfl (Nat.mod_lt _ h0) (by simp only; omega)
    simp only [List.replicate_succ, execTx, TxPoolEvent.exec, hget, Option.toList]
    refine ⟨?_, ?_, i3⟩
    · rw [i1, List.range_succ_eq_map]
      simp only [List.map_cons, List.map_map, Nat.add_zero, List.singleton_append,
        List.cons.injEq, PoolRet.addr.injEq]
      refine ⟨by rw [Nat.mod_eq_of_lt hh], ?_⟩
      apply List.map_congr_left
      intro k _
      simp only [Function.comp, Nat.succ_eq_add_one, PoolRet.addr.injEq]
      rw [Nat.mod_add_mod]
      have e3 : st.pool.usHeadIndex + 1 + k = st.pool.usHeadIndex + (k + 1) := by omega
      rw [e3]
    · rw [i2]
      simp only
      omega

/-- FIFO order.  In a pool that satisfies the ring invariant and whose lock is
free, a release of `x` (an address whose bytes lie outside the pool record)
with `used_count > 0` succeeds, and if it leaves
`used_count = u` the next `CAPACITY - u` acquires (of a size that fits) take
one slot each, the last of them returning `x`, and fill the pool. -/
theorem fifo_reuse (cfg : Config) (hc : cfg.TX_BUFFER_COUNT < 2 ^ 16) (w : Nat)
    (hw : w ≤ cfg.TX_BUFFER_SIZE) (st : TxPoolState) (x : Nat)
    (hm : missesPoolRecord cfg x)
    (hring : Ring cfg st.pool) (hfree : st.xTxBufSynchSem.held = false)
    (hused : 0 < st.pool.usBufUsedCnt) :
    (pucReleaseTXBuffer cfg st x).1 = pdPASS ∧
    (pucReleaseTXBuffer cfg st x).2.pool.usBufUsedCnt + 1 = st.pool.usBufUsedCnt ∧
    (execTx cfg (pucReleaseTXBuffer cfg st x).2
      (List.replicate (cfg.TX_BUFFER_COUNT - (pucReleaseTXBuffer cfg st x).2.pool.usBufUsedCnt)
        (.get w))).1.getLast? = some (.addr x) ∧
    (execTx cfg (pucReleaseTXBuffer cfg st x).2
      (List.replicate (cfg.TX_BUFFER_COUNT - (pucReleaseTXBuffer cfg st x).2.pool.usBufUsedCnt)
        (.get w))).2.pool.usBufUsedCnt = cfg.TX_BUFFER_COUNT := by
  obtain ⟨h1, h2, h3, h4, h5⟩ := hring
  have hrel : pucReleaseTXBuffer cfg st x =
      (pdPASS,
        { pool := { st.pool with
                    pTxBuffer := st.pool.pTxBuffer.set st.pool.usTailIndex x
                    usTailIndex := (st.pool.usTailIndex + 1) % cfg.TX_BUFFER_COUNT
                    usBufUsedCnt := st.pool.usBufUsedCnt - 1 }
          xTxBufSynchSem := { held := false }
          mem := memset st.mem x 0 cfg.TX_BUFFER_SIZE }) := by
    unfold pucReleaseTXBuffer xSemaphoreTake xSemaphoreGive
    simp only [zeroFill_of_miss cfg st.pool x hm]
    rw [Nat.mod_eq_of_lt hc]
    rw [if_neg (by simp [hfree])]
    simp only
    rw [if_neg (by omega)]
    rw [Nat.mod_eq_of_lt (show st.pool.usTailIndex + 1 < 2 ^ 16 by omega)]
    have : (st.pool.usBufUsedCnt + 2 ^ 16 - 1) % 2 ^ 16 = st.pool.usBufUsedCnt - 1 := by omega
    rw [this]
  rw [hrel]
  simp only
  obtain ⟨g1, g2, _⟩ := execTx_gets cfg hc w hw
    (cfg.TX_BUFFER_COUNT - (st.pool.usBufUsedCnt - 1))
    { pool := { st.pool with
                pTxBuffer := st.pool.pTxBuffer.set st.pool.usTailIndex x
                usTailIndex := (st.pool.usTailIndex + 1) % cfg.TX_BUFFER_COUNT
                usBufUsedCnt := st.pool.usBufUsedCnt - 1 }
      xTxBufSynchSem := { held := false }
      mem := memset st.mem x 0 cfg.TX_BUFFER_SIZE } rfl h2 (by simp only; omega)
  refine ⟨trivial, by omega, ?_, by rw [g2]; simp only; omega⟩
  rw [g1]
  have hn : cfg.TX_BUFFER_COUNT - (st.pool.usBufUsedCnt - 1) =
      (cfg.TX_BUFFER_COUNT - st.pool.usBufUsedCnt) + 1 := by omega
  rw [hn, List.range_succ, List.map_append, List.map_singleton, List.getLast?_concat]
  simp only [Option.some.injEq, PoolRet.addr.injEq]
  have hidx : (st.pool.usHeadIndex + (cfg.TX_BUFFER_COUNT - st.pool.usBufUsedCnt)) %
      cfg.TX_BUFFER_COUNT = st.pool.usTailIndex := by
    rw [← h5, Nat.mod_add_mod]
    have : st.pool.usTailIndex + st.pool.usBufUsedCnt +
        (cfg.TX_BUFFER_COUNT - st.pool.usBufUsedCnt) =
        st.pool.usTailIndex + cfg.TX_BUFFER_COUNT := by omega
    rw [this, Nat.add_mod_right, Nat.mod_eq_of_lt h3]
  rw [hidx, List.getD_eq_getElem _ _ (by rw [List.length_set, h4]; exact h3)]
  simp

/-! ## Buffer pool: the FIFO scenario -/

/-- C4. On a pool of capacity 4, four acquires return the four slots, the fifth
acquire returns null because the pool is full, and it returns without giving
the lock back: the release that follows cannot take the lock, returns
`pdFAIL` and leaves `used_count` at 4, and the next acquire returns null
too instead of the released address. -/
theorem fifo_scenario_stops_at_leaked_lock :
    (execTx tiny (createdTx tiny 4096 (TxBufferPool tiny) zeroMem)
      [.get 16, .get 16, .get 16, .get 16, .get 16, .release 4096, .get 16]).1 =
      [.addr 4096, .addr 4112, .addr 4128, .addr 4144, .addr NULL, .code pdFAIL,
        .addr NULL] ∧
    (execTx tiny (createdTx tiny 4096 (TxBufferPool tiny) zeroMem)
      [.get 16, .get 16, .get 16, .get 16, .get 16]).2.xTxBufSynchSem.held = true ∧
    (execTx tiny (createdTx tiny 4096 (TxBufferPool tiny) zeroMem)
      [.get 16, .get 16, .get 16, .get 16, .get 16, .release 4096]).2.pool.usBufUsedCnt = 4 := by
  decide

/-! ## Initialisation: helper lemmas -/

theorem tick_elapsed (M t b : Nat) (hM : 0 < M) :
    ((t + b) % M + M - t % M) % M = b % M := by
  have h1 : t % M < M := Nat.mod_lt _ hM
  have h2 : ((t + b) % M + M - t % M) + t % M = (t + b) % M + M := by omega
  have h3 : (((t + b) % M + M - t % M) + t % M) % M = (b + t % M) % M := by
    rw [h2, Nat.add_mod_right, Nat.mod_mod, Nat.add_comm b, Nat.mod_add_mod]
  exact Nat.ModEq.add_right_cancel' (t % M) h3

theorem xTaskGetTickCount_elapsed (cfg : Config) (d : Driver) (t0 delay k : Nat)
    (ht : xTaskGetTickCount cfg d = tickAfter cfg t0 delay k)
    (hk : k * delay ≤ cfg.portMAX_DELAY) :
    (xTaskGetTickCount cfg d + (cfg.portMAX_DELAY + 1) - t0 % (cfg.portMAX_DELAY + 1)) %
      (cfg.portMAX_DELAY + 1) = k * delay := by
  rw [ht, tickAfter, tick_elapsed _ _ _ (Nat.succ_pos _)]
  exact Nat.mod_eq_of_lt (by omega)

theorem xTaskGetTickCount_delay (cfg : Config) (d : Driver) (t0 delay k v : Nat)
    (ht : xTaskGetTickCount cfg d = tickAfter cfg t0 delay k) :
    xTaskGetTickCount cfg
      { d with ulPHYLinkStatus := v, tick := (d.tick + delay) % (cfg.portMAX_DELAY + 1) } =
      tickAfter cfg t0 delay (k + 1) := by
  unfold xTaskGetTickCount tickAfter at *
  simp only [Nat.mod_mod]
  rw [Nat.add_mod, ht, Nat.mod_add_mod, Nat.add_mul, Nat.one_mul, Nat.add_assoc,
    ← Nat.add_assoc, Nat.add_mod_mod, Nat.add_assoc]

theorem prvPhyCheckLinkStatus_loop_returns (cfg : Config) (env : Env)
    (ifc : NetworkInterface_t) (t0 maxT delay : Nat) :
    ∀ (n k fuel : Nat) (d : Driver) (log : List Call),
      xTaskGetTickCount cfg d = tickAfter cfg t0 delay k →
      (k + n) * delay ≤ cfg.portMAX_DELAY → maxT < (k + n) * delay → n + 1 ≤ fuel →
      ∃ o, prvPhyCheckLinkStatus_loop cfg env ifc (t0 % (cfg.portMAX_DELAY + 1)) maxT delay
        fuel d log = some o := by
  intro n
  induction n with
  | zero =>
    intro k fuel d log ht hfit hlt hf
    obtain ⟨f, rfl⟩ : ∃ f, fuel = f + 1 := ⟨fuel - 1, by omega⟩
    simp only [Nat.add_zero] at hfit hlt
    unfold prvPhyCheckLinkStatus_loop
    simp only [xTaskGetTickCount_elapsed cfg d t0 delay k ht hfit, gt_iff_lt, hlt, if_true]
    exact ⟨_, rfl⟩
  | succ n ih =>
    intro k fuel d log ht hfit hlt hf
    obtain ⟨f, rfl⟩ : ∃ f, fuel = f + 1 := ⟨fuel - 1, by omega⟩
    unfold prvPhyCheckLinkStatus_loop
    simp only
    split_ifs with h1 h2
    · exact ⟨_, rfl⟩
    · exact ⟨_, rfl⟩
    · have e : k + (n + 1) = k + 1 + n := by omega
      rw [e] at hfit hlt
      exact ih (k + 1) f _ _ (xTaskGetTickCount_delay cfg d t0 delay k _ ht) hfit hlt
        (by omega)

theorem prvPhyCheckLinkStatus_returns (cfg : Config) (env : Env) (maxT : Nat)
    (ifc : NetworkInterface_t) (d : Driver)
    (hdelay : 0 < cfg.pdMS_TO_TICKS 20 ∧ maxT + cfg.pdMS_TO_TICKS 20 ≤ cfg.portMAX_DELAY) :
    ∃ o, prvPhyCheckLinkStatus cfg env maxT ifc d = some o := by
  obtain ⟨hpos, hfit⟩ := hdelay
  unfold prvPhyCheckLinkStatus
  simp only
  rw [Nat.mod_eq_of_lt (show maxT < cfg.portMAX_DELAY + 1 by omega),
    Nat.mod_eq_of_lt (show cfg.pdMS_TO_TICKS 20 < cfg.portMAX_DELAY + 1 by omega)]
  have h1 := Nat.div_add_mod maxT (cfg.pdMS_TO_TICKS 20)
  have h2 := Nat.mod_lt maxT hpos
  have h3 : (maxT / cfg.pdMS_TO_TICKS 20 + 1) * cfg.pdMS_TO_TICKS 20 =
      cfg.pdMS_TO_TICKS 20 * (maxT / cfg.pdMS_TO_TICKS 20) + cfg.pdMS_TO_TICKS 20 := by
    rw [Nat.add_one_mul, Nat.mul_comm]
  have h4 : maxT / cfg.pdMS_TO_TICKS 20 ≤ maxT := Nat.div_le_self _ _
  exact prvPhyCheckLinkStatus_loop_returns cfg env ifc d.tick maxT (cfg.pdMS_TO_TICKS 20)
    (maxT / cfg.pdMS_TO_TICKS 20 + 1) 0 _ d []
    (by simp [xTaskGetTickCount, tickAfter])
    (by rw [Nat.zero_add, h3]; omega) (by rw [Nat.zero_add, h3]; omega) (by omega)

theorem LogOK_nil (k : Nat) : LogOK k [] := by
  simp [LogOK]

theorem LogOK_append {k k2 : Nat} {log new : List Call} (h : LogOK k log) (hk : k ≤ k2)
    (hn : ∀ x ∈ new, x.stage = k2 ∧ x.failed = false) : LogOK k2 (log ++ new) := by
  obtain ⟨hp, ha⟩ := h
  refine ⟨?_, ?_⟩
  · rw [List.pairwise_append]
    refine ⟨hp, ?_, ?_⟩
    · rw [List.pairwise_iff_forall_sublist]
      intro a b hab
      have ha2 := hn a (hab.subset (by simp))
      have hb2 := hn b (hab.subset (by simp))
      omega
    · intro a ha1 b hb1
      have := (ha a ha1).2
      have := (hn b hb1).1
      omega
  · intro x hx
    rcases List.mem_append.mp hx with h1 | h1
    · exact ⟨(ha x h1).1, le_trans (ha x h1).2 hk⟩
    · exact ⟨(hn x h1).2, le_of_eq (hn x h1).1⟩

theorem Finished_of_LogOK {k : Nat} {log : List Call} (h : LogOK k log) (r : BaseType_t)
    (d : Driver) : Finished { xReturn := r, d := d, calls := log } := by
  refine ⟨h.1, ?_, ?_⟩
  · intro x hx
    exact (h.2 x (List.mem_of_mem_dropLast hx)).1
  · rintro ⟨x, hx, hf⟩
    have := (h.2 x hx).1
    simp_all

theorem Finished_stageFailed {k : Nat} {log : List Call} (h : LogOK k log) (e : Call)
    (hk : k ≤ e.stage) (d : Driver) (o : Outcome)
    (ho : stageFailed d (log ++ [e]) = some o) : Finished o := by
  simp only [stageFailed, Option.some.injEq] at ho
  subst ho
  refine ⟨?_, ?_, ?_⟩
  · simp only
    rw [List.pairwise_append]
    refine ⟨h.1, by simp, ?_⟩
    intro a ha b hb
    simp only [List.mem_singleton] at hb
    subst hb
    exact le_trans (h.2 a ha).2 hk
  · intro x hx
    simp only [List.dropLast_concat] at hx
    exact (h.2 x hx).1
  · intro _
    exact ⟨rfl, rfl⟩

theorem prvPhyCheckLinkStatus_loop_calls (cfg : Config) (env : Env) (ifc : NetworkInterface_t)
    (start maxT delay : Nat) :
    ∀ (fuel : Nat) (d : Driver) (log : List Call) (o : Outcome),
      prvPhyCheckLinkStatus_loop cfg env ifc start maxT delay fuel d log = some o →
      ∃ new, o.calls = log ++ new ∧ ∀ x ∈ new, x.stage = 5 ∧ x.failed = false := by
  intro fuel
  induction fuel with
  | zero => intro d log o h; simp [prvPhyCheckLinkStatus_loop] at h
  | succ n ih =>
    intro d log o h
    unfold prvPhyCheckLinkStatus_loop at h
    simp only at h
    split_ifs at h with h1 h2
    · simp only [Option.some.injEq] at h
      subst h
      exact ⟨[], by simp, by simp⟩
    · simp only [Option.some.injEq] at h
      subst h
      exact ⟨_, rfl, by simp [ prvReadMDIO, Call.stage, Call.failed]⟩
    · obtain ⟨new, hc, hn⟩ := ih _ _ _ h
      refine ⟨( prvReadMDIO cfg env COPPER_STATUS_REG ifc d).2 :: Call.vTaskDelay delay :: new,
        by rw [hc]; simp, ?_⟩
      intro x hx
      simp only [List.mem_cons] at hx
      rcases hx with rfl | rfl | hx
      · simp [ prvReadMDIO, Call.stage, Call.failed]
      · simp [Call.stage, Call.failed]
      · exact hn x hx

theorem prefill_step_calls (log : List Call) (a b : Call) (o : Outcome)
    (hab : ∀ x ∈ [a, b], x.stage = 3 ∧ x.failed = false)
    (h : (o.xReturn = pdPASS ∧ ∃ new, o.calls = log ++ [a, b] ++ new ∧
          ∀ x ∈ new, x.stage = 3 ∧ x.failed = false) ∨
      (o.xReturn = pdFAIL ∧ ∃ new e, o.calls = log ++ [a, b] ++ new ++ [e] ∧
          (∀ x ∈ new, x.stage = 3 ∧ x.failed = false) ∧ e.stage = 3)) :
    (o.xReturn = pdPASS ∧ ∃ new, o.calls = log ++ new ∧
          ∀ x ∈ new, x.stage = 3 ∧ x.failed = false) ∨
      (o.xReturn = pdFAIL ∧ ∃ new e, o.calls = log ++ new ++ [e] ∧
          (∀ x ∈ new, x.stage = 3 ∧ x.failed = false) ∧ e.stage = 3) := by
  rcases h with ⟨hr, new, hc, hn⟩ | ⟨hr, new, e, hc, hn, he⟩
  · refine Or.inl ⟨hr, [a, b] ++ new, by rw [hc]; simp, ?_⟩
    intro x hx
    rcases List.mem_append.mp hx with h1 | h1
    · exact hab x h1
    · exact hn x h1
  · refine Or.inr ⟨hr, [a, b] ++ new, e, by rw [hc]; simp, ?_, he⟩
    intro x hx
    rcases List.mem_append.mp hx with h1 | h1
    · exact hab x h1
    · exact hn x h1

theorem prvUpdateRxDMADescriptors_loop_calls (cfg : Config) (env : Env)
    (ifc : NetworkInterface_t) :
    ∀ (n i : Nat) (d : Driver) (log : List Call) (o : Outcome),
      prvUpdateRxDMADescriptors_loop cfg env ifc n i d log = some o →
      (o.xReturn = pdPASS ∧ ∃ new, o.calls = log ++ new ∧
          ∀ x ∈ new, x.stage = 3 ∧ x.failed = false) ∨
      (o.xReturn = pdFAIL ∧ ∃ new e, o.calls = log ++ new ++ [e] ∧
          (∀ x ∈ new, x.stage = 3 ∧ x.failed = false) ∧ e.stage = 3) := by
  intro n
  induction n with
  | zero =>
    intro i d log o h
    simp only [prvUpdateRxDMADescriptors_loop, Option.some.injEq] at h
    subst h
    exact Or.inl ⟨rfl, [], by simp, by simp⟩
  | succ n ih =>
    intro i d log o h
    unfold prvUpdateRxDMADescriptors_loop at h
    simp only at h
    by_cases hz : cfg.ipconfigZERO_COPY_RX_DRIVER = true
    · rw [if_pos hz] at h
      cases hd : env.pxGetNetworkBufferWithDescriptor_ret i with
      | none =>
        simp only [hd, Option.some.injEq] at h
        subst h
        exact Or.inr ⟨rfl, [], Call.pxGetNetworkBufferWithDescriptor _ _ none,
          by rw [List.append_nil], by simp, by simp [Call.stage]⟩
      | some desc =>
        simp only [hd] at h
        by_cases hs : env.xgmac_refill_rx_descriptor_ret i ≠ 0
        · rw [if_pos hs] at h
          simp only [Option.some.injEq] at h
          subst h
          refine Or.inr ⟨rfl, [Call.pxGetNetworkBufferWithDescriptor _ _ (some desc)],
            Call.xgmac_refill_rx_descriptor _ _ _, rfl, ?_, by simp [Call.stage]⟩
          intro x hx
          simp only [List.mem_singleton] at hx
          subst hx
          simp [Call.stage, Call.failed]
        · rw [if_neg hs] at h
          apply prefill_step_calls log _ _ o _ (by simpa using ih _ _ _ _ h)
          intro x hx
          simp only [List.mem_cons, List.mem_singleton, List.not_mem_nil, or_false] at hx
          simp only [ne_eq, not_not] at hs
          rcases hx with rfl | rfl
          · simp [Call.stage, Call.failed]
          · simp [Call.stage, Call.failed, hs]
    · rw [if_neg hz] at h
      cases hg : d.pucGetRXBuffer cfg cfg.XGMAC_MAX_PACKET_SIZE with
      | none => simp [hg] at h
      | some r =>
        obtain ⟨a, d1⟩ := r
        simp only [hg] at h
        by_cases ha : a = NULL
        · rw [if_pos ha] at h
          simp only [Option.some.injEq] at h
          subst h
          exact Or.inr ⟨rfl, [], Call.pucGetRXBuffer _ _, by rw [List.append_nil], by simp,
            by simp [Call.stage]⟩
        · rw [if_neg ha] at h
          by_cases hs : env.xgmac_refill_rx_descriptor_ret i ≠ 0
          · rw [if_pos hs] at h
            simp only [Option.some.injEq] at h
            subst h
            refine Or.inr ⟨rfl, [Call.pucGetRXBuffer _ a],
              Call.xgmac_refill_rx_descriptor _ _ _, rfl, ?_, by simp [Call.stage]⟩
            intro x hx
            simp only [List.mem_singleton] at hx
            subst hx
            simp [Call.stage, Call.failed, ha]
          · rw [if_neg hs] at h
            apply prefill_step_calls log _ _ o _ (by simpa using ih _ _ _ _ h)
            intro x hx
            simp only [List.mem_cons, List.mem_singleton, List.not_mem_nil, or_false] at hx
            simp only [ne_eq, not_not] at hs
            rcases hx with rfl | rfl
            · simp [Call.stage, Call.failed, ha]
            · simp [Call.stage, Call.failed, hs]

theorem LogOK_mono {k k2 : Nat} {log : List Call} (h : LogOK k log) (hk : k ≤ k2) :
    LogOK k2 log :=
  ⟨h.1, fun x hx => ⟨(h.2 x hx).1, le_trans (h.2 x hx).2 hk⟩⟩

theorem stageFailed_calls (d : Driver) (log : List Call) (o : Outcome)
    (h : stageFailed d log = some o) : o.calls = log := by
  simp only [stageFailed, Option.some.injEq] at h
  subst h
  rfl

theorem prvPhyCheckLinkStatus_calls (cfg : Config) (env : Env) (maxT : Nat)
    (ifc : NetworkInterface_t) (d : Driver) (o : Outcome)
    (h : prvPhyCheckLinkStatus cfg env maxT ifc d = some o) :
    ∀ x ∈ o.calls, x.stage = 5 ∧ x.failed = false := by
  unfold prvPhyCheckLinkStatus at h
  obtain ⟨new, hc, hn⟩ := prvPhyCheckLinkStatus_loop_calls _ _ _ _ _ _ _ _ _ _ h
  rw [hc, List.nil_append]
  exact hn

theorem casePHYWait_spec (cfg : Config) (env : Env) (ifc : NetworkInterface_t)
    (d : Driver) (log : List Call) (o : Outcome) (hl : LogOK 5 log)
    (h : casePHYWait cfg env ifc d log = some o) :
    Finished o ∧ ∃ new, o.calls = log ++ new := by
  unfold casePHYWait at h
  simp only at h
  cases hp : prvPhyCheckLinkStatus cfg env (cfg.pdMS_TO_TICKS 1000) ifc d with
  | none => simp [hp] at h
  | some p =>
    simp only [hp] at h
    have hl2 : LogOK 5 (log ++ p.calls) :=
      LogOK_append hl (Nat.le_refl _) (prvPhyCheckLinkStatus_calls _ _ _ _ _ _ hp)
    by_cases h1 : GetPhyLinkStatus p.d = pdFALSE
    · rw [if_pos h1] at h
      simp only [Option.some.injEq] at h
      subst h
      exact ⟨Finished_of_LogOK hl2 _ _, _, rfl⟩
    · rw [if_neg h1] at h
      by_cases h2 : p.d.xEMACTaskHandle = NULL
      · rw [if_pos h2] at h
        by_cases h3 : env.xTaskCreate_ret = NULL
        · rw [if_pos h3] at h
          refine ⟨Finished_stageFailed hl2 _ (by simp [Call.stage]) _ _ h, ?_⟩
          rw [stageFailed_calls _ _ _ h]
          exact ⟨_, List.append_assoc _ _ _⟩
        · rw [if_neg h3] at h
          simp only [caseReady, Option.some.injEq] at h
          subst h
          refine ⟨Finished_of_LogOK (LogOK_append hl2 (by decide : 5 ≤ 6) ?_) _ _,
            _, List.append_assoc _ _ _⟩
          intro x hx
          simp only [List.mem_singleton] at hx
          subst hx
          simp [Call.stage, Call.failed, h3]
      · rw [if_neg h2] at h
        simp only [caseReady, Option.some.injEq] at h
        subst h
        exact ⟨Finished_of_LogOK hl2 _ _, _, rfl⟩

theorem caseEMACStart_spec (cfg : Config) (env : Env) (ifc : NetworkInterface_t)
    (hdl : Nat) (d : Driver) (log : List Call) (o : Outcome) (hl : LogOK 4 log)
    (h : caseEMACStart cfg env ifc hdl d log = some o) :
    Finished o ∧ ∃ new, o.calls = log ++ new := by
  unfold caseEMACStart at h
  simp only at h
  by_cases h1 : env.xgmac_cfg_speed_mode_ret ≠ 0
  · rw [if_pos h1] at h
    refine ⟨Finished_stageFailed hl _ (by simp [Call.stage]) _ _ h, ?_⟩
    rw [stageFailed_calls _ _ _ h]
    exact ⟨_, rfl⟩
  · rw [if_neg h1] at h
    simp only [ne_eq, not_not] at h1
    have hl1 : LogOK 4 (log ++ [Call.xgmac_cfg_speed_mode hdl env.xgmac_cfg_speed_mode_ret]) := by
      apply LogOK_append hl (Nat.le_refl _)
      intro x hx
      simp only [List.mem_singleton] at hx
      subst hx
      simp [Call.stage, Call.failed, h1]
    by_cases h2 : env.xgmac_emac_start_ret ≠ 0
    · rw [if_pos h2] at h
      refine ⟨Finished_stageFailed hl1 _ (by simp [Call.stage]) _ _ h, ?_⟩
      rw [stageFailed_calls _ _ _ h]
      exact ⟨_, List.append_assoc _ _ _⟩
    · rw [if_neg h2] at h
      simp only [ne_eq, not_not] at h2
      have hl2 : LogOK 4 (log ++ [Call.xgmac_cfg_speed_mode hdl env.xgmac_cfg_speed_mode_ret]
          ++ [Call.xgmac_emac_start hdl env.xgmac_emac_start_ret]) := by
        apply LogOK_append hl1 (Nat.le_refl _)
        intro x hx
        simp only [List.mem_singleton] at hx
        subst hx
        simp [Call.stage, Call.failed, h2]
      obtain ⟨hf, new, hn⟩ := casePHYWait_spec _ _ _ _ _ _ (LogOK_mono hl2 (by decide)) h
      exact ⟨hf, _, by rw [hn, List.append_assoc, List.append_assoc]⟩

theorem caseDMAInit_engine_spec (cfg : Config) (env : Env) (ifc : NetworkInterface_t)
    (hdl : Nat) (d : Driver) (log : List Call) (o : Outcome) (hl : LogOK 3 log)
    (h : caseDMAInit_engine cfg env ifc hdl d log = some o) :
    Finished o ∧ ∃ new, o.calls = log ++ new := by
  unfold caseDMAInit_engine at h
  simp only at h
  by_cases h1 : env.xgmac_dma_initialize_ret ≠ 0
  · rw [if_pos h1] at h
    refine ⟨Finished_stageFailed hl _ (by simp [Call.stage]) _ _ h, ?_⟩
    rw [stageFailed_calls _ _ _ h]
    exact ⟨_, rfl⟩
  · rw [if_neg h1] at h
    simp only [ne_eq, not_not] at h1
    have hl1 : LogOK 3 (log ++ [ Call.xgmac_dma_initialize hdl env.xgmac_dma_initialize_ret]) := by
      apply LogOK_append hl (Nat.le_refl _)
      intro x hx
      simp only [List.mem_singleton] at hx
      subst hx
      simp [Call.stage, Call.failed, h1]
    cases hp : prvUpdateRxDMADescriptors cfg env ifc d
        (log ++ [ Call.xgmac_dma_initialize hdl env.xgmac_dma_initialize_ret]) with
    | none => simp [hp] at h
    | some p =>
      simp only [hp] at h
      unfold prvUpdateRxDMADescriptors at hp
      rcases prvUpdateRxDMADescriptors_loop_calls _ _ _ _ _ _ _ _ hp with
        ⟨hr, new, hc, hn⟩ | ⟨hr, new, e, hc, hn, he⟩
      · rw [if_neg (by simp [hr])] at h
        have hl2 : LogOK 3 p.calls := by
          rw [hc]; exact LogOK_append hl1 (Nat.le_refl _) hn
        obtain ⟨hf, new2, hn2⟩ := caseEMACStart_spec _ _ _ _ _ _ _ (LogOK_mono hl2 (by decide)) h
        exact ⟨hf, _, by rw [hn2, hc, List.append_assoc, List.append_assoc]⟩
      · rw [if_pos (by rw [hr]; decide)] at h
        rw [hc] at h
        have hl2 := LogOK_append hl1 (Nat.le_refl _) hn
        refine ⟨Finished_stageFailed hl2 e (by omega) _ _ h, ?_⟩
        rw [stageFailed_calls _ _ _ h]
        exact ⟨_, by rw [List.append_assoc, List.append_assoc]⟩

theorem caseDMAInit_rx_spec (cfg : Config) (env : Env) (ifc : NetworkInterface_t)
    (hdl : Nat) (d : Driver) (log : List Call) (o : Outcome) (hl : LogOK 3 log)
    (h : caseDMAInit_rx cfg env ifc hdl d log = some o) :
    Finished o ∧ ∃ new, o.calls = log ++ new := by
  unfold caseDMAInit_rx at h
  simp only at h
  by_cases hc : ¬ cfg.ipconfigZERO_COPY_RX_DRIVER = true ∧ d.pxRxBufferPool.ucIsInitiazed = 0
  · rw [if_pos hc] at h
    by_cases hp : env.pvPortAlignedAlloc_ret = NULL
    · simp only [prvCreateRxBufferPool, hp, if_true, List.append_nil] at h
      rw [if_pos (show pdFAIL ≠ pdPASS by decide)] at h
      refine ⟨Finished_stageFailed hl _ (by simp [Call.stage]) _ _ h, ?_⟩
      rw [stageFailed_calls _ _ _ h]
      exact ⟨_, rfl⟩
    · have hl1 : LogOK 3 (log ++ [Call.pvPortAlignedAlloc 64
          (cfg.RX_BUFFER_COUNT * cfg.RX_BUFFER_SIZE) env.pvPortAlignedAlloc_ret]) := by
        apply LogOK_append hl (Nat.le_refl _)
        intro x hx
        simp only [List.mem_singleton] at hx
        subst hx
        simp [Call.stage, Call.failed, hp]
      cases hm : env.xSemaphoreCreateMutex_rx_ret with
      | false =>
        simp only [prvCreateRxBufferPool, hp, if_false, hm, Bool.false_eq_true] at h
        rw [if_pos (show pdFAIL ≠ pdPASS by decide)] at h
        refine ⟨Finished_stageFailed hl1 _ (by simp [Call.stage]) _ _ h, ?_⟩
        rw [stageFailed_calls _ _ _ h]
        exact ⟨_, List.append_assoc _ _ _⟩
      | true =>
        simp only [prvCreateRxBufferPool, hp, if_false, hm, if_true] at h
        rw [if_neg (show ¬ (pdPASS ≠ pdPASS) by simp)] at h
        have hl2 : LogOK 3 (log ++ [Call.pvPortAlignedAlloc 64
            (cfg.RX_BUFFER_COUNT * cfg.RX_BUFFER_SIZE) env.pvPortAlignedAlloc_ret] ++
            [Call.xSemaphoreCreateMutex true]) := by
          apply LogOK_append hl1 (Nat.le_refl _)
          intro x hx
          simp only [List.mem_singleton] at hx
          subst hx
          simp [Call.stage, Call.failed]
        obtain ⟨hf, new, hn⟩ := caseDMAInit_engine_spec _ _ _ _ _ _ _ hl2 h
        exact ⟨hf, _, by rw [hn, List.append_assoc, List.append_assoc]⟩
  · rw [if_neg hc] at h
    exact caseDMAInit_engine_spec _ _ _ _ _ _ _ hl h

theorem caseDMAInit_spec (cfg : Config) (env : Env) (ifc : NetworkInterface_t)
    (hdl : Nat) (d : Driver) (log : List Call) (o : Outcome) (hl : LogOK 3 log)
    (h : caseDMAInit cfg env ifc hdl d log = some o) :
    Finished o ∧ ∃ new, o.calls = log ++ new := by
  unfold caseDMAInit at h
  simp only at h
  by_cases hc : ¬ cfg.ipconfigZERO_COPY_TX_DRIVER = true ∧ d.pxTxBufferPool.ucIsInitiazed = 0
  · rw [if_pos hc] at h
    by_cases hp : env.pvPortMalloc_ret = NULL
    · simp only [prvCreateTxBufferPool, hp, if_true, List.append_nil] at h
      rw [if_pos (show pdFAIL ≠ pdPASS by decide)] at h
      refine ⟨Finished_stageFailed hl _ (by simp [Call.stage]) _ _ h, ?_⟩
      rw [stageFailed_calls _ _ _ h]
      exact ⟨_, rfl⟩
    · have hl1 : LogOK 3 (log ++ [Call.pvPortMalloc
          (cfg.TX_BUFFER_COUNT * cfg.TX_BUFFER_SIZE) env.pvPortMalloc_ret]) := by
        apply LogOK_append hl (Nat.le_refl _)
        intro x hx
        simp only [List.mem_singleton] at hx
        subst hx
        simp [Call.stage, Call.failed, hp]
      cases hm : env.xSemaphoreCreateMutex_tx_ret with
      | false =>
        simp only [prvCreateTxBufferPool, hp, if_false, hm, Bool.false_eq_true] at h
        rw [if_pos (show pdFAIL ≠ pdPASS by decide)] at h
        refine ⟨Finished_stageFailed hl1 _ (by simp [Call.stage]) _ _ h, ?_⟩
        rw [stageFailed_calls _ _ _ h]
        exact ⟨_, List.append_assoc _ _ _⟩
      | true =>
        simp only [prvCreateTxBufferPool, hp, if_false, hm, if_true] at h
        rw [if_neg (show ¬ (pdPASS ≠ pdPASS) by simp)] at h
        have hl2 : LogOK 3 (log ++ [Call.pvPortMalloc
            (cfg.TX_BUFFER_COUNT * cfg.TX_BUFFER_SIZE) env.pvPortMalloc_ret] ++
            [Call.xSemaphoreCreateMutex true]) := by
          apply LogOK_append hl1 (Nat.le_refl _)
          intro x hx
          simp only [List.mem_singleton] at hx
          subst hx
          simp [Call.stage, Call.failed]
        obtain ⟨hf, new, hn⟩ := caseDMAInit_rx_spec _ _ _ _ _ _ _ hl2 h
        exact ⟨hf, _, by rw [hn, List.append_assoc, List.append_assoc]⟩
  · rw [if_neg hc] at h
    exact caseDMAInit_rx_spec _ _ _ _ _ _ _ hl h

theorem casePHYInit_spec (cfg : Config) (env : Env) (ifc : NetworkInterface_t)
    (hdl : Nat) (d : Driver) (log : List Call) (o : Outcome) (hl : LogOK 2 log)
    (h : casePHYInit cfg env ifc hdl d log = some o) :
    Finished o ∧ ∃ new, o.calls = log ++ new := by
  unfold casePHYInit at h
  simp only at h
  by_cases h1 : env.xgmac_phy_discover_ret ≠ 0
  · rw [if_pos h1] at h
    refine ⟨Finished_stageFailed hl _ (by simp [Call.stage]) _ _ h, ?_⟩
    rw [stageFailed_calls _ _ _ h]
    exact ⟨_, rfl⟩
  · rw [if_neg h1] at h
    simp only [ne_eq, not_not] at h1
    have hl1 : LogOK 2 (log ++ [Call.xgmac_phy_discover hdl env.xgmac_phy_discover_ret]) := by
      apply LogOK_append hl (Nat.le_refl _)
      intro x hx
      simp only [List.mem_singleton] at hx
      subst hx
      simp [Call.stage, Call.failed, h1]
    by_cases h2 : env.xgmac_phy_initialize_ret ≠ 0
    · rw [if_pos h2] at h
      refine ⟨Finished_stageFailed hl1 _ (by simp [Call.stage]) _ _ h, ?_⟩
      rw [stageFailed_calls _ _ _ h]
      exact ⟨_, List.append_assoc _ _ _⟩
    · rw [if_neg h2] at h
      simp only [ne_eq, not_not] at h2
      have hl2 : LogOK 2 (log ++ [Call.xgmac_phy_discover hdl env.xgmac_phy_discover_ret]
          ++ [ Call.xgmac_phy_initialize hdl env.xgmac_phy_initialize_ret]) := by
        apply LogOK_append hl1 (Nat.le_refl _)
        intro x hx
        simp only [List.mem_singleton] at hx
        subst hx
        simp [Call.stage, Call.failed, h2]
      obtain ⟨hf, new, hn⟩ := caseDMAInit_spec _ _ _ _ _ _ _ (LogOK_mono hl2 (by decide)) h
      exact ⟨hf, _, by rw [hn, List.append_assoc, List.append_assoc]⟩

theorem caseEMACInit_spec (cfg : Config) (env : Env) (ifc : NetworkInterface_t)
    (d : Driver) (log : List Call) (o : Outcome) (hl : LogOK 1 log)
    (h : caseEMACInit cfg env ifc d log = some o) :
    Finished o ∧
      ∃ new, o.calls =
        log ++ Call.xgmac_emac_init ifc.pvArgument env.xgmac_emac_init_ret :: new := by
  unfold caseEMACInit at h
  simp only at h
  by_cases h1 : env.xgmac_emac_init_ret = NULL
  · rw [if_pos h1] at h
    refine ⟨Finished_stageFailed hl _ (by simp [Call.stage]) _ _ h, ?_⟩
    rw [stageFailed_calls _ _ _ h]
    exact ⟨[], rfl⟩
  · rw [if_neg h1] at h
    have hl1 : LogOK 1 (log ++
        [Call.xgmac_emac_init ifc.pvArgument env.xgmac_emac_init_ret]) := by
      apply LogOK_append hl (Nat.le_refl _)
      intro x hx
      simp only [List.mem_singleton] at hx
      subst hx
      simp [Call.stage, Call.failed, h1]
    by_cases h2 : env.xgmac_set_callback_ret ≠ 0
    · rw [if_pos h2] at h
      refine ⟨Finished_stageFailed hl1 _ (by simp [Call.stage]) _ _ h, ?_⟩
      rw [stageFailed_calls _ _ _ h]
      exact ⟨[Call.xgmac_set_callback env.xgmac_emac_init_ret env.xgmac_set_callback_ret],
        by simp⟩
    · rw [if_neg h2] at h
      simp only [ne_eq, not_not] at h2
      have hl2 : LogOK 1 (log ++
          [Call.xgmac_emac_init ifc.pvArgument env.xgmac_emac_init_ret]
          ++ [Call.xgmac_set_callback env.xgmac_emac_init_ret env.xgmac_set_callback_ret]) := by
        apply LogOK_append hl1 (Nat.le_refl _)
        intro x hx
        simp only [List.mem_singleton] at hx
        subst hx
        simp [Call.stage, Call.failed, h2]
      obtain ⟨hf, new, hn⟩ := casePHYInit_spec _ _ _ _ _ _ _ (LogOK_mono hl2 (by decide)) h
      exact ⟨hf, Call.xgmac_set_callback env.xgmac_emac_init_ret env.xgmac_set_callback_ret
        :: new, by rw [hn]; simp⟩

theorem xNetworkInterfaceInitialise_spec (cfg : Config) (env : Env)
    (ifc : NetworkInterface_t) (d : Driver) (o : Outcome)
    (h : xNetworkInterfaceInitialise cfg env ifc d = some o) :
    Finished o ∧
      ∃ new, o.calls = Call.xSemaphoreCreateCounting 512 0 true ::
        Call.xgmac_emac_init ifc.pvArgument env.xgmac_emac_init_ret :: new := by
  unfold xNetworkInterfaceInitialise at h
  simp only at h
  cases hc : env.xSemaphoreCreateCounting_ret with
  | false => simp [hc] at h
  | true =>
    simp only [hc, Bool.not_eq_true, Bool.true_eq_false, if_false] at h
    have hl : LogOK 1 [Call.xSemaphoreCreateCounting 512 0 true] := by
      have := LogOK_append (LogOK_nil 0) (Nat.zero_le 0)
        (show ∀ x ∈ [Call.xSemaphoreCreateCounting 512 0 true], x.stage = 0 ∧ x.failed = false
          by simp [Call.stage, Call.failed])
      exact LogOK_mono (by simpa using this) (by decide)
    obtain ⟨hf, new, hn⟩ := caseEMACInit_spec _ _ _ _ _ _ hl h
    exact ⟨hf, new, by rw [hn]; rfl⟩

theorem Driver_pucGetRXBuffer_returns (cfg : Config) (d : Driver) (w : Nat)
    (hs : d.xRxBufSynchSem ≠ none) :
    ∃ a d1, d.pucGetRXBuffer cfg w = some (a, d1) ∧ d1.xRxBufSynchSem ≠ none ∧
      d1.hxgmac = d.hxgmac := by
  unfold Driver.pucGetRXBuffer
  split_ifs with h1
  · exact ⟨_, _, rfl, hs, rfl⟩
  · cases hm : d.xRxBufSynchSem with
    | none => exact absurd hm hs
    | some m => exact ⟨_, _, rfl, by simp, rfl⟩

theorem prvUpdateRxDMADescriptors_loop_returns (cfg : Config) (env : Env)
    (ifc : NetworkInterface_t) :
    ∀ (n i : Nat) (d : Driver) (log : List Call),
      (cfg.ipconfigZERO_COPY_RX_DRIVER = true ∨ d.xRxBufSynchSem ≠ none) →
      ∃ o, prvUpdateRxDMADescriptors_loop cfg env ifc n i d log = some o := by
  intro n
  induction n with
  | zero => intro i d log _; exact ⟨_, rfl⟩
  | succ n ih =>
    intro i d log hs
    unfold prvUpdateRxDMADescriptors_loop
    simp only
    by_cases hz : cfg.ipconfigZERO_COPY_RX_DRIVER = true
    · rw [if_pos hz]
      cases hd : env.pxGetNetworkBufferWithDescriptor_ret i with
      | none => exact ⟨_, rfl⟩
      | some desc =>
        simp only
        split_ifs
        · exact ⟨_, rfl⟩
        · exact ih _ _ _ (Or.inl hz)
    · rw [if_neg hz]
      have hs2 : d.xRxBufSynchSem ≠ none := hs.resolve_left hz
      obtain ⟨a, d1, hg, hd1, _⟩ := Driver_pucGetRXBuffer_returns cfg d cfg.XGMAC_MAX_PACKET_SIZE hs2
      rw [hg]
      simp only
      split_ifs
      · exact ⟨_, rfl⟩
      · exact ⟨_, rfl⟩
      · exact ih _ _ _ (Or.inr hd1)

theorem casePHYWait_returns (cfg : Config) (env : Env) (ifc : NetworkInterface_t)
    (d : Driver) (log : List Call) (hdelay : 0 < cfg.pdMS_TO_TICKS 20 ∧
      cfg.pdMS_TO_TICKS 1000 + cfg.pdMS_TO_TICKS 20 ≤ cfg.portMAX_DELAY) :
    ∃ o, casePHYWait cfg env ifc d log = some o := by
  unfold casePHYWait
  obtain ⟨p, hp⟩ := prvPhyCheckLinkStatus_returns cfg env (cfg.pdMS_TO_TICKS 1000) ifc d hdelay
  simp only [hp]
  split_ifs <;> exact ⟨_, rfl⟩

theorem caseEMACStart_returns (cfg : Config) (env : Env) (ifc : NetworkInterface_t)
    (hdl : Nat) (d : Driver) (log : List Call) (hdelay : 0 < cfg.pdMS_TO_TICKS 20 ∧
      cfg.pdMS_TO_TICKS 1000 + cfg.pdMS_TO_TICKS 20 ≤ cfg.portMAX_DELAY) :
    ∃ o, caseEMACStart cfg env ifc hdl d log = some o := by
  unfold caseEMACStart
  simp only
  split_ifs
  · exact ⟨_, rfl⟩
  · exact ⟨_, rfl⟩
  · exact casePHYWait_returns _ _ _ _ _ hdelay

theorem caseDMAInit_engine_returns (cfg : Config) (env : Env) (ifc : NetworkInterface_t)
    (hdl : Nat) (d : Driver) (log : List Call) (hdelay : 0 < cfg.pdMS_TO_TICKS 20 ∧
      cfg.pdMS_TO_TICKS 1000 + cfg.pdMS_TO_TICKS 20 ≤ cfg.portMAX_DELAY)
    (hs : cfg.ipconfigZERO_COPY_RX_DRIVER = true ∨ d.xRxBufSynchSem ≠ none) :
    ∃ o, caseDMAInit_engine cfg env ifc hdl d log = some o := by
  unfold caseDMAInit_engine
  simp only
  split_ifs
  · exact ⟨_, rfl⟩
  · obtain ⟨p, hp⟩ := prvUpdateRxDMADescriptors_loop_returns cfg env ifc
      cfg.XGMAC_NUM_RX_DESC 0 d
      (log ++ [ Call.xgmac_dma_initialize hdl env.xgmac_dma_initialize_ret]) hs
    unfold prvUpdateRxDMADescriptors
    rw [hp]
    simp only
    split_ifs
    · exact ⟨_, rfl⟩
    · exact caseEMACStart_returns _ _ _ _ _ _ hdelay

theorem caseDMAInit_rx_returns (cfg : Config) (env : Env) (ifc : NetworkInterface_t)
    (hdl : Nat) (d : Driver) (log : List Call) (hdelay : 0 < cfg.pdMS_TO_TICKS 20 ∧
      cfg.pdMS_TO_TICKS 1000 + cfg.pdMS_TO_TICKS 20 ≤ cfg.portMAX_DELAY)
    (hs : cfg.ipconfigZERO_COPY_RX_DRIVER = false → d.pxRxBufferPool.ucIsInitiazed ≠ 0 →
      d.xRxBufSynchSem ≠ none) :
    ∃ o, caseDMAInit_rx cfg env ifc hdl d log = some o := by
  unfold caseDMAInit_rx
  simp only
  by_cases hc : ¬ cfg.ipconfigZERO_COPY_RX_DRIVER = true ∧ d.pxRxBufferPool.ucIsInitiazed = 0
  · rw [if_pos hc]
    by_cases hp : env.pvPortAlignedAlloc_ret = NULL
    · simp only [prvCreateRxBufferPool, hp, if_true]
      rw [if_pos (show pdFAIL ≠ pdPASS by decide)]
      exact ⟨_, rfl⟩
    · cases hm : env.xSemaphoreCreateMutex_rx_ret with
      | false =>
        simp only [prvCreateRxBufferPool, hp, if_false, Bool.false_eq_true]
        rw [if_pos (show pdFAIL ≠ pdPASS by decide)]
        exact ⟨_, rfl⟩
      | true =>
        simp only [prvCreateRxBufferPool, hp, if_false, if_true]
        rw [if_neg (show ¬ (pdPASS ≠ pdPASS) by simp)]
        exact caseDMAInit_engine_returns _ _ _ _ _ _ hdelay (Or.inr (by simp))
  · rw [if_neg hc]
    apply caseDMAInit_engine_returns _ _ _ _ _ _ hdelay
    by_cases hz : cfg.ipconfigZERO_COPY_RX_DRIVER = true
    · exact Or.inl hz
    · right
      apply hs (by simpa using hz)
      intro h0
      exact hc ⟨hz, h0⟩

theorem caseDMAInit_returns (cfg : Config) (env : Env) (ifc : NetworkInterface_t)
    (hdl : Nat) (d : Driver) (log : List Call) (hdelay : 0 < cfg.pdMS_TO_TICKS 20 ∧
      cfg.pdMS_TO_TICKS 1000 + cfg.pdMS_TO_TICKS 20 ≤ cfg.portMAX_DELAY)
    (hs : cfg.ipconfigZERO_COPY_RX_DRIVER = false → d.pxRxBufferPool.ucIsInitiazed ≠ 0 →
      d.xRxBufSynchSem ≠ none) :
    ∃ o, caseDMAInit cfg env ifc hdl d log = some o := by
  unfold caseDMAInit
  simp only
  split_ifs <;> first
    | exact ⟨_, rfl⟩
    | exact caseDMAInit_rx_returns _ _ _ _ _ _ hdelay hs

theorem casePHYInit_returns (cfg : Config) (env : Env) (ifc : NetworkInterface_t)
    (hdl : Nat) (d : Driver) (log : List Call) (hdelay : 0 < cfg.pdMS_TO_TICKS 20 ∧
      cfg.pdMS_TO_TICKS 1000 + cfg.pdMS_TO_TICKS 20 ≤ cfg.portMAX_DELAY)
    (hs : cfg.ipconfigZERO_COPY_RX_DRIVER = false → d.pxRxBufferPool.ucIsInitiazed ≠ 0 →
      d.xRxBufSynchSem ≠ none) :
    ∃ o, casePHYInit cfg env ifc hdl d log = some o := by
  unfold casePHYInit
  simp only
  split_ifs
  · exact ⟨_, rfl⟩
  · exact ⟨_, rfl⟩
  · exact caseDMAInit_returns _ _ _ _ _ _ hdelay hs

theorem caseEMACInit_returns (cfg : Config) (env : Env) (ifc : NetworkInterface_t)
    (d : Driver) (log : List Call) (hdelay : 0 < cfg.pdMS_TO_TICKS 20 ∧
      cfg.pdMS_TO_TICKS 1000 + cfg.pdMS_TO_TICKS 20 ≤ cfg.portMAX_DELAY)
    (hs : cfg.ipconfigZERO_COPY_RX_DRIVER = false → d.pxRxBufferPool.ucIsInitiazed ≠ 0 →
      d.xRxBufSynchSem ≠ none) :
    ∃ o, caseEMACInit cfg env ifc d log = some o := by
  unfold caseEMACInit
  simp only
  split_ifs
  · exact ⟨_, rfl⟩
  · exact ⟨_, rfl⟩
  · exact casePHYInit_returns _ _ _ _ _ _ hdelay hs

theorem xNetworkInterfaceInitialise_returns (cfg : Config) (env : Env)
    (ifc : NetworkInterface_t) (d : Driver)
    (hcount : env.xSemaphoreCreateCounting_ret = true)
    (hdelay : 0 < cfg.pdMS_TO_TICKS 20 ∧
      cfg.pdMS_TO_TICKS 1000 + cfg.pdMS_TO_TICKS 20 ≤ cfg.portMAX_DELAY)
    (hs : cfg.ipconfigZERO_COPY_RX_DRIVER = false → d.pxRxBufferPool.ucIsInitiazed ≠ 0 →
      d.xRxBufSynchSem ≠ none) :
    ∃ o, xNetworkInterfaceInitialise cfg env ifc d = some o := by
  unfold xNetworkInterfaceInitialise
  simp only [hcount, not_true_eq_false, if_false]
  exact caseEMACInit_returns _ _ _ _ _ hdelay hs

/-! ## Initialisation: claims -/

/-- C6. After a call that returned success in state `XGMAC_Ready`, the next call
starts over: with the very same collaborators it creates a new counting
semaphore and calls the engine initialisation, the callback registration, the
PHY discovery and initialisation, the DMA initialisation, two descriptor
refills, the speed configuration, the engine start and the link poll again;
and when the PHY discovery now fails it returns failure. -/
theorem init_after_ready_runs_again :
    (xNetworkInterfaceInitialise tiny envUp ifc0 (Driver.boot tiny zeroMem)).map
        (fun o => (o.xReturn, o.d.eXGMACState)) = some (pdPASS, .XGMAC_Ready) ∧
    (xNetworkInterfaceInitialise tiny envUp ifc0 afterReady).map (fun o => (o.xReturn, o.calls)) =
      some (pdPASS,
        [Call.xSemaphoreCreateCounting 512 0 true,
         Call.xgmac_emac_init 0 7,
         Call.xgmac_set_callback 7 0,
         Call.xgmac_phy_discover 7 0,
         Call.xgmac_phy_initialize 7 0,
         Call.xgmac_dma_initialize 7 0,
         Call.pucGetRXBuffer 16 8224,
         Call.xgmac_refill_rx_descriptor 7 8224 0,
         Call.pucGetRXBuffer 16 8240,
         Call.xgmac_refill_rx_descriptor 7 8240 0,
         Call.xgmac_cfg_speed_mode 7 0,
         Call.xgmac_emac_start 7 0,
         Call.read_phy_reg 7 1 4]) ∧
    (xNetworkInterfaceInitialise tiny envPhyFail ifc0 afterReady).map
        (fun o => (o.xReturn, o.d.eXGMACState)) = some (pdFAIL, .XGMAC_Failed) := by
  decide

/-- C7. After a call that went through every stage and returned failure in
state `XGMAC_PHYWait` because the link was down, the next call made with the
link still down returns failure again, but only after calling the engine
initialisation, the callback registration, the PHY discovery and
initialisation, the DMA initialisation and two descriptor refills a second
time. -/
theorem init_with_link_down_runs_again :
    (xNetworkInterfaceInitialise tiny envDown ifc0 (Driver.boot tiny zeroMem)).map
        (fun o => (o.xReturn, o.d.eXGMACState)) = some (pdFAIL, .XGMAC_PHYWait) ∧
    (xNetworkInterfaceInitialise tiny envDown ifc0 afterLinkDown).map
        (fun o => (o.xReturn, o.d.eXGMACState, o.calls.take 12)) =
      some (pdFAIL, .XGMAC_PHYWait,
        [Call.xSemaphoreCreateCounting 512 0 true,
         Call.xgmac_emac_init 0 7,
         Call.xgmac_set_callback 7 0,
         Call.xgmac_phy_discover 7 0,
         Call.xgmac_phy_initialize 7 0,
         Call.xgmac_dma_initialize 7 0,
         Call.pucGetRXBuffer 16 8224,
         Call.xgmac_refill_rx_descriptor 7 8224 0,
         Call.pucGetRXBuffer 16 8240,
         Call.xgmac_refill_rx_descriptor 7 8240 0,
         Call.xgmac_cfg_speed_mode 7 0,
         Call.xgmac_emac_start 7 0]) := by
  decide

theorem Finished_split (o : Outcome) (hf : Finished o) (pre post : List Call) (e : Call)
    (hc : o.calls = pre ++ e :: post) (he : e.failed = true) :
    o.xReturn = pdFAIL ∧ o.d.eXGMACState = .XGMAC_Failed ∧ post = [] ∧
      ∀ x ∈ pre, x.failed = false ∧ x.stage ≤ e.stage := by
  obtain ⟨hp, hd, hr⟩ := hf
  have hmem : e ∈ o.calls := by rw [hc]; simp
  have hpost : post = [] := by
    by_contra hne
    have : e ∈ o.calls.dropLast := by
      rw [hc, List.dropLast_append_of_ne_nil _ (by simp), List.dropLast_cons_of_ne_nil hne]
      simp
    have := hd e this
    simp_all
  subst hpost
  refine ⟨(hr ⟨e, hmem, he⟩).1, (hr ⟨e, hmem, he⟩).2, rfl, ?_⟩
  intro x hx
  rw [hc] at hp hd
  rw [List.pairwise_append] at hp
  refine ⟨hd x ?_, hp.2.2 x hx e (by simp)⟩
  rw [List.dropLast_concat]
  exact hx

/-- C8. Whenever the initializer returns (it does if the counting semaphore is
created, the poll delay is not zero ticks, the link wait of
`pdMS_TO_TICKS( 1000 )` ticks and one poll delay together do not exceed
`portMAX_DELAY`, and an Rx pool marked initialised has its lock), a failed
stage operation in its call log (a null engine
handle, a non-zero status of the callback registration, PHY discovery, PHY
initialisation, DMA initialisation, a descriptor refill, the speed
configuration or the engine start, a failed allocation or lock creation of a
pool, no buffer for a descriptor, no task handle) is the last call of the log:
the call returns `pdFAIL`, the state is `XGMAC_Failed`, nothing was called
after it, and every call before it succeeded and belongs to the same or an
earlier stage. -/
theorem first_failure_ends_initialisation (cfg : Config) (env : Env)
    (pxInterface : NetworkInterface_t) (d : Driver) :
    (env.xSemaphoreCreateCounting_ret = true →
      (0 < cfg.pdMS_TO_TICKS 20 ∧
        cfg.pdMS_TO_TICKS 1000 + cfg.pdMS_TO_TICKS 20 ≤ cfg.portMAX_DELAY) →
      (cfg.ipconfigZERO_COPY_RX_DRIVER = false → d.pxRxBufferPool.ucIsInitiazed ≠ 0 →
        d.xRxBufSynchSem ≠ none) →
      ∃ o, xNetworkInterfaceInitialise cfg env pxInterface d = some o) ∧
    ∀ o, xNetworkInterfaceInitialise cfg env pxInterface d = some o →
      ∀ (pre post : List Call) (e : Call), o.calls = pre ++ e :: post → e.failed = true →
        o.xReturn = pdFAIL ∧ o.d.eXGMACState = .XGMAC_Failed ∧ post = [] ∧
          ∀ x ∈ pre, x.failed = false ∧ x.stage ≤ e.stage :=
  ⟨xNetworkInterfaceInitialise_returns cfg env pxInterface d,
    fun o ho pre post e hc he =>
      Finished_split o (xNetworkInterfaceInitialise_spec cfg env pxInterface d o ho).1
        pre post e hc he⟩

/-- Witness for C8: the first call, with the PHY discovery failing. -/
theorem first_failure_ends_initialisation_witness :
    (envPhyFail.xSemaphoreCreateCounting_ret = true ∧ 0 < tiny.pdMS_TO_TICKS 20 ∧
      tiny.pdMS_TO_TICKS 1000 + tiny.pdMS_TO_TICKS 20 ≤ tiny.portMAX_DELAY ∧
      (Call.xgmac_phy_discover 7 (-1)).failed = true) ∧
    ∃ o, xNetworkInterfaceInitialise tiny envPhyFail ifc0 (Driver.boot tiny zeroMem) = some o ∧
      o.calls = [Call.xSemaphoreCreateCounting 512 0 true, Call.xgmac_emac_init 0 7,
        Call.xgmac_set_callback 7 0] ++ Call.xgmac_phy_discover 7 (-1) :: [] ∧
      o.xReturn = pdFAIL ∧ o.d.eXGMACState = .XGMAC_Failed := by
  refine ⟨by decide, ?_⟩
  obtain ⟨o, ho⟩ :=
    (first_failure_ends_initialisation tiny envPhyFail ifc0 (Driver.boot tiny zeroMem)).1
      (by decide) (by decide) (by decide)
  have hc : o.calls = [Call.xSemaphoreCreateCounting 512 0 true, Call.xgmac_emac_init 0 7,
      Call.xgmac_set_callback 7 0] ++ Call.xgmac_phy_discover 7 (-1) :: [] := by
    have h2 : (xNetworkInterfaceInitialise tiny envPhyFail ifc0
        (Driver.boot tiny zeroMem)).map (·.calls) =
        some ([Call.xSemaphoreCreateCounting 512 0 true, Call.xgmac_emac_init 0 7,
          Call.xgmac_set_callback 7 0] ++ Call.xgmac_phy_discover 7 (-1) :: []) := by decide
    rw [ho] at h2
    simpa using h2
  have h3 := (first_failure_ends_initialisation tiny envPhyFail ifc0
    (Driver.boot tiny zeroMem)).2 o ho _ _ _ hc (by decide)
  exact ⟨o, ho, hc, h3.1, h3.2.1⟩

theorem caseDMAInit_engine_stuck (cfg : Config) (env : Env) (ifc : NetworkInterface_t)
    (hdl : Nat) (d : Driver) (log : List Call)
    (hz : cfg.ipconfigZERO_COPY_RX_DRIVER = false) (hn : 0 < cfg.XGMAC_NUM_RX_DESC)
    (hs : d.xRxBufSynchSem = none) (he : env.xgmac_dma_initialize_ret = 0) :
    caseDMAInit_engine cfg env ifc hdl d log = none := by
  obtain ⟨n, hn1⟩ : ∃ n, cfg.XGMAC_NUM_RX_DESC = n + 1 := ⟨cfg.XGMAC_NUM_RX_DESC - 1, by omega⟩
  have hg : d.pucGetRXBuffer cfg cfg.XGMAC_MAX_PACKET_SIZE = none := by
    unfold Driver.pucGetRXBuffer
    rw [if_neg (by simp [Config.RX_BUFFER_SIZE]), hs]
  unfold caseDMAInit_engine prvUpdateRxDMADescriptors
  simp only [he, ne_eq, not_true_eq_false, if_false]
  rw [hn1, prvUpdateRxDMADescriptors_loop]
  simp only [hz, Bool.false_eq_true, if_false, hg]

theorem caseDMAInit_stuck (cfg : Config) (env : Env) (ifc : NetworkInterface_t)
    (hdl : Nat) (d : Driver) (log : List Call)
    (hz : cfg.ipconfigZERO_COPY_RX_DRIVER = false) (hn : 0 < cfg.XGMAC_NUM_RX_DESC)
    (hi : d.pxRxBufferPool.ucIsInitiazed ≠ 0) (hs : d.xRxBufSynchSem = none)
    (ht : d.pxTxBufferPool.ucIsInitiazed ≠ 0 ∨
      (env.pvPortMalloc_ret ≠ NULL ∧ env.xSemaphoreCreateMutex_tx_ret = true))
    (he : env.xgmac_dma_initialize_ret = 0) :
    caseDMAInit cfg env ifc hdl d log = none := by
  have hrx : ∀ (d1 : Driver) (log1 : List Call), d1.pxRxBufferPool.ucIsInitiazed ≠ 0 →
      d1.xRxBufSynchSem = none → caseDMAInit_rx cfg env ifc hdl d1 log1 = none := by
    intro d1 log1 h1 h2
    unfold caseDMAInit_rx
    rw [if_neg (by simp [h1])]
    exact caseDMAInit_engine_stuck cfg env ifc hdl d1 log1 hz hn h2 he
  unfold caseDMAInit
  by_cases hc : ¬ cfg.ipconfigZERO_COPY_TX_DRIVER = true ∧ d.pxTxBufferPool.ucIsInitiazed = 0
  · obtain ⟨hm, hx⟩ := ht.resolve_left (by simp [hc.2])
    rw [if_pos hc]
    simp only [prvCreateTxBufferPool, hm, hx, if_false, if_true]
    rw [if_neg (by decide)]
    exact hrx _ _ hi hs
  · rw [if_neg hc]
    exact hrx _ _ hi hs

/-- C9. On the code.  A call made in state `XGMAC_Failed` behaves exactly as the
same call made in state `XGMAC_EMACInit`, because the state variable is
overwritten before it is read; when the call returns, its log starts with the
creation of the counting semaphore followed by the engine initialisation and
is in stage order; and it returns if the counting semaphore is created, the
poll delay is not zero ticks, the link wait and one poll delay together do not
exceed `portMAX_DELAY`, and an Rx pool marked initialised has its lock.  But
progress of the transfer stage is kept in the pool records: a call in which
the creation of the Rx pool lock fails returns `pdFAIL` in state
`XGMAC_Failed` with the Rx pool marked initialised and no lock; and the next
call from such a state, with every collaborator up to the descriptor pre-fill
succeeding, does not create the pool again and does not return, because the
pre-fill takes the lock that was never created. -/
theorem failed_state_restarts_at_engine_init (cfg : Config) (env : Env)
    (pxInterface : NetworkInterface_t) (d : Driver) :
    xNetworkInterfaceInitialise cfg env pxInterface { d with eXGMACState := .XGMAC_Failed } =
      xNetworkInterfaceInitialise cfg env pxInterface
        { d with eXGMACState := .XGMAC_EMACInit } ∧
    (∀ o, xNetworkInterfaceInitialise cfg env pxInterface
        { d with eXGMACState := .XGMAC_Failed } = some o →
      (∃ rest, o.calls = Call.xSemaphoreCreateCounting 512 0 true ::
        Call.xgmac_emac_init pxInterface.pvArgument env.xgmac_emac_init_ret :: rest) ∧
      o.calls.Pairwise (fun a b => a.stage ≤ b.stage)) ∧
    (env.xSemaphoreCreateCounting_ret = true →
      (0 < cfg.pdMS_TO_TICKS 20 ∧
        cfg.pdMS_TO_TICKS 1000 + cfg.pdMS_TO_TICKS 20 ≤ cfg.portMAX_DELAY) →
      (cfg.ipconfigZERO_COPY_RX_DRIVER = false → d.pxRxBufferPool.ucIsInitiazed ≠ 0 →
        d.xRxBufSynchSem ≠ none) →
      ∃ o, xNetworkInterfaceInitialise cfg env pxInterface
        { d with eXGMACState := .XGMAC_Failed } = some o) ∧
    (env.stagesBeforePrefillSucceed → cfg.ipconfigZERO_COPY_RX_DRIVER = false →
      d.pxRxBufferPool.ucIsInitiazed = 0 → env.xSemaphoreCreateMutex_rx_ret = false →
      ∃ o, xNetworkInterfaceInitialise cfg env pxInterface d = some o ∧
        o.xReturn = pdFAIL ∧ o.d.eXGMACState = .XGMAC_Failed ∧
        o.d.pxRxBufferPool.ucIsInitiazed = 1 ∧ o.d.xRxBufSynchSem = none ∧
        o.calls.getLast? = some (Call.xSemaphoreCreateMutex false)) ∧
    (env.stagesBeforePrefillSucceed → cfg.ipconfigZERO_COPY_RX_DRIVER = false →
      0 < cfg.XGMAC_NUM_RX_DESC →
      d.pxRxBufferPool.ucIsInitiazed ≠ 0 → d.xRxBufSynchSem = none →
      d.pucGetRXBuffer cfg cfg.XGMAC_MAX_PACKET_SIZE = none ∧
      xNetworkInterfaceInitialise cfg env pxInterface
        { d with eXGMACState := .XGMAC_Failed } = none) := by
  refine ⟨rfl, fun o ho => ?_,
    xNetworkInterfaceInitialise_returns cfg env pxInterface
      { d with eXGMACState := .XGMAC_Failed }, ?_, ?_⟩
  · have h := xNetworkInterfaceInitialise_spec cfg env pxInterface _ o ho
    exact ⟨h.2, h.1.1⟩
  · rintro ⟨h1, h2, h3, h4, h5, h6, h7, h8, h9⟩ hz hi hm
    have hrx : ∀ (d1 : Driver) (log1 : List Call) (hdl : Nat),
        d1.pxRxBufferPool.ucIsInitiazed = 0 →
        ∃ o, caseDMAInit_rx cfg env pxInterface hdl d1 log1 = some o ∧
          o.xReturn = pdFAIL ∧ o.d.eXGMACState = .XGMAC_Failed ∧
          o.d.pxRxBufferPool.ucIsInitiazed = 1 ∧ o.d.xRxBufSynchSem = none ∧
          o.calls.getLast? = some (Call.xSemaphoreCreateMutex false) := by
      intro d1 log1 hdl hd1
      unfold caseDMAInit_rx
      rw [if_pos ⟨by simp [hz], hd1⟩]
      simp only [prvCreateRxBufferPool, h8, hm, if_false, Bool.false_eq_true]
      rw [if_pos (by decide)]
      exact ⟨_, rfl, rfl, rfl, rfl, rfl, by simp [stageFailed]⟩
    unfold xNetworkInterfaceInitialise caseEMACInit casePHYInit caseDMAInit
    simp only [h1, h2, h3, h4, h5, not_true_eq_false, if_false, ne_eq]
    by_cases hc : ¬ cfg.ipconfigZERO_COPY_TX_DRIVER = true ∧ d.pxTxBufferPool.ucIsInitiazed = 0
    · rw [if_pos hc]
      simp only [prvCreateTxBufferPool, h6, h7, if_false, if_true]
      rw [if_neg (by decide)]
      exact hrx _ _ _ hi
    · rw [if_neg hc]
      exact hrx _ _ _ hi
  · rintro ⟨h1, h2, h3, h4, h5, h6, h7, h8, h9⟩ hz hn hi hs
    refine ⟨?_, ?_⟩
    · unfold Driver.pucGetRXBuffer
      rw [if_neg (by simp [Config.RX_BUFFER_SIZE]), hs]
    · unfold xNetworkInterfaceInitialise caseEMACInit casePHYInit
      simp only [h1, h2, h3, h4, h5, not_true_eq_false, if_false, ne_eq]
      exact caseDMAInit_stuck cfg env pxInterface _ _ _ hz hn hi hs (Or.inr ⟨h6, h7⟩) h9

/-- Witness for C9: the first call from boot, in which the creation of the Rx
pool lock fails, and the call that follows it with every collaborator
succeeding. -/
theorem failed_state_restarts_at_engine_init_witness :
    (envRxLockFail.stagesBeforePrefillSucceed ∧ envUp.stagesBeforePrefillSucceed ∧
      tiny.ipconfigZERO_COPY_RX_DRIVER = false ∧ 0 < tiny.XGMAC_NUM_RX_DESC ∧
      (Driver.boot tiny zeroMem).pxRxBufferPool.ucIsInitiazed = 0 ∧
      envRxLockFail.xSemaphoreCreateMutex_rx_ret = false ∧
      afterRxLockFail.eXGMACState = .XGMAC_Failed ∧
      afterRxLockFail.pxRxBufferPool.ucIsInitiazed ≠ 0 ∧
      afterRxLockFail.xRxBufSynchSem = none) ∧
    (∃ o, xNetworkInterfaceInitialise tiny envRxLockFail ifc0 (Driver.boot tiny zeroMem) =
        some o ∧ o.xReturn = pdFAIL ∧ o.d.eXGMACState = .XGMAC_Failed ∧
      o.d.pxRxBufferPool.ucIsInitiazed = 1 ∧ o.d.xRxBufSynchSem = none) ∧
    xNetworkInterfaceInitialise tiny envUp ifc0
      { afterRxLockFail with eXGMACState := .XGMAC_Failed } = none := by
  have hA : envRxLockFail.stagesBeforePrefillSucceed := by
    refine ⟨rfl, ?_, rfl, rfl, rfl, ?_, rfl, ?_, rfl⟩ <;> decide
  have hB : envUp.stagesBeforePrefillSucceed := by
    refine ⟨rfl, ?_, rfl, rfl, rfl, ?_, rfl, ?_, rfl⟩ <;> decide
  refine ⟨⟨hA, hB, rfl, by decide, rfl, rfl, by decide, by decide, by decide⟩, ?_, ?_⟩
  · obtain ⟨o, ho, h1, h2, h3, h4, -⟩ :=
      (failed_state_restarts_at_engine_init tiny envRxLockFail ifc0
        (Driver.boot tiny zeroMem)).2.2.2.1 hA rfl rfl rfl
    exact ⟨o, ho, h1, h2, h3, h4⟩
  · exact ((failed_state_restarts_at_engine_init tiny envUp ifc0 afterRxLockFail).2.2.2.2
      hB rfl (by decide) (by decide) (by decide)).2

/-! ## Transmit: claims -/

/-- C10 (as amended). If the engine handle is absent (whatever the link state
and the payload pointer), or if the link is up and the payload pointer is
null, send returns `pdFALSE` without calling anything and leaves the globals,
the Tx pool among them, as they were: no submission to the engine, no pool
acquire, no release of the stack buffer. -/
theorem send_fails_fast (cfg : Config) (env : Env) (pxInterface : NetworkInterface_t)
    (pxNetworkBuffer : NetworkBufferDescriptor_t) (bReleaseAfterSend : BaseType_t)
    (d : Driver)
    (h : d.hxgmac pxInterface.pvArgument = NULL ∨
      (d.ulPHYLinkStatus &&& niBMSR_LINK_STATUS ≠ 0 ∧
        pxNetworkBuffer.pucEthernetBuffer = NULL)) :
    xNetworkInterfaceOutput cfg env pxInterface pxNetworkBuffer bReleaseAfterSend d =
      some { xReturn := pdFALSE, d := d, calls := [] } := by
  unfold xNetworkInterfaceOutput
  simp only
  by_cases h1 : d.hxgmac pxInterface.pvArgument = NULL
  · rw [if_pos h1]
  · rw [if_neg h1]
    obtain ⟨h2, h3⟩ := h.resolve_left h1
    rw [if_pos h2, if_pos h3]

/-- Witness for C10: a send of a null payload with the link up. -/
theorem send_fails_fast_witness :
    (afterReady.hxgmac ifc0.pvArgument = NULL ∨
      (afterReady.ulPHYLinkStatus &&& niBMSR_LINK_STATUS ≠ 0 ∧
        ({ pucEthernetBuffer := NULL, xDataLength := 10 } :
          NetworkBufferDescriptor_t).pucEthernetBuffer = NULL)) ∧
    xNetworkInterfaceOutput tiny envUp ifc0 { pucEthernetBuffer := NULL, xDataLength := 10 }
      pdTRUE afterReady = some { xReturn := pdFALSE, d := afterReady, calls := [] } :=
  ⟨by decide,
    send_fails_fast tiny envUp ifc0 { pucEthernetBuffer := NULL, xDataLength := 10 } pdTRUE
      afterReady (by decide)⟩

/-- C10, counterexample.  With the engine handle present and the link down, a
send of a buffer whose payload pointer is null and that is to be released
after the send does not fail: it returns `pdTRUE` and releases the stack
buffer. -/
theorem send_null_payload_link_down :
    afterLinkDown.hxgmac ifc0.pvArgument ≠ NULL ∧
    afterLinkDown.ulPHYLinkStatus &&& niBMSR_LINK_STATUS = 0 ∧
    (xNetworkInterfaceOutput tiny envUp ifc0 { pucEthernetBuffer := NULL, xDataLength := 10 }
      pdTRUE afterLinkDown).map (fun o => (o.xReturn, o.calls)) =
      some (pdTRUE, [Call.vReleaseNetworkBufferAndDescriptor
        { pucEthernetBuffer := NULL, xDataLength := 10 }]) := by
  decide


/-! ## Transmit: link down and link up -/

/-- C11. With the engine handle present and the link-status latch down, send
submits nothing to the engine and takes no pool buffer (the globals are
unchanged), releases the stack buffer exactly when `bReleaseAfterSend` is not
`pdFALSE`, makes no other call, and returns `pdTRUE`. -/
theorem send_with_link_down (cfg : Config) (env : Env) (pxInterface : NetworkInterface_t)
    (pxNetworkBuffer : NetworkBufferDescriptor_t) (bReleaseAfterSend : BaseType_t)
    (d : Driver) (hh : d.hxgmac pxInterface.pvArgument ≠ NULL)
    (hl : d.ulPHYLinkStatus &&& niBMSR_LINK_STATUS = 0) :
    xNetworkInterfaceOutput cfg env pxInterface pxNetworkBuffer bReleaseAfterSend d =
      some { xReturn := pdTRUE, d := d,
             calls := if bReleaseAfterSend ≠ pdFALSE then
                 [Call.vReleaseNetworkBufferAndDescriptor pxNetworkBuffer]
               else [] } := by
  unfold xNetworkInterfaceOutput xNetworkInterfaceOutput_release
  simp only
  rw [if_neg hh, if_neg (by simp [hl])]
  split_ifs <;> simp

/-- Witness for C11: a send after a bring-up that ended with the link down. -/
theorem send_with_link_down_witness :
    (afterLinkDown.hxgmac ifc0.pvArgument ≠ NULL ∧
      afterLinkDown.ulPHYLinkStatus &&& niBMSR_LINK_STATUS = 0) ∧
    xNetworkInterfaceOutput tiny envUp ifc0 { pucEthernetBuffer := 100, xDataLength := 10 }
      pdTRUE afterLinkDown =
      some { xReturn := pdTRUE, d := afterLinkDown,
             calls := if pdTRUE ≠ pdFALSE then
                 [Call.vReleaseNetworkBufferAndDescriptor
                   { pucEthernetBuffer := 100, xDataLength := 10 }]
               else [] } :=
  ⟨by decide,
    send_with_link_down tiny envUp ifc0 { pucEthernetBuffer := 100, xDataLength := 10 } pdTRUE
      afterLinkDown (by decide) (by decide)⟩

theorem pollCalls_reads (cfg : Config) (env : Env) (h start delay : Nat) :
    ∀ (j k : Nat),
      ((pollCalls cfg env h start delay k j).filter Call.isPhyRead).length = j := by
  intro j
  induction j with
  | zero => intro k; simp [pollCalls]
  | succ j ih =>
    intro k
    simp [pollCalls, Call.isPhyRead, ih]

theorem prvPhyCheckLinkStatus_loop_polls (cfg : Config) (env : Env)
    (ifc : NetworkInterface_t) (t0 maxT delay h : Nat) :
    ∀ (j k fuel : Nat) (d : Driver) (log : List Call),
      xTaskGetTickCount cfg d = tickAfter cfg t0 delay k → d.hxgmac ifc.pvArgument = h →
      j + 1 ≤ fuel → (k + j) * delay ≤ cfg.portMAX_DELAY →
      (∀ i, i < j → (k + i) * delay ≤ maxT ∧
        env.read_phy_reg_ret (tickAfter cfg t0 delay (k + i)) &&& niBMSR_LINK_STATUS = 0) →
      (maxT < (k + j) * delay →
        ∃ o, prvPhyCheckLinkStatus_loop cfg env ifc (t0 % (cfg.portMAX_DELAY + 1)) maxT delay
            fuel d log = some o ∧
          o.xReturn = pdFALSE ∧ o.calls = log ++ pollCalls cfg env h t0 delay k j ∧
          xTaskGetTickCount cfg o.d = tickAfter cfg t0 delay (k + j)) ∧
      ((k + j) * delay ≤ maxT →
        env.read_phy_reg_ret (tickAfter cfg t0 delay (k + j)) &&& niBMSR_LINK_STATUS ≠ 0 →
        ∃ o, prvPhyCheckLinkStatus_loop cfg env ifc (t0 % (cfg.portMAX_DELAY + 1)) maxT delay
            fuel d log = some o ∧
          o.xReturn = pdTRUE ∧
          o.calls = log ++ pollCalls cfg env h t0 delay k j ++
            [Call.read_phy_reg h COPPER_STATUS_REG
              (env.read_phy_reg_ret (tickAfter cfg t0 delay (k + j)))] ∧
          xTaskGetTickCount cfg o.d = tickAfter cfg t0 delay (k + j) ∧
          o.d.ulPHYLinkStatus = env.read_phy_reg_ret (tickAfter cfg t0 delay (k + j))) := by
  intro j
  induction j with
  | zero =>
    intro k fuel d log ht hh hf hfit _
    obtain ⟨f, rfl⟩ : ∃ f, fuel = f + 1 := ⟨fuel - 1, by omega⟩
    simp only [Nat.add_zero] at hfit ⊢
    have he := xTaskGetTickCount_elapsed cfg d t0 delay k ht hfit
    rw [ht] at he
    constructor
    · intro hgt
      unfold prvPhyCheckLinkStatus_loop
      simp only [ht, he, gt_iff_lt, hgt, if_true]
      exact ⟨_, rfl, rfl, by simp [pollCalls], ht⟩
    · intro hle hup
      unfold prvPhyCheckLinkStatus_loop
      simp only [ht, he, gt_iff_lt, Nat.not_lt.mpr hle, if_false, prvReadMDIO, hh]
      rw [if_pos hup]
      exact ⟨_, rfl, rfl, by simp [pollCalls], ht, rfl⟩
  | succ j ih =>
    intro k fuel d log ht hh hf hfit hdown
    obtain ⟨f, rfl⟩ : ∃ f, fuel = f + 1 := ⟨fuel - 1, by omega⟩
    have hk0 : k * delay ≤ cfg.portMAX_DELAY :=
      le_trans (Nat.mul_le_mul_right _ (by omega)) hfit
    have he := xTaskGetTickCount_elapsed cfg d t0 delay k ht hk0
    rw [ht] at he
    have h0 := hdown 0 (Nat.succ_pos j)
    simp only [Nat.add_zero] at h0
    have hstep : prvPhyCheckLinkStatus_loop cfg env ifc (t0 % (cfg.portMAX_DELAY + 1)) maxT
          delay (f + 1) d log =
        prvPhyCheckLinkStatus_loop cfg env ifc (t0 % (cfg.portMAX_DELAY + 1)) maxT delay f
          { d with
            ulPHYLinkStatus := env.read_phy_reg_ret (tickAfter cfg t0 delay k)
            tick := (d.tick + delay) % (cfg.portMAX_DELAY + 1) }
          (log ++ [Call.read_phy_reg h COPPER_STATUS_REG
              (env.read_phy_reg_ret (tickAfter cfg t0 delay k)), Call.vTaskDelay delay]) := by
      conv => lhs; unfold prvPhyCheckLinkStatus_loop
      simp only [ht, he, gt_iff_lt, Nat.not_lt.mpr h0.1, if_false, prvReadMDIO, hh]
      rw [if_neg (by simp [h0.2])]
    have hk : k + (j + 1) = (k + 1) + j := by omega
    rw [hk] at hfit
    have ih2 := ih (k + 1) f
      { d with
        ulPHYLinkStatus := env.read_phy_reg_ret (tickAfter cfg t0 delay k)
        tick := (d.tick + delay) % (cfg.portMAX_DELAY + 1) }
      (log ++ [Call.read_phy_reg h COPPER_STATUS_REG
              (env.read_phy_reg_ret (tickAfter cfg t0 delay k)), Call.vTaskDelay delay])
      (xTaskGetTickCount_delay cfg d t0 delay k _ ht) hh (by omega) hfit
      (by
        intro i hi
        have := hdown (i + 1) (by omega)
        have e : k + (i + 1) = k + 1 + i := by omega
        rw [e] at this
        exact this)
    rw [hstep, hk]
    constructor
    · intro hgt
      obtain ⟨o, ho, h1, h2, h3⟩ := ih2.1 hgt
      exact ⟨o, ho, h1, by rw [h2]; simp [pollCalls], h3⟩
    · intro hle hup
      obtain ⟨o, ho, h1, h2, h3, h4⟩ := ih2.2 hle hup
      exact ⟨o, ho, h1, by rw [h2]; simp [pollCalls], h3, h4⟩

theorem prvPhyCheckLinkStatus_loop_never (cfg : Config) (env : Env)
    (ifc : NetworkInterface_t) (start maxT delay : Nat) (hmax : cfg.portMAX_DELAY ≤ maxT)
    (hdown : ∀ t, env.read_phy_reg_ret t &&& niBMSR_LINK_STATUS = 0) :
    ∀ (fuel : Nat) (d : Driver) (log : List Call),
      prvPhyCheckLinkStatus_loop cfg env ifc start maxT delay fuel d log = none := by
  intro fuel
  induction fuel with
  | zero => intro d log; rfl
  | succ f ih =>
    intro d log
    have hlt := Nat.mod_lt (xTaskGetTickCount cfg d + (cfg.portMAX_DELAY + 1) - start)
      (show 0 < cfg.portMAX_DELAY + 1 by omega)
    unfold prvPhyCheckLinkStatus_loop
    simp only
    rw [if_neg (by omega), if_neg (by simp [ prvReadMDIO, hdown])]
    exact ih _ _

/-- More iterations allowed do not change the result of a link poll that ended. -/
theorem prvPhyCheckLinkStatus_loop_mono (cfg : Config) (env : Env) (ifc : NetworkInterface_t)
    (start maxT delay : Nat) :
    ∀ (f g : Nat) (d : Driver) (log : List Call) (o : Outcome), f ≤ g →
      prvPhyCheckLinkStatus_loop cfg env ifc start maxT delay f d log = some o →
      prvPhyCheckLinkStatus_loop cfg env ifc start maxT delay g d log = some o := by
  intro f
  induction f with
  | zero => intro g d log o _ h; simp [prvPhyCheckLinkStatus_loop] at h
  | succ f ih =>
    intro g d log o hfg h
    obtain ⟨g1, rfl⟩ : ∃ g1, g = g1 + 1 := ⟨g - 1, by omega⟩
    unfold prvPhyCheckLinkStatus_loop at h ⊢
    simp only at h ⊢
    split_ifs at h ⊢ with h1 h2
    · exact h
    · exact h
    · exact ih g1 _ _ o (by omega) h

/-- A link poll does not end within `fuel` iterations exactly when, at each of
the first `fuel` tick counts of the poll, the wait has not expired and the
register reads link-down. -/
theorem prvPhyCheckLinkStatus_loop_none (cfg : Config) (env : Env) (ifc : NetworkInterface_t)
    (start maxT delay : Nat) :
    ∀ (fuel : Nat) (d : Driver) (log : List Call),
      prvPhyCheckLinkStatus_loop cfg env ifc start maxT delay fuel d log = none ↔
      ∀ i, i < fuel →
        ¬ ((tickAfter cfg d.tick delay i + (cfg.portMAX_DELAY + 1) - start) %
            (cfg.portMAX_DELAY + 1) > maxT) ∧
        env.read_phy_reg_ret (tickAfter cfg d.tick delay i) &&& niBMSR_LINK_STATUS = 0 := by
  intro fuel
  induction fuel with
  | zero => intro d log; simp [prvPhyCheckLinkStatus_loop]
  | succ f ih =>
    intro d log
    have h0 : tickAfter cfg d.tick delay 0 = xTaskGetTickCount cfg d := by
      simp [xTaskGetTickCount, tickAfter]
    have hs : ∀ i, tickAfter cfg ((d.tick + delay) % (cfg.portMAX_DELAY + 1)) delay i =
        tickAfter cfg d.tick delay (i + 1) := by
      intro i
      unfold tickAfter
      rw [Nat.mod_add_mod, Nat.add_mul, Nat.one_mul]
      congr 1
      omega
    unfold prvPhyCheckLinkStatus_loop
    simp only
    split_ifs with h1 h2
    · simp only [reduceCtorEq, false_iff, not_forall]
      exact ⟨0, Nat.succ_pos _, by rw [h0]; simp [h1]⟩
    · simp only [reduceCtorEq, false_iff, not_forall]
      refine ⟨0, Nat.succ_pos _, ?_⟩
      rw [h0]
      simp only [ prvReadMDIO] at h2
      simp [h2]
    · rw [ih]
      simp only [hs]
      constructor
      · intro h i hi
        cases i with
        | zero =>
          rw [h0]
          simp only [ prvReadMDIO, ne_eq, not_not] at h2
          exact ⟨h1, h2⟩
        | succ j => exact h j (by omega)
      · intro h i hi
        exact h (i + 1) (by omega)

/-- The tick counts of a poll repeat after `portMAX_DELAY + 1` delays. -/
theorem tickAfter_mod (cfg : Config) (t delay i : Nat) :
    tickAfter cfg t delay i = tickAfter cfg t delay (i % (cfg.portMAX_DELAY + 1)) := by
  unfold tickAfter
  conv => lhs; rw [← Nat.div_add_mod i (cfg.portMAX_DELAY + 1)]
  rw [Nat.add_mul, Nat.mul_assoc, ← Nat.add_assoc, Nat.add_right_comm, Nat.add_mul_mod_self_left]

/-- The iterations that `prvPhyCheckLinkStatus` allows its loop are enough: a
poll that ends with any number of iterations ends, with the same result, within
`portMAX_DELAY + 2`, and a poll that has not ended by then never ends. -/
theorem prvPhyCheckLinkStatus_loop_exact (cfg : Config) (env : Env) (ifc : NetworkInterface_t)
    (start maxT delay : Nat) (d : Driver) (log : List Call) :
    (prvPhyCheckLinkStatus_loop cfg env ifc start maxT delay (cfg.portMAX_DELAY + 2) d log =
        none →
      ∀ fuel, prvPhyCheckLinkStatus_loop cfg env ifc start maxT delay fuel d log = none) ∧
    (∀ fuel o, prvPhyCheckLinkStatus_loop cfg env ifc start maxT delay fuel d log = some o →
      prvPhyCheckLinkStatus_loop cfg env ifc start maxT delay (cfg.portMAX_DELAY + 2) d log =
        some o) := by
  have hnone : prvPhyCheckLinkStatus_loop cfg env ifc start maxT delay
      (cfg.portMAX_DELAY + 2) d log = none →
      ∀ fuel, prvPhyCheckLinkStatus_loop cfg env ifc start maxT delay fuel d log = none := by
    intro h fuel
    rw [prvPhyCheckLinkStatus_loop_none] at h ⊢
    intro i _
    rw [tickAfter_mod cfg d.tick delay i]
    exact h _ (lt_trans (Nat.mod_lt _ (Nat.succ_pos _)) (Nat.lt_succ_self _))
  refine ⟨hnone, fun fuel o h => ?_⟩
  cases hp : prvPhyCheckLinkStatus_loop cfg env ifc start maxT delay (cfg.portMAX_DELAY + 2)
      d log with
  | none =>
    rw [hnone hp fuel] at h
    exact absurd h (by simp)
  | some o1 =>
    have a := prvPhyCheckLinkStatus_loop_mono cfg env ifc start maxT delay _
      (max fuel (cfg.portMAX_DELAY + 2)) d log o (le_max_left _ _) h
    have b := prvPhyCheckLinkStatus_loop_mono cfg env ifc start maxT delay _
      (max fuel (cfg.portMAX_DELAY + 2)) d log o1 (le_max_right _ _) hp
    rw [a] at b
    exact b.symm

/-! ## Link poll: claim -/

/-- C19 (as amended). With a tick of one millisecond (`pdMS_TO_TICKS( 20 ) = 20`)
and a tick type that holds 20: if the PHY status register always reads
link-down and `xMaxTimeTicks + 20` does not exceed `portMAX_DELAY`,
`prvPhyCheckLinkStatus` returns `pdFALSE` after reading the register at the
tick counts reached after `0, 1, 2, ...` delays of 20 ticks,
`xMaxTimeTicks / 20 + 1` times in all, the last read lying within the wait and
the return coming only once more than `xMaxTimeTicks` ticks have passed; and
for every `xMaxTimeTicks` up to `portMAX_DELAY`, if the first read that shows
the link bit is read number `k` (after `k` delays, within the wait), it returns
`pdTRUE` right after that read, and `ulPHYLinkStatus` holds the value read. -/
theorem check_link_polls (cfg : Config) (env : Env) (xMaxTimeTicks : Nat)
    (pxInterface : NetworkInterface_t) (d : Driver) (h20 : cfg.pdMS_TO_TICKS 20 = 20)
    (hP : 20 ≤ cfg.portMAX_DELAY) :
    ((∀ t, env.read_phy_reg_ret t &&& niBMSR_LINK_STATUS = 0) →
      xMaxTimeTicks + 20 ≤ cfg.portMAX_DELAY →
      ∃ o, prvPhyCheckLinkStatus cfg env xMaxTimeTicks pxInterface d = some o ∧
        o.xReturn = pdFALSE ∧
        o.calls = pollCalls cfg env (d.hxgmac pxInterface.pvArgument) d.tick 20 0
          (xMaxTimeTicks / 20 + 1) ∧
        (o.calls.filter Call.isPhyRead).length = xMaxTimeTicks / 20 + 1 ∧
        xTaskGetTickCount cfg o.d = tickAfter cfg d.tick 20 (xMaxTimeTicks / 20 + 1) ∧
        xMaxTimeTicks / 20 * 20 ≤ xMaxTimeTicks ∧
        xMaxTimeTicks < (xMaxTimeTicks / 20 + 1) * 20) ∧
    (∀ k, k * 20 ≤ xMaxTimeTicks → xMaxTimeTicks ≤ cfg.portMAX_DELAY →
      (∀ i, i < k →
        env.read_phy_reg_ret (tickAfter cfg d.tick 20 i) &&& niBMSR_LINK_STATUS = 0) →
      env.read_phy_reg_ret (tickAfter cfg d.tick 20 k) &&& niBMSR_LINK_STATUS ≠ 0 →
      ∃ o, prvPhyCheckLinkStatus cfg env xMaxTimeTicks pxInterface d = some o ∧
        o.xReturn = pdTRUE ∧
        o.calls = pollCalls cfg env (d.hxgmac pxInterface.pvArgument) d.tick 20 0 k ++
          [Call.read_phy_reg (d.hxgmac pxInterface.pvArgument) COPPER_STATUS_REG
            (env.read_phy_reg_ret (tickAfter cfg d.tick 20 k))] ∧
        (o.calls.filter Call.isPhyRead).length = k + 1 ∧
        o.d.ulPHYLinkStatus = env.read_phy_reg_ret (tickAfter cfg d.tick 20 k) ∧
        xTaskGetTickCount cfg o.d = tickAfter cfg d.tick 20 k) := by
  have hdiv : xMaxTimeTicks / 20 * 20 ≤ xMaxTimeTicks := Nat.div_mul_le_self _ _
  have hlt : xMaxTimeTicks < (xMaxTimeTicks / 20 + 1) * 20 := by omega
  have h0 : xTaskGetTickCount cfg d = tickAfter cfg d.tick 20 0 := by
    simp [xTaskGetTickCount, tickAfter]
  have hd20 : 20 % (cfg.portMAX_DELAY + 1) = 20 := Nat.mod_eq_of_lt (by omega)
  constructor
  · intro hdown hfit
    unfold prvPhyCheckLinkStatus
    simp only [h20, hd20]
    rw [Nat.mod_eq_of_lt (show xMaxTimeTicks < cfg.portMAX_DELAY + 1 by omega)]
    obtain ⟨o, ho, h1, h2, h3⟩ :=
      (prvPhyCheckLinkStatus_loop_polls cfg env pxInterface d.tick xMaxTimeTicks 20
        (d.hxgmac pxInterface.pvArgument) (xMaxTimeTicks / 20 + 1) 0
        (cfg.portMAX_DELAY + 2) d [] h0 rfl (by omega) (by omega)
        (by
          intro i hi
          refine ⟨?_, hdown _⟩
          have : i * 20 ≤ xMaxTimeTicks / 20 * 20 := Nat.mul_le_mul_right _ (by omega)
          simp only [Nat.zero_add]
          omega)).1 (by simpa using hlt)
    simp only [Nat.zero_add, List.nil_append] at h2 h3
    refine ⟨o, ho, h1, h2, ?_, h3, hdiv, hlt⟩
    rw [h2, pollCalls_reads]
  · intro k hk hmax hdown hup
    unfold prvPhyCheckLinkStatus
    simp only [h20, hd20]
    rw [Nat.mod_eq_of_lt (show xMaxTimeTicks < cfg.portMAX_DELAY + 1 by omega)]
    obtain ⟨o, ho, h1, h2, h3, h4⟩ :=
      (prvPhyCheckLinkStatus_loop_polls cfg env pxInterface d.tick xMaxTimeTicks 20
        (d.hxgmac pxInterface.pvArgument) k 0
        (cfg.portMAX_DELAY + 2) d [] h0 rfl (by omega) (by omega)
        (by
          intro i hi
          simp only [Nat.zero_add]
          exact ⟨by omega, hdown i hi⟩)).2 (by simpa using hk) (by simpa using hup)
    simp only [Nat.zero_add, List.nil_append] at h2 h3 h4
    refine ⟨o, ho, h1, h2, ?_, h4, h3⟩
    rw [h2, List.filter_append, List.length_append, pollCalls_reads]
    simp [Call.isPhyRead]

/-- Witness for C19: a wait of 1000 ticks with the link down reads the register 51
times; with the link up the first read ends the wait. -/
theorem check_link_polls_witness :
    (tiny.pdMS_TO_TICKS 20 = 20 ∧ 20 ≤ tiny.portMAX_DELAY ∧
      (∀ t, envDown.read_phy_reg_ret t &&& niBMSR_LINK_STATUS = 0) ∧
      1000 + 20 ≤ tiny.portMAX_DELAY ∧
      0 * 20 ≤ 1000 ∧
      envUp.read_phy_reg_ret (tickAfter tiny (Driver.boot tiny zeroMem).tick 20 0) &&&
        niBMSR_LINK_STATUS ≠ 0) ∧
    (∃ o, prvPhyCheckLinkStatus tiny envDown 1000 ifc0 (Driver.boot tiny zeroMem) = some o ∧
      o.xReturn = pdFALSE ∧ (o.calls.filter Call.isPhyRead).length = 51) ∧
    (∃ o, prvPhyCheckLinkStatus tiny envUp 1000 ifc0 (Driver.boot tiny zeroMem) = some o ∧
      o.xReturn = pdTRUE ∧ o.d.ulPHYLinkStatus = niBMSR_LINK_STATUS) := by
  have hd : ∀ t, envDown.read_phy_reg_ret t &&& niBMSR_LINK_STATUS = 0 := by
    intro t
    show (0 : Nat) &&& niBMSR_LINK_STATUS = 0
    decide
  refine ⟨⟨rfl, by decide, hd, by decide, by decide, by decide⟩, ?_, ?_⟩
  · obtain ⟨o, ho, h1, _, h3, _⟩ :=
      (check_link_polls tiny envDown 1000 ifc0 (Driver.boot tiny zeroMem) rfl (by decide)).1
        hd (by decide)
    exact ⟨o, ho, h1, h3⟩
  · obtain ⟨o, ho, h1, _, _, h4, _⟩ :=
      (check_link_polls tiny envUp 1000 ifc0 (Driver.boot tiny zeroMem) rfl (by decide)).2 0
        (by decide) (by decide) (fun i hi => absurd hi (Nat.not_lt_zero i)) (by decide)
    exact ⟨o, ho, h1, h4⟩

/-- C19, counterexample.  With the PHY status register always reading link-down
and `xMaxTimeTicks = portMAX_DELAY`, the largest value of the tick type,
`prvPhyCheckLinkStatus` does not return: the elapsed time is a `TickType_t` and
never exceeds `portMAX_DELAY`, so the loop goes on however many iterations it
is given. -/
theorem check_link_never_returns_at_max :
    (∀ t, envDown.read_phy_reg_ret t &&& niBMSR_LINK_STATUS = 0) ∧
    prvPhyCheckLinkStatus tiny envDown tiny.portMAX_DELAY ifc0 (Driver.boot tiny zeroMem) =
      none ∧
    ∀ fuel : Nat,
      prvPhyCheckLinkStatus_loop tiny envDown ifc0
        (xTaskGetTickCount tiny (Driver.boot tiny zeroMem)) tiny.portMAX_DELAY 20 fuel
        (Driver.boot tiny zeroMem) [] = none := by
  have hd : ∀ t, envDown.read_phy_reg_ret t &&& niBMSR_LINK_STATUS = 0 := by
    intro t
    show (0 : Nat) &&& niBMSR_LINK_STATUS = 0
    decide
  refine ⟨hd, ?_, fun fuel => ?_⟩
  · unfold prvPhyCheckLinkStatus
    exact prvPhyCheckLinkStatus_loop_never tiny envDown ifc0 _ _ _
      (by rw [Nat.mod_eq_of_lt (Nat.lt_succ_self _)]) hd _ _ _
  · exact prvPhyCheckLinkStatus_loop_never tiny envDown ifc0 _ _ _ (Nat.le_refl _) hd _ _ _

/-! ## DMA channel configuration: claim -/

/-- C20. The codes of `dma_config`, with distinct error numbers `EFAULT` and
`EIO`: a null handle gives `-EINVAL`; a channel that is not open gives `-EFAULT`,
which is not the documented `-EIO`, and leaves the context as it was; an open
channel that is not idle gives `-EBUSY`; an open idle channel gives 0 and takes
the direction and the callback of the configuration. -/
theorem dma_config_codes (k : DmaConsts) (c : dma_ch_cntxt) (pcfg : dma_config_t)
    (hne : k.EFAULT ≠ k.EIO) :
    dma_config k none pcfg = (-k.EINVAL, none) ∧
    (c.is_open ≠ 1 →
      dma_config k (some c) pcfg = (-k.EFAULT, some c) ∧
      (dma_config k (some c) pcfg).1 ≠ - k.EIO) ∧
    (c.is_open = 1 → c.channel_state ≠ DMA_CH_IDLE →
      dma_config k (some c) pcfg = (-k.EBUSY, some c)) ∧
    (c.is_open = 1 → c.channel_state = DMA_CH_IDLE →
      ∃ c1, dma_config k (some c) pcfg = (0, some c1) ∧
        c1.direction = pcfg.ch_dir ∧ c1.xp_dma_callback = pcfg.callback ∧
        c1.is_open = 1 ∧ c1.channel_state = DMA_CH_IDLE) := by
  refine ⟨rfl, ?_, ?_, ?_⟩
  · intro ho
    have h : dma_config k (some c) pcfg = (-k.EFAULT, some c) := by
      simp [dma_config, ho]
    refine ⟨h, ?_⟩
    rw [h]
    simpa using hne
  · intro ho hs
    simp [dma_config, ho, hs]
  · intro ho hs
    refine ⟨{ c with
        config := dma_config_word k pcfg
        interrupt_en := 0
        direction := pcfg.ch_dir
        xp_dma_callback := pcfg.callback }, ?_, rfl, rfl, ho, hs⟩
    simp [dma_config, ho, hs]

/-- Witness for C20: configuring a channel that was never opened returns `-14`
(`-EFAULT`), not `-5` (`-EIO`). -/
theorem dma_config_codes_witness :
    dmaConsts0.EFAULT ≠ dmaConsts0.EIO ∧ dmaClosed.is_open ≠ 1 ∧
    dma_config dmaConsts0 (some dmaClosed) dmaCfg0 = (-14, some dmaClosed) ∧
    (dma_config dmaConsts0 (some dmaClosed) dmaCfg0).1 ≠ -5 :=
  ⟨by decide, by decide,
    ((dma_config_codes dmaConsts0 dmaClosed dmaCfg0 (by decide)).2.1 (by decide)).1,
    ((dma_config_codes dmaConsts0 dmaClosed dmaCfg0 (by decide)).2.1 (by decide)).2⟩

/-! ## Receive: claims -/

/-- C13. If the first query of the engine reports no completed descriptor (a
non-zero status), the receive drain returns 0, leaves the globals as they were
and its only call is that query: it requests no stack buffer, sends nothing to
the stack's queue and issues no refill. -/
theorem input_nothing_completed (cfg : Config) (k : RxConsts) (a : RxStep)
    (rest : List RxStep) (chain_ret : BaseType_t) (pxInterface : NetworkInterface_t)
    (d : Driver) (hs : a.xgmac_dma_receive_ret ≠ 0) :
    prvNetworkInterfaceInput cfg k (a :: rest) chain_ret pxInterface d =
      some { xReturn := 0, d := d,
             calls := [RxCall.xgmac_dma_receive (d.hxgmac pxInterface.pvArgument)
               a.xgmac_dma_receive_ret] } := by
  simp [prvNetworkInterfaceInput, prvNetworkInterfaceInput_loop,
    prvNetworkInterfaceInput_pass, hs]

/-- Witness for C13: a drain after bring-up with nothing received. -/
theorem input_nothing_completed_witness :
    rxNone.xgmac_dma_receive_ret ≠ 0 ∧
    prvNetworkInterfaceInput tiny rxConsts0 [rxNone] pdPASS ifc0 afterReady =
      some { xReturn := 0, d := afterReady,
             calls := [RxCall.xgmac_dma_receive (afterReady.hxgmac ifc0.pvArgument)
               rxNone.xgmac_dma_receive_ret] } :=
  ⟨by decide,
    input_nothing_completed tiny rxConsts0 rxNone [] pdPASS ifc0 afterReady (by decide)⟩

/-- C14. A completed descriptor with a non-null payload whose packet status
meets the error test is handled, with the engine handle present, by exactly
two calls, the receive query and a refill of the same buffer address: no
replacement buffer is requested, the frame is not counted, chained, copied or
passed to the queue; the loop goes on with the next descriptor when the refill
succeeds and ends when it fails. -/
theorem input_error_frame (cfg : Config) (k : RxConsts) (h : Nat)
    (ifc : Option NetworkInterface_t) (a : RxStep) (rest : List RxStep) (s : RxLoop)
    (hs : a.xgmac_dma_receive_ret = 0) (hb : a.xDMARxBufferIn.buf ≠ NULL)
    (he : a.xDMARxBufferIn.packet_status % 2 ^ 32 &&&
      (k.RDES3_NORM_WR_LD_MASK ||| k.RDES3_NORM_WR_ES_MASK) = k.XGMAC_RX_PACKET_ERROR)
    (hh : h ≠ NULL) :
    prvNetworkInterfaceInput_loop cfg k h ifc (a :: rest) s =
      if a.xgmac_refill_rx_descriptor_ret ≠ 0 then
        some (RxExit.brk, { s with calls := s.calls ++
          [RxCall.xgmac_dma_receive h 0,
           RxCall.xgmac_refill_rx_descriptor h a.xDMARxBufferIn.buf
             a.xgmac_refill_rx_descriptor_ret] })
      else
        prvNetworkInterfaceInput_loop cfg k h ifc rest { s with calls := s.calls ++
          [RxCall.xgmac_dma_receive h 0,
           RxCall.xgmac_refill_rx_descriptor h a.xDMARxBufferIn.buf
             a.xgmac_refill_rx_descriptor_ret] } := by
  have hp : prvNetworkInterfaceInput_pass cfg k h ifc a s =
      some (if a.xgmac_refill_rx_descriptor_ret ≠ 0 then RxExit.brk else RxExit.next,
        { s with calls := s.calls ++
          [RxCall.xgmac_dma_receive h 0,
           RxCall.xgmac_refill_rx_descriptor h a.xDMARxBufferIn.buf
             a.xgmac_refill_rx_descriptor_ret] }) := by
    simp only [prvNetworkInterfaceInput_pass, prvNetworkInterfaceInput_classify,
      prvNetworkInterfaceInput_refill, hs, he, hb, hh, ne_eq, not_true_eq_false, if_false,
      if_true, false_or, List.append_nil, List.append_assoc, List.singleton_append]
    split_ifs <;> rfl
  rw [prvNetworkInterfaceInput_loop, hp]
  split_ifs <;> rfl

/-- Witness for C14: a drain that finds one frame with the error status and
then nothing returns 0 after the query, the refill of the same buffer and the
second query. -/
theorem input_error_frame_witness :
    (rxBad.xgmac_dma_receive_ret = 0 ∧ rxBad.xDMARxBufferIn.buf ≠ NULL ∧
      rxBad.xDMARxBufferIn.packet_status % 2 ^ 32 &&&
        (rxConsts0.RDES3_NORM_WR_LD_MASK ||| rxConsts0.RDES3_NORM_WR_ES_MASK) =
        rxConsts0.XGMAC_RX_PACKET_ERROR ∧ (7 : Nat) ≠ NULL) ∧
    (prvNetworkInterfaceInput_loop tiny rxConsts0 7 (some ifc0) [rxBad, rxNone]
        (rxStart zeroMem)).map (fun r => (r.1, r.2.msgCount, r.2.calls)) =
      some (RxExit.brk, 0, [RxCall.xgmac_dma_receive 7 0,
        RxCall.xgmac_refill_rx_descriptor 7 8192 0, RxCall.xgmac_dma_receive 7 (-1)]) := by
  refine ⟨by decide, ?_⟩
  rw [input_error_frame tiny rxConsts0 7 (some ifc0) rxBad [rxNone] (rxStart zeroMem)
    (by decide) (by decide) (by decide) (by decide)]
  decide

/-- The bottom of a pass makes exactly one refill when the handle and the refill
address are not null. -/
theorem prvNetworkInterfaceInput_refill_once (h : Nat) (a : RxStep) (addr : Nat)
    (s s0 : RxLoop) (cs : List RxCall) (hh : h ≠ NULL) (ha : addr ≠ NULL)
    (hc : s.calls = s0.calls ++ cs) (hf : cs.filter RxCall.isRefill = []) :
    RefillsOnce s0 h addr a.xgmac_refill_rx_descriptor_ret
      (some (prvNetworkInterfaceInput_refill h a addr s)) := by
  refine ⟨if a.xgmac_refill_rx_descriptor_ret ≠ 0 then RxExit.brk else RxExit.next,
    { s with calls := s.calls ++
      [RxCall.xgmac_refill_rx_descriptor h addr a.xgmac_refill_rx_descriptor_ret] },
    cs ++ [RxCall.xgmac_refill_rx_descriptor h addr a.xgmac_refill_rx_descriptor_ret],
    ?_, ?_, ?_, rfl⟩
  · simp only [prvNetworkInterfaceInput_refill, hh, ha, or_self, if_false]
    split_ifs <;> rfl
  · simp [hc]
  · simp [List.filter_append, hf, RxCall.isRefill]

/-- The calls of the classification hold no refill. -/
theorem prvNetworkInterfaceInput_classify_no_refill (cfg : Config) (k : RxConsts)
    (a : RxStep) :
    (prvNetworkInterfaceInput_classify cfg k a).2.filter RxCall.isRefill = [] := by
  unfold prvNetworkInterfaceInput_classify
  simp only
  split_ifs <;> simp [RxCall.isRefill]

/-- The calls of `prvPassEthMessages` hold no refill. -/
theorem prvPassEthMessages_no_refill (k : RxConsts)
    (descs : List NetworkBufferDescriptor_t) (ret : BaseType_t) :
    (prvPassEthMessages k descs ret).filter RxCall.isRefill = [] := by
  unfold prvPassEthMessages
  rw [List.filter_cons]
  simp only [RxCall.isRefill, Bool.false_eq_true, if_false]
  split_ifs
  all_goals first
    | rfl
    | (rw [List.filter_eq_nil_iff]
       intro c hc
       rw [List.mem_map] at hc
       obtain ⟨x, _, rfl⟩ := hc
       simp [RxCall.isRefill])
/-- The classification keeps `xSendPacket` exactly for a frame without the error
status that the filter accepts and for which a replacement descriptor was
obtained. -/
theorem prvNetworkInterfaceInput_classify_fst (cfg : Config) (k : RxConsts) (a : RxStep) :
    (prvNetworkInterfaceInput_classify cfg k a).1 =
      if a.xDMARxBufferIn.packet_status % 2 ^ 32 &&&
          (k.RDES3_NORM_WR_LD_MASK ||| k.RDES3_NORM_WR_ES_MASK) = k.XGMAC_RX_PACKET_ERROR then
        none
      else if a.eConsiderFrameForProcessing_ret ≠ eFrameProcessingResult_t.eProcessBuffer then
        none
      else a.pxGetNetworkBufferWithDescriptor_ret := by
  unfold prvNetworkInterfaceInput_classify
  simp only
  split_ifs <;> rfl

/-- A pass over a dropped frame: the query, the classification and the bottom of
the loop with the buffer the frame was received in. -/
theorem prvNetworkInterfaceInput_pass_drop (cfg : Config) (k : RxConsts) (h : Nat)
    (ifc : Option NetworkInterface_t) (a : RxStep) (s : RxLoop)
    (hs : a.xgmac_dma_receive_ret = 0) (hb : a.xDMARxBufferIn.buf ≠ NULL)
    (hc : (prvNetworkInterfaceInput_classify cfg k a).1 = none) :
    prvNetworkInterfaceInput_pass cfg k h ifc a s =
      some (prvNetworkInterfaceInput_refill h a a.xDMARxBufferIn.buf
        { s with calls := s.calls ++ (RxCall.xgmac_dma_receive h 0 ::
          (prvNetworkInterfaceInput_classify cfg k a).2) }) := by
  unfold prvNetworkInterfaceInput_pass
  simp only [hs, hb, hc, ne_eq, not_true_eq_false, if_false, List.append_assoc,
    List.singleton_append]

/-- A pass over an accepted frame, in either mode. -/
theorem prvNetworkInterfaceInput_pass_accept (cfg : Config) (k : RxConsts) (h : Nat)
    (ifc : Option NetworkInterface_t) (a : RxStep) (s : RxLoop)
    (new cur : NetworkBufferDescriptor_t)
    (hs : a.xgmac_dma_receive_ret = 0) (hb : a.xDMARxBufferIn.buf ≠ NULL)
    (hc : (prvNetworkInterfaceInput_classify cfg k a).1 = some new)
    (hl : (if cfg.ipconfigZERO_COPY_RX_DRIVER then a.pxPacketBuffer_to_NetworkBuffer_ret
      else some new) = some cur) :
    prvNetworkInterfaceInput_pass cfg k h ifc a s =
      some (prvNetworkInterfaceInput_refill h a
        (if cfg.ipconfigZERO_COPY_RX_DRIVER then new.pucEthernetBuffer
          else a.xDMARxBufferIn.buf)
        (rxAcceptedState cfg k h ifc a s new cur)) := by
  unfold prvNetworkInterfaceInput_pass rxAcceptedState
  simp only [hs, hb, hc, hl, ne_eq, not_true_eq_false, if_false]
  cases hz : cfg.ipconfigZERO_COPY_RX_DRIVER <;>
    cases hk : k.ipconfigUSE_LINKED_RX_MESSAGES <;>
    simp
/-- The calls that a pass adds for an accepted frame hold no refill before the
bottom of the loop. -/
theorem rxAcceptedState_calls (cfg : Config) (k : RxConsts) (h : Nat)
    (ifc : Option NetworkInterface_t) (a : RxStep) (s : RxLoop)
    (new cur : NetworkBufferDescriptor_t) :
    ∃ cs, (rxAcceptedState cfg k h ifc a s new cur).calls = s.calls ++ cs ∧
      cs.filter RxCall.isRefill = [] := by
  refine ⟨_, rfl, ?_⟩
  simp only [List.filter_append, List.filter_cons, List.append_eq_nil, RxCall.isRefill,
    Bool.false_eq_true, if_false, prvNetworkInterfaceInput_classify_no_refill]
  refine ⟨⟨⟨trivial, ?_⟩, by simp⟩, ?_⟩
  · split_ifs <;> simp [RxCall.isRefill]
  · split_ifs
    · rfl
    · exact prvPassEthMessages_no_refill _ _ _

/-- C16. For a completed descriptor with a non-null payload, with the engine
handle present, one pass of the drain makes exactly one refill and then goes
on (refill accepted) or leaves the loop (refill refused).  A dropped frame
(error status, filter rejection or no replacement descriptor) is refilled with
the buffer it was received in, in both modes.  A forwarded frame is refilled
in copy mode with the buffer it was received in, after its bytes were copied
to the replacement payload, and in zero-copy mode (the buffer-to-descriptor
lookup succeeding and the replacement payload not null) with the replacement
payload. -/
theorem input_refill_address (cfg : Config) (k : RxConsts) (h : Nat)
    (ifc : Option NetworkInterface_t) (a : RxStep) (s : RxLoop)
    (hs : a.xgmac_dma_receive_ret = 0) (hb : a.xDMARxBufferIn.buf ≠ NULL)
    (hh : h ≠ NULL) :
    ((a.xDMARxBufferIn.packet_status % 2 ^ 32 &&&
          (k.RDES3_NORM_WR_LD_MASK ||| k.RDES3_NORM_WR_ES_MASK) = k.XGMAC_RX_PACKET_ERROR ∨
        a.eConsiderFrameForProcessing_ret ≠ eFrameProcessingResult_t.eProcessBuffer ∨
        a.pxGetNetworkBufferWithDescriptor_ret = none) →
      RefillsOnce s h a.xDMARxBufferIn.buf a.xgmac_refill_rx_descriptor_ret
        (prvNetworkInterfaceInput_pass cfg k h ifc a s)) ∧
    (∀ new : NetworkBufferDescriptor_t,
      a.xDMARxBufferIn.packet_status % 2 ^ 32 &&&
          (k.RDES3_NORM_WR_LD_MASK ||| k.RDES3_NORM_WR_ES_MASK) ≠ k.XGMAC_RX_PACKET_ERROR →
      a.eConsiderFrameForProcessing_ret = eFrameProcessingResult_t.eProcessBuffer →
      a.pxGetNetworkBufferWithDescriptor_ret = some new →
      (cfg.ipconfigZERO_COPY_RX_DRIVER = false →
        RefillsOnce s h a.xDMARxBufferIn.buf a.xgmac_refill_rx_descriptor_ret
          (prvNetworkInterfaceInput_pass cfg k h ifc a s) ∧
        (prvNetworkInterfaceInput_pass cfg k h ifc a s).map (fun r => r.2.mem) =
          some (memcpy s.mem new.pucEthernetBuffer a.xDMARxBufferIn.buf
            (a.xDMARxBufferIn.size % 2 ^ 64))) ∧
      (cfg.ipconfigZERO_COPY_RX_DRIVER = true →
        a.pxPacketBuffer_to_NetworkBuffer_ret ≠ none → new.pucEthernetBuffer ≠ NULL →
        RefillsOnce s h new.pucEthernetBuffer a.xgmac_refill_rx_descriptor_ret
          (prvNetworkInterfaceInput_pass cfg k h ifc a s))) := by
  constructor
  · intro hd
    have hc : (prvNetworkInterfaceInput_classify cfg k a).1 = none := by
      rw [prvNetworkInterfaceInput_classify_fst]
      rcases hd with hd | hd | hd
      · rw [if_pos hd]
      · split_ifs <;> rfl
      · split_ifs <;> first | rfl | exact hd
    rw [prvNetworkInterfaceInput_pass_drop cfg k h ifc a s hs hb hc]
    refine prvNetworkInterfaceInput_refill_once h a _ _ s _ hh hb rfl ?_
    simp [List.filter_cons, RxCall.isRefill, prvNetworkInterfaceInput_classify_no_refill]
  · intro new he hv hn
    have hc : (prvNetworkInterfaceInput_classify cfg k a).1 = some new := by
      rw [prvNetworkInterfaceInput_classify_fst, if_neg he, if_neg (by simp [hv]), hn]
    constructor
    · intro hz
      have hp := prvNetworkInterfaceInput_pass_accept cfg k h ifc a s new new hs hb hc
        (by simp [hz])
      rw [hp]
      obtain ⟨cs, hcs, hf⟩ := rxAcceptedState_calls cfg k h ifc a s new new
      refine ⟨?_, ?_⟩
      · simp only [hz, Bool.false_eq_true, if_false]
        exact prvNetworkInterfaceInput_refill_once h a _ _ s cs hh hb hcs hf
      · simp only [prvNetworkInterfaceInput_refill, hz, hh, hb, or_self, if_false,
          Bool.false_eq_true, Option.map_some', Option.some.injEq]
        split_ifs <;> simp [rxAcceptedState, hz]
    · intro hz hl hnn
      cases hcur : a.pxPacketBuffer_to_NetworkBuffer_ret with
      | none => exact absurd hcur hl
      | some cur =>
        have hp := prvNetworkInterfaceInput_pass_accept cfg k h ifc a s new cur hs hb hc
          (by simp [hz, hcur])
        rw [hp]
        obtain ⟨cs, hcs, hf⟩ := rxAcceptedState_calls cfg k h ifc a s new cur
        simp only [hz, if_true]
        exact prvNetworkInterfaceInput_refill_once h a _ _ s cs hh hnn hcs hf

/-- Witness for C16: a forwarded frame received in the buffer at 8192 with the
replacement payload at 500 is refilled once, with 8192 in copy mode and with
500 in zero-copy mode. -/
theorem input_refill_address_witness :
    ((rxGood 64 pdPASS).xgmac_dma_receive_ret = 0 ∧
      (rxGood 64 pdPASS).xDMARxBufferIn.buf ≠ NULL ∧ (7 : Nat) ≠ NULL ∧
      (rxGood 64 pdPASS).xDMARxBufferIn.packet_status % 2 ^ 32 &&&
        (rxConsts0.RDES3_NORM_WR_LD_MASK ||| rxConsts0.RDES3_NORM_WR_ES_MASK) ≠
        rxConsts0.XGMAC_RX_PACKET_ERROR ∧
      (rxGood 64 pdPASS).eConsiderFrameForProcessing_ret =
        eFrameProcessingResult_t.eProcessBuffer ∧
      (rxGood 64 pdPASS).pxGetNetworkBufferWithDescriptor_ret =
        some { pucEthernetBuffer := 500, xDataLength := 16 } ∧
      tiny.ipconfigZERO_COPY_RX_DRIVER = false ∧
      tinyZeroCopy.ipconfigZERO_COPY_RX_DRIVER = true ∧
      (rxGood 64 pdPASS).pxPacketBuffer_to_NetworkBuffer_ret ≠ none ∧ (500 : Nat) ≠ NULL) ∧
    RefillsOnce (rxStart zeroMem) 7 8192 0
      (prvNetworkInterfaceInput_pass tiny rxConsts0 7 (some ifc0) (rxGood 64 pdPASS)
        (rxStart zeroMem)) ∧
    RefillsOnce (rxStart zeroMem) 7 500 0
      (prvNetworkInterfaceInput_pass tinyZeroCopy rxConsts0 7 (some ifc0) (rxGood 64 pdPASS)
        (rxStart zeroMem)) :=
  ⟨by decide,
    (((input_refill_address tiny rxConsts0 7 (some ifc0) (rxGood 64 pdPASS) (rxStart zeroMem)
      (by decide) (by decide) (by decide)).2
      { pucEthernetBuffer := 500, xDataLength := 16 } (by decide) (by decide) rfl).1
      (by decide)).1,
    ((input_refill_address tinyZeroCopy rxConsts0 7 (some ifc0) (rxGood 64 pdPASS)
      (rxStart zeroMem) (by decide) (by decide) (by decide)).2
      { pucEthernetBuffer := 500, xDataLength := 16 } (by decide) (by decide) rfl).2
      (by decide) (by decide) (by decide)⟩

/-- The bottom of a pass keeps the counter, the chain, the memory and the calls
made before it. -/
theorem prvNetworkInterfaceInput_refill_keeps (h : Nat) (a : RxStep) (addr : Nat)
    (s : RxLoop) :
    (prvNetworkInterfaceInput_refill h a addr s).2.msgCount = s.msgCount ∧
    (prvNetworkInterfaceInput_refill h a addr s).2.chain = s.chain ∧
    (prvNetworkInterfaceInput_refill h a addr s).2.mem = s.mem ∧
    ((prvNetworkInterfaceInput_refill h a addr s).2.calls = s.calls ∨
      (prvNetworkInterfaceInput_refill h a addr s).2.calls = s.calls ++
        [RxCall.xgmac_refill_rx_descriptor h addr a.xgmac_refill_rx_descriptor_ret]) := by
  unfold prvNetworkInterfaceInput_refill
  split_ifs <;> simp

/-- C17. On the code, the descriptor of an accepted frame of received length
`L` (below `2 ^ 64`) is chained (linked mode) or handed to the stack's queue
(per-frame mode) with the data length `(L - 4) mod 2 ^ 64`: this is `L - 4` for
`4 ≤ L`, but for `L < 4` it wraps to `2 ^ 64 - 4 + L`, which is larger than
`L`. -/
theorem input_data_length (cfg : Config) (k : RxConsts) (h : Nat)
    (ifc : Option NetworkInterface_t) (a : RxStep) (s : RxLoop)
    (new cur : NetworkBufferDescriptor_t)
    (hs : a.xgmac_dma_receive_ret = 0) (hb : a.xDMARxBufferIn.buf ≠ NULL)
    (he : a.xDMARxBufferIn.packet_status % 2 ^ 32 &&&
      (k.RDES3_NORM_WR_LD_MASK ||| k.RDES3_NORM_WR_ES_MASK) ≠ k.XGMAC_RX_PACKET_ERROR)
    (hv : a.eConsiderFrameForProcessing_ret = eFrameProcessingResult_t.eProcessBuffer)
    (hn : a.pxGetNetworkBufferWithDescriptor_ret = some new)
    (hl : (if cfg.ipconfigZERO_COPY_RX_DRIVER then a.pxPacketBuffer_to_NetworkBuffer_ret
      else some new) = some cur)
    (hL : a.xDMARxBufferIn.size < 2 ^ 64) :
    ∃ e s1 stamped, prvNetworkInterfaceInput_pass cfg k h ifc a s = some (e, s1) ∧
      stamped.pucEthernetBuffer = cur.pucEthernetBuffer ∧
      (if k.ipconfigUSE_LINKED_RX_MESSAGES then s1.chain = s.chain ++ [stamped]
        else RxCall.xSendEventStructToIPTask [stamped] 1000 a.xSendEventStructToIPTask_ret ∈
          s1.calls) ∧
      stamped.xDataLength = rxDataLength a.xDMARxBufferIn.size ∧
      (4 ≤ a.xDMARxBufferIn.size → stamped.xDataLength = a.xDMARxBufferIn.size - 4) ∧
      (a.xDMARxBufferIn.size < 4 →
        stamped.xDataLength = 2 ^ 64 - 4 + a.xDMARxBufferIn.size ∧
        a.xDMARxBufferIn.size < stamped.xDataLength) := by
  have hc : (prvNetworkInterfaceInput_classify cfg k a).1 = some new := by
    rw [prvNetworkInterfaceInput_classify_fst, if_neg he, if_neg (by simp [hv]), hn]
  have hp := prvNetworkInterfaceInput_pass_accept cfg k h ifc a s new cur hs hb hc hl
  have hm : a.xDMARxBufferIn.size % 2 ^ 64 = a.xDMARxBufferIn.size := Nat.mod_eq_of_lt hL
  obtain ⟨-, hk2, -, hk4⟩ := prvNetworkInterfaceInput_refill_keeps h a
    (if cfg.ipconfigZERO_COPY_RX_DRIVER then new.pucEthernetBuffer else a.xDMARxBufferIn.buf)
    (rxAcceptedState cfg k h ifc a s new cur)
  generalize prvNetworkInterfaceInput_refill h a
    (if cfg.ipconfigZERO_COPY_RX_DRIVER then new.pucEthernetBuffer else a.xDMARxBufferIn.buf)
    (rxAcceptedState cfg k h ifc a s new cur) = r at hp hk2 hk4
  refine ⟨r.1, r.2, { cur with
      xDataLength := rxDataLength (a.xDMARxBufferIn.size % 2 ^ 64)
      pxInterface := ifc
      pxEndPoint := a.FreeRTOS_MatchingEndpoint_ret }, hp, rfl, ?_, ?_, ?_, ?_⟩
  · cases hkl : k.ipconfigUSE_LINKED_RX_MESSAGES
    · simp only [Bool.false_eq_true, if_false]
      have hmem : RxCall.xSendEventStructToIPTask [{ cur with
            xDataLength := rxDataLength (a.xDMARxBufferIn.size % 2 ^ 64)
            pxInterface := ifc
            pxEndPoint := a.FreeRTOS_MatchingEndpoint_ret }] 1000
          a.xSendEventStructToIPTask_ret ∈
          (rxAcceptedState cfg k h ifc a s new cur).calls := by
        simp [rxAcceptedState, hkl, prvPassEthMessages]
      rcases hk4 with hk4 | hk4
      · rw [hk4]; exact hmem
      · rw [hk4]; exact List.mem_append_left _ hmem
    · simp only [if_true]
      rw [hk2]
      simp [rxAcceptedState, hkl]
  · simp only [hm]
  · intro h4
    simp only [hm, rxDataLength]
    omega
  · intro h4
    simp only [hm, rxDataLength]
    omega

/-- Witness for C17: an accepted frame of 3 bytes is handed to the stack's queue
with the data length `2 ^ 64 - 1`. -/
theorem input_data_length_witness :
    ((rxGood 3 pdPASS).xgmac_dma_receive_ret = 0 ∧
      (rxGood 3 pdPASS).xDMARxBufferIn.buf ≠ NULL ∧
      (rxGood 3 pdPASS).xDMARxBufferIn.packet_status % 2 ^ 32 &&&
        (rxConsts0.RDES3_NORM_WR_LD_MASK ||| rxConsts0.RDES3_NORM_WR_ES_MASK) ≠
        rxConsts0.XGMAC_RX_PACKET_ERROR ∧
      (rxGood 3 pdPASS).eConsiderFrameForProcessing_ret =
        eFrameProcessingResult_t.eProcessBuffer ∧
      (rxGood 3 pdPASS).xDMARxBufferIn.size < 2 ^ 64) ∧
    ∃ e s1 stamped,
      prvNetworkInterfaceInput_pass tiny rxConsts0 7 (some ifc0) (rxGood 3 pdPASS)
        (rxStart zeroMem) = some (e, s1) ∧
      RxCall.xSendEventStructToIPTask [stamped] 1000 pdPASS ∈ s1.calls ∧
      stamped.xDataLength = 18446744073709551615 ∧
      (3 : Nat) < stamped.xDataLength := by
  refine ⟨by decide, ?_⟩
  obtain ⟨e, s1, stamped, hp, -, hq, -, -, h3⟩ :=
    input_data_length tiny rxConsts0 7 (some ifc0) (rxGood 3 pdPASS) (rxStart zeroMem)
      { pucEthernetBuffer := 500, xDataLength := 16 }
      { pucEthernetBuffer := 500, xDataLength := 16 }
      (by decide) (by decide) (by decide) (by decide) rfl rfl (by decide)
  have h4 := h3 (by decide)
  exact ⟨e, s1, stamped, hp, hq, h4.1, h4.2⟩

/-! ## Receive: the returned count -/

theorem rxAccepted_append (xs ys : List RxCall) :
    rxAccepted (xs ++ ys) = rxAccepted xs + rxAccepted ys := by
  simp [rxAccepted, List.filter_append]

theorem rxForwarded_append (xs ys : List RxCall) :
    rxForwarded (xs ++ ys) = rxForwarded xs + rxForwarded ys := by
  simp [rxForwarded, List.map_append, List.sum_append]

/-- The classification accepts and forwards nothing by itself. -/
theorem prvNetworkInterfaceInput_classify_counts (cfg : Config) (k : RxConsts) (a : RxStep) :
    rxAccepted (prvNetworkInterfaceInput_classify cfg k a).2 = 0 ∧
    rxForwarded (prvNetworkInterfaceInput_classify cfg k a).2 = 0 := by
  unfold prvNetworkInterfaceInput_classify
  simp only
  split_ifs <;> simp [rxAccepted, rxForwarded, RxCall.isAccept, RxCall.forwarded]

/-- The release calls forward and accept nothing. -/
theorem release_counts (descs : List NetworkBufferDescriptor_t) :
    rxAccepted (descs.map RxCall.vReleaseNetworkBufferAndDescriptor) = 0 ∧
    rxForwarded (descs.map RxCall.vReleaseNetworkBufferAndDescriptor) = 0 := by
  induction descs with
  | nil => simp [rxAccepted, rxForwarded]
  | cons x xs ih =>
    obtain ⟨-, h2⟩ := ih
    constructor
    · simp [rxAccepted, List.filter_cons, RxCall.isAccept]
    · simp only [rxForwarded] at h2 ⊢
      simpa [RxCall.forwarded] using h2

/-- Passing descriptors to the stack accepts no frame and forwards all of them
when the queue takes them, none otherwise. -/
theorem prvPassEthMessages_counts (k : RxConsts) (descs : List NetworkBufferDescriptor_t)
    (ret : BaseType_t) :
    rxAccepted (prvPassEthMessages k descs ret) = 0 ∧
    rxForwarded (prvPassEthMessages k descs ret) = if ret = pdPASS then descs.length else 0 := by
  unfold prvPassEthMessages
  have hcons : ∀ (c : RxCall) (cs : List RxCall), c :: cs = [c] ++ cs := fun _ _ => rfl
  rw [hcons, rxAccepted_append, rxForwarded_append]
  have h1 : rxAccepted [RxCall.xSendEventStructToIPTask descs 1000 ret] = 0 := by
    simp [rxAccepted, RxCall.isAccept]
  have h2 : rxForwarded [RxCall.xSendEventStructToIPTask descs 1000 ret] =
      if ret = pdPASS then descs.length else 0 := by
    simp [rxForwarded, RxCall.forwarded]
  rw [h1, h2]
  by_cases hr : ret = pdPASS
  · simp [hr, rxAccepted, rxForwarded]
  · simp only [hr, ne_eq, not_false_eq_true, if_true, if_false]
    split_ifs
    · simpa using release_counts descs
    · simpa using release_counts (descs.take 1)

/-- Calls that accept and forward nothing keep the invariant. -/
theorem RxInv_log (k : RxConsts) (s : RxLoop) (cs : List RxCall) (hi : RxInv k s)
    (ha : rxAccepted cs = 0) (hf : rxForwarded cs = 0) :
    RxInv k { s with calls := s.calls ++ cs } := by
  obtain ⟨h1, h2, h3⟩ := hi
  refine ⟨?_, ?_, ?_⟩
  · show s.msgCount = ((rxAccepted (s.calls ++ cs) : Nat) : Int)
    rw [rxAccepted_append, ha, Nat.add_zero]; exact h1
  · show rxForwarded (s.calls ++ cs) ≤ rxAccepted (s.calls ++ cs)
    rw [rxAccepted_append, rxForwarded_append, ha, hf]; exact h2
  · intro hk
    show rxForwarded (s.calls ++ cs) = 0 ∧ s.chain.length = rxAccepted (s.calls ++ cs)
    rw [rxAccepted_append, rxForwarded_append, ha, hf]
    exact h3 hk

/-- The bottom of a pass keeps the invariant. -/
theorem RxInv_refill (k : RxConsts) (h : Nat) (a : RxStep) (addr : Nat) (s : RxLoop)
    (hi : RxInv k s) : RxInv k (prvNetworkInterfaceInput_refill h a addr s).2 := by
  unfold prvNetworkInterfaceInput_refill
  split_ifs
  · exact hi
  · exact RxInv_log k s _ hi (by simp [rxAccepted, RxCall.isAccept])
      (by simp [rxForwarded, RxCall.forwarded])
  · exact RxInv_log k s _ hi (by simp [rxAccepted, RxCall.isAccept])
      (by simp [rxForwarded, RxCall.forwarded])

/-- Accepting a frame keeps the invariant. -/
theorem RxInv_accept (cfg : Config) (k : RxConsts) (h : Nat)
    (ifc : Option NetworkInterface_t) (a : RxStep) (s : RxLoop)
    (new cur : NetworkBufferDescriptor_t) (hi : RxInv k s) :
    RxInv k (rxAcceptedState cfg k h ifc a s new cur) := by
  obtain ⟨h1, h2, h3⟩ := hi
  obtain ⟨hc1, hc2⟩ := prvNetworkInterfaceInput_classify_counts cfg k a
  have hcons : ∀ (c : RxCall) (cs : List RxCall), c :: cs = [c] ++ cs := fun _ _ => rfl
  have hr1 : rxAccepted [RxCall.xgmac_dma_receive h 0] = 0 := by
    simp [rxAccepted, RxCall.isAccept]
  have hr2 : rxForwarded [RxCall.xgmac_dma_receive h 0] = 0 := by
    simp [rxForwarded, RxCall.forwarded]
  have hl1 : rxAccepted (if cfg.ipconfigZERO_COPY_RX_DRIVER then
      [RxCall.pxPacketBuffer_to_NetworkBuffer a.xDMARxBufferIn.buf
        a.pxPacketBuffer_to_NetworkBuffer_ret] else []) = 0 := by
    split_ifs <;> simp [rxAccepted, RxCall.isAccept]
  have hl2 : rxForwarded (if cfg.ipconfigZERO_COPY_RX_DRIVER then
      [RxCall.pxPacketBuffer_to_NetworkBuffer a.xDMARxBufferIn.buf
        a.pxPacketBuffer_to_NetworkBuffer_ret] else []) = 0 := by
    split_ifs <;> simp [rxForwarded, RxCall.forwarded]
  have he1 : rxAccepted [RxCall.FreeRTOS_MatchingEndpoint ifc cur.pucEthernetBuffer
      a.FreeRTOS_MatchingEndpoint_ret] = 1 := by
    simp [rxAccepted, RxCall.isAccept]
  have he2 : rxForwarded [RxCall.FreeRTOS_MatchingEndpoint ifc cur.pucEthernetBuffer
      a.FreeRTOS_MatchingEndpoint_ret] = 0 := by
    simp [rxForwarded, RxCall.forwarded]
  unfold rxAcceptedState RxInv
  simp only
  rw [hcons (RxCall.xgmac_dma_receive h 0)]
  simp only [rxAccepted_append, rxForwarded_append, hr1, hr2, hc1, hc2, hl1, hl2, he1, he2]
  cases hk : k.ipconfigUSE_LINKED_RX_MESSAGES
  · simp only [Bool.false_eq_true, if_false, false_implies, and_true]
    obtain ⟨hp1, hp2⟩ := prvPassEthMessages_counts k
      [{ cur with
          xDataLength := rxDataLength (a.xDMARxBufferIn.size % 2 ^ 64)
          pxInterface := ifc
          pxEndPoint := a.FreeRTOS_MatchingEndpoint_ret }] a.xSendEventStructToIPTask_ret
    rw [hp1, hp2]
    constructor
    · rw [h1]; push_cast; ring
    · split_ifs <;> simp <;> omega
  · obtain ⟨h4, h5⟩ := h3 hk
    simp only [if_true, rxAccepted, rxForwarded, List.filter_nil, List.map_nil, List.sum_nil,
      List.length_nil]
    simp only [rxAccepted, rxForwarded] at h1 h2 h4 h5
    refine ⟨?_, ?_, ?_⟩
    · rw [h1]; push_cast; ring
    · omega
    · intro _
      refine ⟨by omega, ?_⟩
      simp [h5]
/-- The bottom of a pass does not leave through `return 0` when the handle and
the refill address are not null. -/
theorem prvNetworkInterfaceInput_refill_exit (h : Nat) (a : RxStep) (addr : Nat)
    (s : RxLoop) (hh : h ≠ NULL) (ha : addr ≠ NULL) :
    (prvNetworkInterfaceInput_refill h a addr s).1 ≠ RxExit.ret0 := by
  unfold prvNetworkInterfaceInput_refill
  simp only [hh, ha, or_self, if_false]
  split_ifs <;> simp

/-- One pass keeps the invariant of the loop; it returns unless the lookup of
zero-copy mode fails. -/
theorem prvNetworkInterfaceInput_pass_inv (cfg : Config) (k : RxConsts) (h : Nat)
    (ifc : Option NetworkInterface_t) (a : RxStep) (s : RxLoop) (hi : RxInv k s)
    (hz : cfg.ipconfigZERO_COPY_RX_DRIVER = true →
      a.pxPacketBuffer_to_NetworkBuffer_ret ≠ none) :
    ∃ e s1, prvNetworkInterfaceInput_pass cfg k h ifc a s = some (e, s1) ∧ RxInv k s1 ∧
      (a.xgmac_dma_receive_ret ≠ 0 → e = RxExit.brk) ∧
      (h ≠ NULL →
        (cfg.ipconfigZERO_COPY_RX_DRIVER = true → ∀ new,
          a.pxGetNetworkBufferWithDescriptor_ret = some new → new.pucEthernetBuffer ≠ NULL) →
        e ≠ RxExit.ret0) := by
  have hrecv : RxInv k { s with calls := s.calls ++
      [RxCall.xgmac_dma_receive h a.xgmac_dma_receive_ret] } :=
    RxInv_log k s _ hi (by simp [rxAccepted, RxCall.isAccept])
      (by simp [rxForwarded, RxCall.forwarded])
  by_cases hs : a.xgmac_dma_receive_ret = 0
  · by_cases hb : a.xDMARxBufferIn.buf = NULL
    · refine ⟨RxExit.brk, _, ?_, hrecv, fun _ => rfl, fun _ _ => by simp⟩
      unfold prvNetworkInterfaceInput_pass
      simp only [hs, hb, ne_eq, not_true_eq_false, if_false, if_true]
    · cases hc : (prvNetworkInterfaceInput_classify cfg k a).1 with
      | none =>
        have hp := prvNetworkInterfaceInput_pass_drop cfg k h ifc a s hs hb hc
        obtain ⟨hc1, hc2⟩ := prvNetworkInterfaceInput_classify_counts cfg k a
        have hcons : ∀ (c : RxCall) (cs : List RxCall), c :: cs = [c] ++ cs :=
          fun _ _ => rfl
        refine ⟨_, _, hp, RxInv_refill k h a _ _ (RxInv_log k s _ hi ?_ ?_),
          fun h0 => absurd hs h0,
          fun hh _ => prvNetworkInterfaceInput_refill_exit h a _ _ hh hb⟩
        · rw [hcons, rxAccepted_append, hc1]; simp [rxAccepted, RxCall.isAccept]
        · rw [hcons, rxForwarded_append, hc2]; simp [rxForwarded, RxCall.forwarded]
      | some new =>
        have hn : a.pxGetNetworkBufferWithDescriptor_ret = some new := by
          rw [prvNetworkInterfaceInput_classify_fst] at hc
          split_ifs at hc
          exact hc
        cases hl : (if cfg.ipconfigZERO_COPY_RX_DRIVER then
            a.pxPacketBuffer_to_NetworkBuffer_ret else some new) with
        | none =>
          exfalso
          cases hzc : cfg.ipconfigZERO_COPY_RX_DRIVER
          · simp [hzc] at hl
          · rw [hzc] at hl
            exact hz hzc (by simpa using hl)
        | some cur =>
          have hp := prvNetworkInterfaceInput_pass_accept cfg k h ifc a s new cur hs hb hc hl
          refine ⟨_, _, hp, RxInv_refill k h a _ _ (RxInv_accept cfg k h ifc a s new cur hi),
            fun h0 => absurd hs h0, fun hh hnn => ?_⟩
          apply prvNetworkInterfaceInput_refill_exit h a _ _ hh
          cases hzc : cfg.ipconfigZERO_COPY_RX_DRIVER
          · simpa using hb
          · simpa using hnn hzc new hn
  · refine ⟨RxExit.brk, _, ?_, hrecv, fun _ => rfl, fun _ _ => by simp⟩
    unfold prvNetworkInterfaceInput_pass
    simp only [hs, ne_eq, not_false_eq_true, if_true]

/-- The loop of the drain returns, with the invariant kept, when the engine's
answers hold one that reports no completed descriptor and the lookups of
zero-copy mode succeed; it then leaves through `break` unless the handle or a
refill address is null. -/
theorem prvNetworkInterfaceInput_loop_inv (cfg : Config) (k : RxConsts) (h : Nat)
    (ifc : Option NetworkInterface_t) :
    ∀ (rx : List RxStep) (s : RxLoop), RxInv k s →
      (∃ a ∈ rx, a.xgmac_dma_receive_ret ≠ 0) →
      (cfg.ipconfigZERO_COPY_RX_DRIVER = true →
        ∀ a ∈ rx, a.pxPacketBuffer_to_NetworkBuffer_ret ≠ none) →
      ∃ e s1, prvNetworkInterfaceInput_loop cfg k h ifc rx s = some (e, s1) ∧ RxInv k s1 ∧
        (h ≠ NULL →
          (cfg.ipconfigZERO_COPY_RX_DRIVER = true → ∀ a ∈ rx, ∀ new,
            a.pxGetNetworkBufferWithDescriptor_ret = some new →
            new.pucEthernetBuffer ≠ NULL) →
          e ≠ RxExit.ret0) := by
  intro rx
  induction rx with
  | nil =>
    intro s _ hend
    obtain ⟨a, ha, -⟩ := hend
    simp at ha
  | cons a rest ih =>
    intro s hi hend hz
    obtain ⟨e, s1, hp, hi1, hbrk, hne⟩ := prvNetworkInterfaceInput_pass_inv cfg k h ifc a s hi
      (fun hzc => hz hzc a (List.mem_cons_self _ _))
    cases e with
    | next =>
      have hs : a.xgmac_dma_receive_ret = 0 := by
        by_contra h0
        exact absurd (hbrk h0) (by simp)
      have hend1 : ∃ b ∈ rest, b.xgmac_dma_receive_ret ≠ 0 := by
        obtain ⟨b, hb, hb0⟩ := hend
        rcases List.mem_cons.mp hb with rfl | hb
        · exact absurd hs hb0
        · exact ⟨b, hb, hb0⟩
      obtain ⟨e2, s2, hl, hi2, hne2⟩ := ih s1 hi1 hend1
        (fun hzc b hb => hz hzc b (List.mem_cons_of_mem _ hb))
      refine ⟨e2, s2, ?_, hi2, fun hh hnn => hne2 hh
        (fun hzc b hb => hnn hzc b (List.mem_cons_of_mem _ hb))⟩
      rw [prvNetworkInterfaceInput_loop, hp]
      exact hl
    | brk =>
      refine ⟨RxExit.brk, s1, ?_, hi1, fun _ _ => by simp⟩
      rw [prvNetworkInterfaceInput_loop, hp]
    | ret0 =>
      refine ⟨RxExit.ret0, s1, ?_, hi1, fun hh hnn => ?_⟩
      · rw [prvNetworkInterfaceInput_loop, hp]
      · exact hne hh (fun hzc => hnn hzc a (List.mem_cons_self _ _))

/-- The loop of the drain does not end at the bottom of a pass. -/
theorem prvNetworkInterfaceInput_loop_exit (cfg : Config) (k : RxConsts) (h : Nat)
    (ifc : Option NetworkInterface_t) :
    ∀ (rx : List RxStep) (s s1 : RxLoop),
      prvNetworkInterfaceInput_loop cfg k h ifc rx s ≠ some (RxExit.next, s1) := by
  intro rx
  induction rx with
  | nil => intro s s1; simp [prvNetworkInterfaceInput_loop]
  | cons a rest ih =>
    intro s s1
    rw [prvNetworkInterfaceInput_loop]
    cases hp : prvNetworkInterfaceInput_pass cfg k h ifc a s with
    | none => simp
    | some r =>
      obtain ⟨e, s2⟩ := r
      cases e with
      | next => exact ih s2 s1
      | brk => simp
      | ret0 => simp
/-- Counterexample for C15: in per-frame mode one accepted frame that the
stack's queue refuses is released again, so no frame is forwarded, and the
drain still returns 1. -/
theorem input_counts_refused_frame :
    (prvNetworkInterfaceInput tiny rxConsts0 [rxGood 64 pdFAIL, rxNone] pdPASS ifc0
        afterReady).map (fun o => (o.xReturn, rxForwarded o.calls, o.calls)) =
      some (1, 0,
        [RxCall.xgmac_dma_receive 7 0,
         RxCall.eConsiderFrameForProcessing 8192 eFrameProcessingResult_t.eProcessBuffer,
         RxCall.pxGetNetworkBufferWithDescriptor 16 0
           (some { pucEthernetBuffer := 500, xDataLength := 16 }),
         RxCall.FreeRTOS_MatchingEndpoint (some ifc0) 500 77,
         RxCall.xSendEventStructToIPTask
           [{ pucEthernetBuffer := 500, xDataLength := 60, pxInterface := some ifc0,
              pxEndPoint := 77 }] 1000 pdFAIL,
         RxCall.vReleaseNetworkBufferAndDescriptor
           { pucEthernetBuffer := 500, xDataLength := 60, pxInterface := some ifc0,
             pxEndPoint := 77 },
         RxCall.xgmac_refill_rx_descriptor 7 8192 0,
         RxCall.xgmac_dma_receive 7 (-1)]) := by
  decide

/-- C15, amended. When the engine's answers hold one that reports no completed
descriptor (and, in zero-copy mode, the buffer-to-descriptor lookups succeed),
the drain returns, and the value it returns is the number of frames it
accepted in the cycle (stamped and passed to the stack's queue or chained),
whether or not the queue took them, or 0 when it left through the null check
before the refill; the number of frames forwarded successfully is at most the
number accepted.  With the handle present and no replacement payload null the
value is the number accepted. -/
theorem input_returns_accepted_count (cfg : Config) (k : RxConsts) (rx : List RxStep)
    (chain_ret : BaseType_t) (pxInterface : NetworkInterface_t) (d : Driver)
    (hend : ∃ a ∈ rx, a.xgmac_dma_receive_ret ≠ 0)
    (hz : cfg.ipconfigZERO_COPY_RX_DRIVER = true →
      ∀ a ∈ rx, a.pxPacketBuffer_to_NetworkBuffer_ret ≠ none) :
    ∃ o, prvNetworkInterfaceInput cfg k rx chain_ret pxInterface d = some o ∧
      rxForwarded o.calls ≤ rxAccepted o.calls ∧
      (o.xReturn = (rxAccepted o.calls : Int) ∨ o.xReturn = 0) ∧
      (d.hxgmac pxInterface.pvArgument ≠ NULL →
        (cfg.ipconfigZERO_COPY_RX_DRIVER = true → ∀ a ∈ rx, ∀ new,
          a.pxGetNetworkBufferWithDescriptor_ret = some new →
          new.pucEthernetBuffer ≠ NULL) →
        o.xReturn = (rxAccepted o.calls : Int)) := by
  have h0 : RxInv k { msgCount := 0, chain := [], mem := d.mem, calls := [] } := by
    refine ⟨?_, ?_, fun _ => ⟨?_, ?_⟩⟩ <;> simp [rxAccepted, rxForwarded]
  obtain ⟨e, s1, hl, ⟨hi1, hi2, hi3⟩, hne⟩ := prvNetworkInterfaceInput_loop_inv cfg k
    (d.hxgmac pxInterface.pvArgument) d.AgxInterface rx _ h0 hend hz
  cases e with
  | next => exact absurd hl (prvNetworkInterfaceInput_loop_exit cfg k _ _ rx _ s1)
  | ret0 =>
    refine ⟨{ xReturn := 0
              d := { d with mem := s1.mem }
              calls := s1.calls }, ?_, hi2,
      Or.inr rfl, fun hh hnn => absurd rfl (hne hh hnn)⟩
    simp only [prvNetworkInterfaceInput, hl]
  | brk =>
    have hfin : rxForwarded (if k.ipconfigUSE_LINKED_RX_MESSAGES ∧ s1.chain ≠ [] then
          s1.calls ++ prvPassEthMessages k s1.chain chain_ret else s1.calls) ≤
        rxAccepted s1.calls ∧
        rxAccepted (if k.ipconfigUSE_LINKED_RX_MESSAGES ∧ s1.chain ≠ [] then
          s1.calls ++ prvPassEthMessages k s1.chain chain_ret else s1.calls) =
        rxAccepted s1.calls := by
      split_ifs with hk
      · obtain ⟨hp1, hp2⟩ := prvPassEthMessages_counts k s1.chain chain_ret
        obtain ⟨h4, h5⟩ := hi3 hk.1
        rw [rxAccepted_append, rxForwarded_append, hp1, hp2, h4]
        refine ⟨?_, by omega⟩
        split_ifs <;> omega
      · exact ⟨hi2, rfl⟩
    refine ⟨{ xReturn := s1.msgCount
              d := { d with mem := s1.mem }
              calls := if k.ipconfigUSE_LINKED_RX_MESSAGES ∧ s1.chain ≠ [] then
                s1.calls ++ prvPassEthMessages k s1.chain chain_ret else s1.calls }, ?_, ?_,
      Or.inl ?_, fun _ _ => ?_⟩
    · simp only [prvNetworkInterfaceInput, hl]
    · exact hfin.2 ▸ hfin.1
    · show s1.msgCount = _
      rw [hfin.2]; exact hi1
    · show s1.msgCount = _
      rw [hfin.2]; exact hi1

/-- Witness for C15, amended: a drain of two accepted frames, the second of which
the queue refuses, returns 2 with one frame forwarded. -/
theorem input_returns_accepted_count_witness :
    ((∃ a ∈ [rxGood 64 pdPASS, rxGood 64 pdFAIL, rxNone], a.xgmac_dma_receive_ret ≠ 0) ∧
      tiny.ipconfigZERO_COPY_RX_DRIVER = false ∧ afterReady.hxgmac ifc0.pvArgument ≠ NULL) ∧
    ∃ o, prvNetworkInterfaceInput tiny rxConsts0 [rxGood 64 pdPASS, rxGood 64 pdFAIL, rxNone]
        pdPASS ifc0 afterReady = some o ∧
      o.xReturn = 2 ∧ rxAccepted o.calls = 2 ∧ rxForwarded o.calls = 1 := by
  refine ⟨⟨⟨rxNone, by simp, by decide⟩, by decide, by decide⟩, ?_⟩
  obtain ⟨o, ho, -, -, -⟩ := input_returns_accepted_count tiny rxConsts0
    [rxGood 64 pdPASS, rxGood 64 pdFAIL, rxNone] pdPASS ifc0 afterReady
    ⟨rxNone, by simp, by decide⟩ (fun hzc => absurd hzc (by decide))
  refine ⟨o, ho, ?_⟩
  have hv : (prvNetworkInterfaceInput tiny rxConsts0
      [rxGood 64 pdPASS, rxGood 64 pdFAIL, rxNone] pdPASS ifc0 afterReady).map
      (fun o => (o.xReturn, rxAccepted o.calls, rxForwarded o.calls)) = some (2, 2, 1) := by
    decide
  rw [ho] at hv
  simp only [Option.map_some', Option.some.injEq, Prod.mk.injEq] at hv
  exact hv

/-! ## Interrupt callback and deferred task: claims -/

/-- The word that the callback builds for an error event with a type and a
channel of at most 255: the type in bits 24 to 31, the channel in bits 16 to
23 and the error-event bit. -/
theorem prvEMACIRQHanlderCallback_word_err (t c : Nat) (ht : t ≤ 255) (hc : c ≤ 255) :
    prvEMACIRQHanlderCallback_word xgmac_int_status_t.XGMAC_ERR_EVENT
      { err_type := t, err_ch := c } = t * 2 ^ 24 + c * 2 ^ 16 + 4 := by
  have ht1 : t % 2 ^ 32 = t := Nat.mod_eq_of_lt (by omega)
  have hc1 : c % 2 ^ 32 = c := Nat.mod_eq_of_lt (by omega)
  have ht2 : t * 2 ^ 24 % 2 ^ 32 = t * 2 ^ 24 := Nat.mod_eq_of_lt (by omega)
  have hc2 : c * 2 ^ 16 % 2 ^ 32 = c * 2 ^ 16 := Nat.mod_eq_of_lt (by omega)
  have h1 : 2 ^ 24 * t + c * 2 ^ 16 = 2 ^ 24 * t ||| c * 2 ^ 16 :=
    Nat.mul_add_lt_is_or (by omega) t
  have h2 : 2 ^ 16 * (2 ^ 8 * t + c) + 4 = 2 ^ 16 * (2 ^ 8 * t + c) ||| 4 :=
    Nat.mul_add_lt_is_or (by omega) (2 ^ 8 * t + c)
  have h3 : 2 ^ 16 * (2 ^ 8 * t + c) = 2 ^ 24 * t + c * 2 ^ 16 := by ring
  simp only [prvEMACIRQHanlderCallback_word, XGMAC_IF_ERR_EVENT, Nat.zero_or,
    Nat.shiftLeft_eq, ht1, hc1, ht2, hc2]
  rw [Nat.mul_comm t (2 ^ 24), ← h1, ← h3, ← h2, h3]

/-- The bits 0, 1 and 2 of a word that is 4 modulo 8. -/
theorem and_of_mod_eight (w m : Nat) (hw : w % 8 = 4) (hm : m ≤ 7) :
    w &&& m = 4 &&& m := by
  have h7 : w &&& 7 = 4 := by
    have := Nat.and_pow_two_sub_one_eq_mod w 3
    simpa [hw] using this
  have hm7 : 7 &&& m = m := by
    interval_cases m <;> rfl
  calc w &&& m = w &&& (7 &&& m) := by rw [hm7]
    _ = (w &&& 7) &&& m := (Nat.and_assoc w 7 m).symm
    _ = 4 &&& m := by rw [h7]

/-- C18. With the deferred task created and no bits in the notification value,
the interrupt callback answers an error event of type `t` and channel `c`, both
at most 255, by one notification whose word has the error-event bit (4) set and
the Rx (1) and Tx (2) bits clear; the notification value becomes that word, the
wait of the task hands it out, and the pass of the task that follows calls
only the error handler, with exactly `t` and `c`. -/
theorem error_event_round_trip (d : Driver) (t c : Nat) (ht : t ≤ 255) (hc : c ≤ 255)
    (hT : d.xEMACTaskHandle ≠ NULL) :
    ∃ w, prvEMACIRQHanlderCallback xgmac_int_status_t.XGMAC_ERR_EVENT
        { err_type := t, err_ch := c } d 0 =
        some { d := d, ulNotifiedValue := w,
               calls := [IsrCall.xTaskNotifyFromISR d.xEMACTaskHandle w] } ∧
      w &&& XGMAC_IF_ERR_EVENT = XGMAC_IF_ERR_EVENT ∧
      w &&& XGMAC_IF_RX_EVENT = 0 ∧ w &&& XGMAC_IF_TX_EVENT = 0 ∧
      (xTaskNotifyWait XGMAC_IF_ALL_EVENT w).1 = w ∧
      w >>> 24 = t ∧ (w >>> 16) % 2 ^ 8 = c ∧
      prvEMACHandlerTask_dispatch (xTaskNotifyWait XGMAC_IF_ALL_EVENT w).1 =
        [TaskCall.prvHandleErrorEvents t c] := by
  have hw := prvEMACIRQHanlderCallback_word_err t c ht hc
  obtain ⟨w, hwd⟩ : ∃ w, w = t * 2 ^ 24 + c * 2 ^ 16 + 4 := ⟨_, rfl⟩
  rw [← hwd] at hw
  have hmod : w % 8 = 4 := by omega
  have h4 : w &&& XGMAC_IF_ERR_EVENT = XGMAC_IF_ERR_EVENT :=
    and_of_mod_eight w 4 hmod (by omega)
  have h1 : w &&& XGMAC_IF_RX_EVENT = 0 := and_of_mod_eight w 1 hmod (by omega)
  have h2 : w &&& XGMAC_IF_TX_EVENT = 0 := and_of_mod_eight w 2 hmod (by omega)
  have hs24 : w >>> 24 = t := by
    rw [Nat.shiftRight_eq_div_pow]; omega
  have hs16 : w >>> 16 = t * 2 ^ 8 + c := by
    rw [Nat.shiftRight_eq_div_pow]; omega
  have hlow : (t * 2 ^ 8 + c) &&& 0xFFFF = t * 2 ^ 8 + c :=
    Nat.and_pow_two_sub_one_of_lt_two_pow (show t * 2 ^ 8 + c < 2 ^ 16 by omega)
  have ht8 : t % 2 ^ 8 = t := Nat.mod_eq_of_lt (by omega)
  have hc8 : (t * 2 ^ 8 + c) % 2 ^ 8 = c := by omega
  have he : XGMAC_IF_ERR_EVENT ≠ 0 := by decide
  refine ⟨w, ?_, h4, h1, h2, rfl, hs24, ?_, ?_⟩
  · simp only [prvEMACIRQHanlderCallback, hT, hw, ne_eq, not_false_eq_true, if_true,
      Nat.zero_or]
    simp
  · rw [hs16]; exact hc8
  · simp only [xTaskNotifyWait, prvEMACHandlerTask_dispatch, h4, h1, h2, hs24, hs16, hlow,
      ht8, hc8, he, ne_eq, not_true_eq_false, not_false_eq_true, if_true, if_false,
      List.nil_append]

/-- Witness for C18: after bring-up, an error event of type 3 on channel 5 gives
the word `0x03050004` and the error handler is called with 3 and 5. -/
theorem error_event_round_trip_witness :
    ((3 : Nat) ≤ 255 ∧ (5 : Nat) ≤ 255 ∧ afterReady.xEMACTaskHandle ≠ NULL) ∧
    ∃ w, prvEMACIRQHanlderCallback xgmac_int_status_t.XGMAC_ERR_EVENT
        { err_type := 3, err_ch := 5 } afterReady 0 =
        some { d := afterReady, ulNotifiedValue := w,
               calls := [IsrCall.xTaskNotifyFromISR afterReady.xEMACTaskHandle w] } ∧
      w &&& XGMAC_IF_ERR_EVENT = XGMAC_IF_ERR_EVENT ∧
      w &&& XGMAC_IF_RX_EVENT = 0 ∧ w &&& XGMAC_IF_TX_EVENT = 0 ∧
      (xTaskNotifyWait XGMAC_IF_ALL_EVENT w).1 = w ∧
      w >>> 24 = 3 ∧ (w >>> 16) % 2 ^ 8 = 5 ∧
      prvEMACHandlerTask_dispatch (xTaskNotifyWait XGMAC_IF_ALL_EVENT w).1 =
        [TaskCall.prvHandleErrorEvents 3 5] :=
  ⟨by decide, error_event_round_trip afterReady 3 5 (by decide) (by decide) (by decide)⟩

/-! ## Buffer pool: the effect of a successful call -/

/-- C23. A successful acquire (size within the slot size, lock free, `used_count`
below a capacity that fits 16 bits, `head` in range) returns the address
stored in the slot at `head`, sets `head` to `(head + 1) mod CAPACITY`,
raises `used_count` by one and changes nothing else: `tail`, every slot, the
initialised flag and the memory are as before and the lock is free again.
This holds for the Tx pool and for the Rx pool. -/
theorem acquire_success_effect (cfg : Config) (w : Nat) :
    (∀ st : TxPoolState, w ≤ cfg.TX_BUFFER_SIZE → st.xTxBufSynchSem.held = false →
      cfg.TX_BUFFER_COUNT < 2 ^ 16 → st.pool.usBufUsedCnt < cfg.TX_BUFFER_COUNT →
      st.pool.usHeadIndex < cfg.TX_BUFFER_COUNT →
      pucGetTXBuffer cfg st w =
        (st.pool.pTxBuffer.getD st.pool.usHeadIndex NULL,
          { st with
            pool := { st.pool with
              usHeadIndex := (st.pool.usHeadIndex + 1) % cfg.TX_BUFFER_COUNT
              usBufUsedCnt := st.pool.usBufUsedCnt + 1 }
            xTxBufSynchSem := { held := false } }) ∧
      (st.pool.pTxBuffer.length = cfg.TX_BUFFER_COUNT →
        st.pool.pTxBuffer[st.pool.usHeadIndex]? = some (pucGetTXBuffer cfg st w).1)) ∧
    (∀ st : RxPoolState, w ≤ cfg.RX_BUFFER_SIZE → st.xRxBufSynchSem.held = false →
      cfg.RX_BUFFER_COUNT < 2 ^ 16 → st.pool.usBufUsedCnt < cfg.RX_BUFFER_COUNT →
      st.pool.usHeadIndex < cfg.RX_BUFFER_COUNT →
      pucGetRXBuffer cfg st w =
        (st.pool.pRxBuffer.getD st.pool.usHeadIndex NULL,
          { st with
            pool := { st.pool with
              usHeadIndex := (st.pool.usHeadIndex + 1) % cfg.RX_BUFFER_COUNT
              usBufUsedCnt := st.pool.usBufUsedCnt + 1 }
            xRxBufSynchSem := { held := false } }) ∧
      (st.pool.pRxBuffer.length = cfg.RX_BUFFER_COUNT →
        st.pool.pRxBuffer[st.pool.usHeadIndex]? = some (pucGetRXBuffer cfg st w).1)) := by
  constructor
  · intro st hw hl hc hu hh
    have hget : pucGetTXBuffer cfg st w =
        (st.pool.pTxBuffer.getD st.pool.usHeadIndex NULL,
          { st with
            pool := { st.pool with
              usHeadIndex := (st.pool.usHeadIndex + 1) % cfg.TX_BUFFER_COUNT
              usBufUsedCnt := st.pool.usBufUsedCnt + 1 }
            xTxBufSynchSem := { held := false } }) := by
      unfold pucGetTXBuffer xSemaphoreTake xSemaphoreGive
      rw [Nat.mod_eq_of_lt hc, if_neg (by omega), if_neg (by simp [hl])]
      simp only
      rw [if_neg (by omega),
        Nat.mod_eq_of_lt (show st.pool.usHeadIndex + 1 < 2 ^ 16 by omega),
        Nat.mod_eq_of_lt (show st.pool.usBufUsedCnt + 1 < 2 ^ 16 by omega)]
    refine ⟨hget, fun hlen => ?_⟩
    rw [hget]
    simp only
    rw [List.getD_eq_getElem?_getD, List.getElem?_eq_getElem (by omega)]
    rfl
  · intro st hw hl hc hu hh
    have hget : pucGetRXBuffer cfg st w =
        (st.pool.pRxBuffer.getD st.pool.usHeadIndex NULL,
          { st with
            pool := { st.pool with
              usHeadIndex := (st.pool.usHeadIndex + 1) % cfg.RX_BUFFER_COUNT
              usBufUsedCnt := st.pool.usBufUsedCnt + 1 }
            xRxBufSynchSem := { held := false } }) := by
      unfold pucGetRXBuffer xSemaphoreTake xSemaphoreGive
      rw [Nat.mod_eq_of_lt hc, if_neg (by omega), if_neg (by simp [hl])]
      simp only
      rw [if_neg (by omega),
        Nat.mod_eq_of_lt (show st.pool.usHeadIndex + 1 < 2 ^ 16 by omega),
        Nat.mod_eq_of_lt (show st.pool.usBufUsedCnt + 1 < 2 ^ 16 by omega)]
    refine ⟨hget, fun hlen => ?_⟩
    rw [hget]
    simp only
    rw [List.getD_eq_getElem?_getD, List.getElem?_eq_getElem (by omega)]
    rfl

/-- Witness for C23: the first acquire on a created Tx pool of four slots. -/
theorem acquire_success_effect_witness :
    (16 ≤ tiny.TX_BUFFER_SIZE ∧
      (createdTx tiny 4096 (TxBufferPool tiny) zeroMem).xTxBufSynchSem.held = false ∧
      tiny.TX_BUFFER_COUNT < 2 ^ 16 ∧
      (createdTx tiny 4096 (TxBufferPool tiny) zeroMem).pool.usBufUsedCnt <
        tiny.TX_BUFFER_COUNT ∧
      (createdTx tiny 4096 (TxBufferPool tiny) zeroMem).pool.usHeadIndex <
        tiny.TX_BUFFER_COUNT ∧
      (createdTx tiny 4096 (TxBufferPool tiny) zeroMem).pool.pTxBuffer.length =
        tiny.TX_BUFFER_COUNT) ∧
    (createdTx tiny 4096 (TxBufferPool tiny) zeroMem).pool.pTxBuffer[
      (createdTx tiny 4096 (TxBufferPool tiny) zeroMem).pool.usHeadIndex]? =
      some (pucGetTXBuffer tiny (createdTx tiny 4096 (TxBufferPool tiny) zeroMem) 16).1 ∧
    (pucGetTXBuffer tiny (createdTx tiny 4096 (TxBufferPool tiny) zeroMem) 16).1 = 4096 :=
  ⟨by decide,
    (((acquire_success_effect tiny 16).1 (createdTx tiny 4096 (TxBufferPool tiny) zeroMem)
      (by decide) (by decide) (by decide) (by decide) (by decide)).2 (by decide)),
    by decide⟩

/-- C25 (as amended). Ring invariant.  In every state reached from a created Tx
pool (capacity positive and below `2 ^ 16`) by any sequence of acquires,
releases and lock changes in which no release is given an address whose
`TX_BUFFER_SIZE` bytes meet the pool record itself, whether the calls succeed
or fail, `head` and `tail` are below the capacity, `used_count` is at most the
capacity, `tail` is `head - used_count` modulo the capacity, and `head = tail`
exactly when `used_count` is 0 or the capacity. -/
theorem ring_invariant_reachable (cfg : Config) (h0 : 0 < cfg.TX_BUFFER_COUNT)
    (hc : cfg.TX_BUFFER_COUNT < 2 ^ 16) (base : Nat) (hb : base ≠ NULL)
    (p0 : TxBufferPool_t) (mem : Mem) (es : List TxPoolEvent)
    (hes : ∀ e ∈ es, e.missesPoolRecord cfg) :
    (execTx cfg (createdTx cfg base p0 mem) es).2.pool.usHeadIndex < cfg.TX_BUFFER_COUNT ∧
    (execTx cfg (createdTx cfg base p0 mem) es).2.pool.usTailIndex < cfg.TX_BUFFER_COUNT ∧
    (execTx cfg (createdTx cfg base p0 mem) es).2.pool.usBufUsedCnt ≤ cfg.TX_BUFFER_COUNT ∧
    (((execTx cfg (createdTx cfg base p0 mem) es).2.pool.usHeadIndex : Int) -
        ((execTx cfg (createdTx cfg base p0 mem) es).2.pool.usBufUsedCnt : Int)) %
          (cfg.TX_BUFFER_COUNT : Int) =
      ((execTx cfg (createdTx cfg base p0 mem) es).2.pool.usTailIndex : Int) ∧
    ((execTx cfg (createdTx cfg base p0 mem) es).2.pool.usHeadIndex =
        (execTx cfg (createdTx cfg base p0 mem) es).2.pool.usTailIndex ↔
      (execTx cfg (createdTx cfg base p0 mem) es).2.pool.usBufUsedCnt = 0 ∨
      (execTx cfg (createdTx cfg base p0 mem) es).2.pool.usBufUsedCnt =
        cfg.TX_BUFFER_COUNT) := by
  obtain ⟨h1, h2, h3, -, h5⟩ :=
    execTx_ring cfg hc es _ hes (createdTx_ring cfg h0 base hb p0 mem)
  generalize (execTx cfg (createdTx cfg base p0 mem) es).2.pool = p at h1 h2 h3 h5
  generalize hC : cfg.TX_BUFFER_COUNT = C at h0 hc h1 h2 h3 h5
  have hdm := Nat.div_add_mod (p.usTailIndex + p.usBufUsedCnt) C
  rw [h5] at hdm
  have hq : (p.usTailIndex + p.usBufUsedCnt) / C ≤ 1 := by
    rw [Nat.div_le_iff_le_mul_add_pred h0]
    omega
  generalize (p.usTailIndex + p.usBufUsedCnt) / C = q at hdm hq
  refine ⟨h2, h3, h1, ?_, ?_⟩
  · have e : ((p.usHeadIndex : Int) - (p.usBufUsedCnt : Int)) =
        (p.usTailIndex : Int) + (-(q : Int)) * C := by
      have hz : ((C * q + p.usHeadIndex : Nat) : Int) =
          ((p.usTailIndex + p.usBufUsedCnt : Nat) : Int) := by rw [hdm]
      push_cast at hz
      linarith
    rw [e, Int.add_mul_emod_self]
    exact Int.emod_eq_of_lt (by omega) (by omega)
  · rcases Nat.le_one_iff_eq_zero_or_eq_one.mp hq with hq0 | hq1
    · rw [hq0] at hdm
      constructor
      · intro h; left; omega
      · rintro (h | h)
        · omega
        · omega
    · rw [hq1] at hdm
      constructor
      · intro h; right; omega
      · rintro (h | h)
        · omega
        · omega

/-- Witness for C25: a pool of four slots after two acquires, a release and an
acquire that asks for too many bytes. -/
theorem ring_invariant_reachable_witness :
    (0 < tiny.TX_BUFFER_COUNT ∧ tiny.TX_BUFFER_COUNT < 2 ^ 16 ∧ (4096 : Nat) ≠ NULL ∧
      ∀ e ∈ [TxPoolEvent.get 16, .get 16, .release 4096, .get 17],
        e.missesPoolRecord tiny) ∧
    (execTx tiny (createdTx tiny 4096 (TxBufferPool tiny) zeroMem)
      [.get 16, .get 16, .release 4096, .get 17]).2.pool.usHeadIndex < tiny.TX_BUFFER_COUNT :=
  ⟨by decide,
    (ring_invariant_reachable tiny (by decide) (by decide) 4096 (by decide) (TxBufferPool tiny)
      zeroMem [.get 16, .get 16, .release 4096, .get 17] (by decide)).1⟩

/-- C25, counterexample.  On the pool of `tiny`, whose record lies at address
1024 with `usHeadIndex` at 1056 and `usTailIndex` at 1058: after create and two
acquires, a release of the address 1042 succeeds; its zero-fill of the bytes
1042 to 1057 clears `usHeadIndex` and leaves `usTailIndex` and `usBufUsedCnt`
alone, so the pool ends with `head = 0`, `tail = 1` and `used_count = 1`, and
`head - used_count` is 3 modulo the capacity 4, not `tail`. -/
theorem release_into_record_breaks_ring :
    (execTx tiny (createdTx tiny 4096 (TxBufferPool tiny) zeroMem)
      [.get 16, .get 16, .release 1042]).1 = [.addr 4096, .addr 4112, .code pdPASS] ∧
    (execTx tiny (createdTx tiny 4096 (TxBufferPool tiny) zeroMem)
      [.get 16, .get 16, .release 1042]).2.pool.usHeadIndex = 0 ∧
    (execTx tiny (createdTx tiny 4096 (TxBufferPool tiny) zeroMem)
      [.get 16, .get 16, .release 1042]).2.pool.usTailIndex = 1 ∧
    (execTx tiny (createdTx tiny 4096 (TxBufferPool tiny) zeroMem)
      [.get 16, .get 16, .release 1042]).2.pool.usBufUsedCnt = 1 ∧
    tiny.TX_BUFFER_COUNT = 4 ∧ ((0 : Int) - 1) % 4 = 3 := by
  decide

/-! ## Buffer pool: the lock on the early returns -/

/-- C26. On the code, a call that obtained the pool lock does not always give it
back: an acquire on a full pool (Tx or Rx) returns null, and a release on an
empty pool returns `pdFAIL`, with the lock still held and the pool unchanged.
Only the successful acquire and the successful release return with the lock
free. -/
theorem lock_held_after_early_return (cfg : Config) (w : Nat) :
    (∀ st : TxPoolState, w ≤ cfg.TX_BUFFER_SIZE → st.xTxBufSynchSem.held = false →
      st.pool.usBufUsedCnt = cfg.TX_BUFFER_COUNT % 2 ^ 16 →
      (pucGetTXBuffer cfg st w).1 = NULL ∧
      (pucGetTXBuffer cfg st w).2.xTxBufSynchSem.held = true ∧
      (pucGetTXBuffer cfg st w).2.pool = st.pool) ∧
    (∀ st : RxPoolState, w ≤ cfg.RX_BUFFER_SIZE → st.xRxBufSynchSem.held = false →
      st.pool.usBufUsedCnt = cfg.RX_BUFFER_COUNT % 2 ^ 16 →
      (pucGetRXBuffer cfg st w).1 = NULL ∧
      (pucGetRXBuffer cfg st w).2.xRxBufSynchSem.held = true ∧
      (pucGetRXBuffer cfg st w).2.pool = st.pool) ∧
    (∀ (st : TxPoolState) (a : Nat), st.xTxBufSynchSem.held = false →
      st.pool.usBufUsedCnt = 0 →
      (pucReleaseTXBuffer cfg st a).1 = pdFAIL ∧
      (pucReleaseTXBuffer cfg st a).2.xTxBufSynchSem.held = true ∧
      (pucReleaseTXBuffer cfg st a).2.pool = st.pool) ∧
    (∀ st : TxPoolState, w ≤ cfg.TX_BUFFER_SIZE → st.xTxBufSynchSem.held = false →
      st.pool.usBufUsedCnt ≠ cfg.TX_BUFFER_COUNT % 2 ^ 16 →
      (pucGetTXBuffer cfg st w).2.xTxBufSynchSem.held = false) ∧
    (∀ (st : TxPoolState) (a : Nat), st.xTxBufSynchSem.held = false →
      st.pool.usBufUsedCnt ≠ 0 →
      (pucReleaseTXBuffer cfg st a).2.xTxBufSynchSem.held = false) := by
  refine ⟨?_, ?_, ?_, ?_, ?_⟩
  · intro st hw hl hu
    unfold pucGetTXBuffer xSemaphoreTake
    rw [if_neg (by omega), if_neg (by simp [hl])]
    simp only [hu, if_true, and_self]
  · intro st hw hl hu
    unfold pucGetRXBuffer xSemaphoreTake
    rw [if_neg (by omega), if_neg (by simp [hl])]
    simp only [hu, if_true, and_self]
  · intro st a hl hu
    unfold pucReleaseTXBuffer xSemaphoreTake
    rw [if_neg (by simp [hl])]
    simp only [hu, if_true, and_self]
  · intro st hw hl hu
    unfold pucGetTXBuffer xSemaphoreTake xSemaphoreGive
    rw [if_neg (by omega), if_neg (by simp [hl])]
    simp only [hu, if_false]
  · intro st a hl hu
    unfold pucReleaseTXBuffer xSemaphoreTake xSemaphoreGive
    rw [if_neg (by simp [hl])]
    simp only [hu, if_false]

/-- Witness for C26: a release on a pool that was just created, so that nothing
is in use, returns `pdFAIL` and leaves the lock held. -/
theorem lock_held_after_early_return_witness :
    ((createdTx tiny 4096 (TxBufferPool tiny) zeroMem).xTxBufSynchSem.held = false ∧
      (createdTx tiny 4096 (TxBufferPool tiny) zeroMem).pool.usBufUsedCnt = 0) ∧
    (pucReleaseTXBuffer tiny (createdTx tiny 4096 (TxBufferPool tiny) zeroMem) 4096).1 =
      pdFAIL ∧
    (pucReleaseTXBuffer tiny (createdTx tiny 4096 (TxBufferPool tiny) zeroMem)
      4096).2.xTxBufSynchSem.held = true ∧
    (pucReleaseTXBuffer tiny (createdTx tiny 4096 (TxBufferPool tiny) zeroMem) 4096).2.pool =
      (createdTx tiny 4096 (TxBufferPool tiny) zeroMem).pool :=
  ⟨by decide,
    (lock_held_after_early_return tiny 16).2.2.1
      (createdTx tiny 4096 (TxBufferPool tiny) zeroMem) 4096 (by decide) (by decide)⟩


/-! ## Buffer pool: no double allocation -/

/-- An acquire either returns null and leaves the pool as it was, or takes the
slot at `head`. -/
theorem pucGetTXBuffer_cases (cfg : Config) (hc : cfg.TX_BUFFER_COUNT < 2 ^ 16)
    (st : TxPoolState) (w : Nat) (hr : Ring cfg st.pool) :
    ((pucGetTXBuffer cfg st w).1 = NULL ∧ (pucGetTXBuffer cfg st w).2.pool = st.pool) ∨
    (st.pool.usBufUsedCnt < cfg.TX_BUFFER_COUNT ∧
      (pucGetTXBuffer cfg st w).1 = st.pool.pTxBuffer.getD st.pool.usHeadIndex NULL ∧
      (pucGetTXBuffer cfg st w).2.pool =
        { st.pool with
          usHeadIndex := (st.pool.usHeadIndex + 1) % cfg.TX_BUFFER_COUNT
          usBufUsedCnt := st.pool.usBufUsedCnt + 1 }) := by
  obtain ⟨h1, h2, -, -, -⟩ := hr
  unfold pucGetTXBuffer xSemaphoreTake xSemaphoreGive
  rw [Nat.mod_eq_of_lt hc]
  by_cases hw : w > cfg.TX_BUFFER_SIZE
  · left; simp [hw]
  · rw [if_neg hw]
    by_cases hl : st.xTxBufSynchSem.held = true
    · left; simp [hl]
    · rw [if_neg hl]
      simp only
      by_cases hu : st.pool.usBufUsedCnt = cfg.TX_BUFFER_COUNT
      · left; simp [hu]
      · right
        rw [if_neg hu,
          Nat.mod_eq_of_lt (show st.pool.usHeadIndex + 1 < 2 ^ 16 by omega),
          Nat.mod_eq_of_lt (show st.pool.usBufUsedCnt + 1 < 2 ^ 16 by omega)]
        exact ⟨by omega, rfl, rfl⟩

/-- A release either fails and leaves the pool as it was, or stores the address
in the slot at `tail`. -/
theorem pucReleaseTXBuffer_cases (cfg : Config) (hc : cfg.TX_BUFFER_COUNT < 2 ^ 16)
    (st : TxPoolState) (b : Nat) (hm : missesPoolRecord cfg b) (hr : Ring cfg st.pool) :
    ((pucReleaseTXBuffer cfg st b).1 = pdFAIL ∧ (pucReleaseTXBuffer cfg st b).2.pool = st.pool) ∨
    (0 < st.pool.usBufUsedCnt ∧ (pucReleaseTXBuffer cfg st b).1 = pdPASS ∧
      (pucReleaseTXBuffer cfg st b).2.pool =
        { st.pool with
          pTxBuffer := st.pool.pTxBuffer.set st.pool.usTailIndex b
          usTailIndex := (st.pool.usTailIndex + 1) % cfg.TX_BUFFER_COUNT
          usBufUsedCnt := st.pool.usBufUsedCnt - 1 }) := by
  obtain ⟨h1, -, h3, -, -⟩ := hr
  unfold pucReleaseTXBuffer xSemaphoreTake xSemaphoreGive
  simp only [zeroFill_of_miss cfg st.pool b hm]
  rw [Nat.mod_eq_of_lt hc]
  by_cases hl : st.xTxBufSynchSem.held = true
  · left; simp [hl]
  · rw [if_neg hl]
    simp only
    by_cases hu : st.pool.usBufUsedCnt = 0
    · left; simp [hu]
    · right
      rw [if_neg hu, Nat.mod_eq_of_lt (show st.pool.usTailIndex + 1 < 2 ^ 16 by omega)]
      have : (st.pool.usBufUsedCnt + 2 ^ 16 - 1) % 2 ^ 16 = st.pool.usBufUsedCnt - 1 := by
        omega
      rw [this]
      exact ⟨by omega, rfl, rfl⟩

/-- A successful acquire takes the first of the free slots. -/
theorem freeSlots_get (cfg : Config) (p : TxBufferPool_t) (hr : Ring cfg p)
    (hu : p.usBufUsedCnt < cfg.TX_BUFFER_COUNT) :
    freeSlots cfg p = p.pTxBuffer.getD p.usHeadIndex NULL ::
      freeSlots cfg { p with
        usHeadIndex := (p.usHeadIndex + 1) % cfg.TX_BUFFER_COUNT
        usBufUsedCnt := p.usBufUsedCnt + 1 } := by
  obtain ⟨-, h2, -, -, -⟩ := hr
  unfold freeSlots
  have hn : cfg.TX_BUFFER_COUNT - p.usBufUsedCnt =
      (cfg.TX_BUFFER_COUNT - (p.usBufUsedCnt + 1)) + 1 := by omega
  rw [hn, List.range_succ_eq_map]
  simp only [List.map_cons, List.map_map, Nat.add_zero, Nat.mod_eq_of_lt h2, List.cons.injEq,
    true_and]
  apply List.map_congr_left
  intro k _
  simp only [Function.comp, Nat.succ_eq_add_one]
  rw [Nat.mod_add_mod]
  have e3 : p.usHeadIndex + 1 + k = p.usHeadIndex + (k + 1) := by omega
  rw [e3]

/-- The free slots lie before `tail` in ring order. -/
theorem free_index_ne_tail (C head tail used k : Nat) (h5 : (tail + used) % C = head)
    (ht : tail < C) (hu : 0 < used) (hk : used + k < C) : (head + k) % C ≠ tail := by
  intro h
  rw [← h5, Nat.mod_add_mod] at h
  have h1 : (tail + (used + k)) % C = (tail + 0) % C := by
    rw [← Nat.add_assoc, h, Nat.add_zero, Nat.mod_eq_of_lt ht]
  have h2 : (used + k) % C = 0 % C := Nat.ModEq.add_left_cancel' tail h1
  rw [Nat.zero_mod, Nat.mod_eq_of_lt hk] at h2
  omega

/-- A successful release appends the address to the free slots. -/
theorem freeSlots_release (cfg : Config) (p : TxBufferPool_t) (b : Nat) (hr : Ring cfg p)
    (hu : 0 < p.usBufUsedCnt) :
    freeSlots cfg { p with
        pTxBuffer := p.pTxBuffer.set p.usTailIndex b
        usTailIndex := (p.usTailIndex + 1) % cfg.TX_BUFFER_COUNT
        usBufUsedCnt := p.usBufUsedCnt - 1 } = freeSlots cfg p ++ [b] := by
  obtain ⟨h1, h2, h3, h4, h5⟩ := hr
  unfold freeSlots
  simp only
  have hn : cfg.TX_BUFFER_COUNT - (p.usBufUsedCnt - 1) =
      (cfg.TX_BUFFER_COUNT - p.usBufUsedCnt) + 1 := by omega
  rw [hn, List.range_succ, List.map_append, List.map_singleton]
  congr 1
  · apply List.map_congr_left
    intro k hk
    rw [List.mem_range] at hk
    have hne := free_index_ne_tail cfg.TX_BUFFER_COUNT p.usHeadIndex p.usTailIndex
      p.usBufUsedCnt k h5 h3 hu (by omega)
    rw [List.getD_eq_getElem?_getD, List.getD_eq_getElem?_getD,
      List.getElem?_set_ne (Ne.symm hne)]
  · have hidx : (p.usHeadIndex + (cfg.TX_BUFFER_COUNT - p.usBufUsedCnt)) %
        cfg.TX_BUFFER_COUNT = p.usTailIndex := by
      rw [← h5, Nat.mod_add_mod]
      have : p.usTailIndex + p.usBufUsedCnt + (cfg.TX_BUFFER_COUNT - p.usBufUsedCnt) =
          p.usTailIndex + cfg.TX_BUFFER_COUNT := by omega
      rw [this, Nat.add_mod_right, Nat.mod_eq_of_lt h3]
    rw [hidx, List.getD_eq_getElem?_getD, List.getElem?_set_self (by omega)]
    rfl

/-- The free slots of a created pool are the slot addresses of its region. -/
theorem freeSlots_created (cfg : Config)
    (hw : cfg.TX_BUFFER_COUNT * cfg.TX_BUFFER_SIZE < 2 ^ 32)
    (base : Nat) (hb : base ≠ NULL) (p0 : TxBufferPool_t) (mem : Mem) :
    freeSlots cfg (createdTx cfg base p0 mem).pool = slotAddresses cfg base := by
  simp only [freeSlots, slotAddresses, createdTx, prvCreateTxBufferPool, hb, if_false,
    Nat.sub_zero, Nat.zero_add]
  apply List.map_congr_left
  intro k hk
  rw [List.mem_range] at hk
  rw [Nat.mod_eq_of_lt hk, List.getD_eq_getElem?_getD,
    List.getElem?_map, List.getElem?_range hk]
  have : k * cfg.TX_BUFFER_SIZE ≤ cfg.TX_BUFFER_COUNT * cfg.TX_BUFFER_SIZE :=
    Nat.mul_le_mul_right _ (Nat.le_of_lt hk)
  have hlt : k * cfg.TX_BUFFER_SIZE < 2 ^ 32 := lt_of_le_of_lt this hw
  simp only [Option.map_some', Option.getD_some, Nat.mod_eq_of_lt hlt]

/-- The slot addresses of a region are distinct and none of them is null. -/
theorem slotAddresses_nodup (cfg : Config) (hs : 0 < cfg.TX_BUFFER_SIZE) (base : Nat)
    (hb : base ≠ NULL) :
    (slotAddresses cfg base).Nodup ∧ NULL ∉ slotAddresses cfg base ∧
    (slotAddresses cfg base).length = cfg.TX_BUFFER_COUNT := by
  refine ⟨?_, ?_, by simp [slotAddresses]⟩
  · unfold slotAddresses
    apply List.Nodup.map _ (List.nodup_range _)
    intro i j hij
    simp only at hij
    exact Nat.eq_of_mul_eq_mul_right hs (Nat.add_left_cancel hij)
  · simp only [slotAddresses, List.mem_map, List.mem_range, not_exists, not_and, NULL]
    intro i _ h
    simp only [NULL] at hb
    omega

/-- An acquire keeps the ownership invariant and never returns an outstanding
address. -/
theorem Owned_get (cfg : Config) (hc : cfg.TX_BUFFER_COUNT < 2 ^ 16)
    (hs : 0 < cfg.TX_BUFFER_SIZE) (base : Nat) (hb : base ≠ NULL) (st : TxPoolState)
    (out : List Nat) (w : Nat) (ho : Owned cfg base st out) :
    (pucGetTXBuffer cfg st w).1 ∉ out ∧
    Owned cfg base (pucGetTXBuffer cfg st w).2
      (if (pucGetTXBuffer cfg st w).1 = NULL then out else (pucGetTXBuffer cfg st w).1 :: out) := by
  obtain ⟨hr, hp⟩ := ho
  obtain ⟨hnd, hnull, -⟩ := slotAddresses_nodup cfg hs base hb
  have hring := pucGetTXBuffer_ring cfg hc st w hr
  rcases pucGetTXBuffer_cases cfg hc st w hr with ⟨h1, h2⟩ | ⟨hu, h1, h2⟩
  · refine ⟨?_, hring, ?_⟩
    · rw [h1]
      intro hin
      exact hnull (hp.subset (List.mem_append_right _ hin))
    · rw [if_pos h1, h2]; exact hp
  · have hfree := freeSlots_get cfg st.pool hr hu
    rw [hfree] at hp
    have hnd2 : (st.pool.pTxBuffer.getD st.pool.usHeadIndex NULL ::
        (freeSlots cfg { st.pool with
          usHeadIndex := (st.pool.usHeadIndex + 1) % cfg.TX_BUFFER_COUNT
          usBufUsedCnt := st.pool.usBufUsedCnt + 1 } ++ out)).Nodup :=
      hp.nodup_iff.mpr hnd
    have hne : ¬ (pucGetTXBuffer cfg st w).1 = NULL := by
      rw [h1]
      intro h0
      have hmem : st.pool.pTxBuffer.getD st.pool.usHeadIndex NULL ∈ slotAddresses cfg base :=
        hp.subset (List.mem_cons_self _ _)
      rw [h0] at hmem
      exact hnull hmem
    refine ⟨?_, hring, ?_⟩
    · rw [h1]
      intro hin
      exact (List.nodup_cons.mp hnd2).1 (List.mem_append_right _ hin)
    · rw [if_neg hne, h1, h2]
      exact List.perm_middle.trans hp

/-- A release of an outstanding address keeps the ownership invariant. -/
theorem Owned_release (cfg : Config) (hc : cfg.TX_BUFFER_COUNT < 2 ^ 16) (base : Nat)
    (hreg : regionMissesPoolRecord cfg base)
    (st : TxPoolState) (out : List Nat) (b : Nat) (hin : b ∈ out)
    (ho : Owned cfg base st out) :
    Owned cfg base (pucReleaseTXBuffer cfg st b).2
      (if (pucReleaseTXBuffer cfg st b).1 = pdPASS then out.erase b else out) := by
  obtain ⟨hr, hp⟩ := ho
  have hm : missesPoolRecord cfg b := by
    have hb : b ∈ slotAddresses cfg base := hp.subset (List.mem_append_right _ hin)
    simp only [slotAddresses, List.mem_map, List.mem_range] at hb
    obtain ⟨i, hi, rfl⟩ := hb
    exact isSlot_missesPoolRecord cfg base _ hreg ⟨i, hi, rfl⟩
  have hring := pucReleaseTXBuffer_ring cfg hc st b hm hr
  rcases pucReleaseTXBuffer_cases cfg hc st b hm hr with ⟨h1, h2⟩ | ⟨hu, h1, h2⟩
  · refine ⟨hring, ?_⟩
    rw [if_neg (by rw [h1]; decide), h2]
    exact hp
  · refine ⟨hring, ?_⟩
    rw [if_pos h1, h2, freeSlots_release cfg st.pool b hr hu, List.append_assoc,
      List.singleton_append]
    exact (List.Perm.append_left _ (List.perm_cons_erase hin).symm).trans hp

/-- Running a sequence with the outstanding addresses tracked ends in the state
that the plain run ends in, and keeps the ownership invariant. -/
theorem execTxOwned_spec (cfg : Config) (hc : cfg.TX_BUFFER_COUNT < 2 ^ 16)
    (hs : 0 < cfg.TX_BUFFER_SIZE) (base : Nat) (hb : base ≠ NULL)
    (hreg : regionMissesPoolRecord cfg base) :
    ∀ (es : List TxPoolEvent) (st : TxPoolState) (out : List Nat) (st1 : TxPoolState)
      (out1 : List Nat), Owned cfg base st out →
      execTxOwned cfg st out es = some (st1, out1) →
      st1 = (execTx cfg st es).2 ∧ Owned cfg base st1 out1 := by
  intro es
  induction es with
  | nil =>
    intro st out st1 out1 ho h
    simp only [execTxOwned, Option.some.injEq, Prod.mk.injEq] at h
    obtain ⟨rfl, rfl⟩ := h
    exact ⟨rfl, ho⟩
  | cons e es ih =>
    intro st out st1 out1 ho h
    cases e with
    | get w =>
      simp only [execTxOwned] at h
      simp only [execTx, TxPoolEvent.exec]
      exact ih _ _ st1 out1 (Owned_get cfg hc hs base hb st out w ho).2 h
    | release b =>
      simp only [execTxOwned] at h
      simp only [execTx, TxPoolEvent.exec]
      by_cases hin : b ∈ out
      · rw [if_pos hin] at h
        exact ih _ _ st1 out1 (Owned_release cfg hc base hreg st out b hin ho) h
      · rw [if_neg hin] at h
        exact absurd h (by simp)
    | lock l =>
      simp only [execTxOwned] at h
      simp only [execTx, TxPoolEvent.exec]
      exact ih _ _ st1 out1 ho h

/-- C27. No double allocation.  From a created Tx pool (capacity positive and
below `2 ^ 16`, slots of positive size in a region that does not wrap around
32 bits and, coming from the allocator, does not overlap the pool record),
after every sequence of acquires, releases and lock changes in which
each release is given an outstanding address, the free slots (the
`CAPACITY - used_count` slots starting at `head`) together with the
outstanding addresses are the `CAPACITY` distinct slot addresses of the
region, each exactly once, and the next acquire does not return an
outstanding address. -/
theorem no_double_allocation (cfg : Config) (h0 : 0 < cfg.TX_BUFFER_COUNT)
    (hc : cfg.TX_BUFFER_COUNT < 2 ^ 16) (hs : 0 < cfg.TX_BUFFER_SIZE)
    (hw : cfg.TX_BUFFER_COUNT * cfg.TX_BUFFER_SIZE < 2 ^ 32) (base : Nat) (hb : base ≠ NULL)
    (hreg : regionMissesPoolRecord cfg base)
    (p0 : TxBufferPool_t) (mem : Mem) (es : List TxPoolEvent) (st : TxPoolState)
    (out : List Nat)
    (hrun : execTxOwned cfg (createdTx cfg base p0 mem) [] es = some (st, out)) :
    st = (execTx cfg (createdTx cfg base p0 mem) es).2 ∧
    (slotAddresses cfg base).Nodup ∧ (slotAddresses cfg base).length = cfg.TX_BUFFER_COUNT ∧
    (freeSlots cfg st.pool ++ out).Perm (slotAddresses cfg base) ∧
    (freeSlots cfg st.pool ++ out).Nodup ∧
    out.length = st.pool.usBufUsedCnt ∧
    ∀ w, (pucGetTXBuffer cfg st w).1 ∉ out := by
  obtain ⟨hnd, -, hlen⟩ := slotAddresses_nodup cfg hs base hb
  have hstart : Owned cfg base (createdTx cfg base p0 mem) [] := by
    refine ⟨createdTx_ring cfg h0 base hb p0 mem, ?_⟩
    rw [List.append_nil, freeSlots_created cfg hw base hb p0 mem]
  obtain ⟨hst, ho⟩ := execTxOwned_spec cfg hc hs base hb hreg es _ _ st out hstart hrun
  refine ⟨hst, hnd, hlen, ho.2, ho.2.nodup_iff.mpr hnd, ?_,
    fun w => (Owned_get cfg hc hs base hb st out w ho).1⟩
  have hl := ho.2.length_eq
  rw [List.length_append, hlen] at hl
  have hf : (freeSlots cfg st.pool).length = cfg.TX_BUFFER_COUNT - st.pool.usBufUsedCnt := by
    simp [freeSlots]
  have := ho.1.1
  omega

/-- Witness for C27: on a pool of four slots at 4096, two acquires, a release of
the first address and another acquire leave 4112 and 4128 outstanding. -/
theorem no_double_allocation_witness :
    (0 < tiny.TX_BUFFER_COUNT ∧ tiny.TX_BUFFER_COUNT < 2 ^ 16 ∧ 0 < tiny.TX_BUFFER_SIZE ∧
      tiny.TX_BUFFER_COUNT * tiny.TX_BUFFER_SIZE < 2 ^ 32 ∧ (4096 : Nat) ≠ NULL ∧
      regionMissesPoolRecord tiny 4096) ∧
    ∃ st out, execTxOwned tiny (createdTx tiny 4096 (TxBufferPool tiny) zeroMem) []
        [.get 16, .get 16, .release 4096, .get 16] = some (st, out) ∧
      out = [4128, 4112] ∧
      (freeSlots tiny st.pool ++ out).Perm (slotAddresses tiny 4096) ∧
      ∀ w, (pucGetTXBuffer tiny st w).1 ∉ out := by
  refine ⟨by decide, ?_⟩
  have hsome : (execTxOwned tiny (createdTx tiny 4096 (TxBufferPool tiny) zeroMem) []
      [.get 16, .get 16, .release 4096, .get 16]).map (fun r => r.2) = some [4128, 4112] := by
    decide
  cases h : execTxOwned tiny (createdTx tiny 4096 (TxBufferPool tiny) zeroMem) []
      [.get 16, .get 16, .release 4096, .get 16] with
  | none => rw [h] at hsome; exact absurd hsome (by simp)
  | some r =>
    obtain ⟨st, out⟩ := r
    rw [h] at hsome
    simp only [Option.map_some', Option.some.injEq] at hsome
    have hn := no_double_allocation tiny (by decide) (by decide) (by decide) (by decide) 4096
      (by decide) (by decide) (TxBufferPool tiny) zeroMem [.get 16, .get 16, .release 4096, .get 16]
      st out h
    exact ⟨st, out, rfl, hsome, hn.2.2.2.1, hn.2.2.2.2.2.2⟩


/-! ## DMA transfer setup: claim -/

/-- The loop of `dma_setup_transfer` ends without an early return when the list
holds a block for every pass, the source width is below 64 and every block
holds between one and `MAX_BLOCK_SIZE + 1` units of the source width. -/
theorem dma_setup_transfer_loop_ok (k : DmaConsts) (kc : DmaCtlConsts) (hdma : dma_ch_cntxt)
    (num_xfers src_width dst_width : Nat) (hsw : src_width < 64) :
    ∀ (n i : Nat) (l : List dma_xfer_cfg_t) (acc : List dma_channel_reg_list),
      n ≤ l.length →
      (∀ c ∈ l, c.blk_size < 2 ^ 32 ∧ 2 ^ src_width ≤ c.blk_size ∧
        c.blk_size / 2 ^ src_width ≤ MAX_BLOCK_SIZE + 1) →
      (dma_setup_transfer_loop k kc hdma num_xfers src_width dst_width n i l acc).1 = none := by
  have hpow : (1 <<< src_width) % 2 ^ 64 = 2 ^ src_width := by
    rw [Nat.shiftLeft_eq, Nat.one_mul]
    exact Nat.mod_eq_of_lt (Nat.pow_lt_pow_right (by decide) hsw)
  have hpos : 0 < 2 ^ src_width := Nat.pow_pos (by decide)
  intro n
  induction n with
  | zero => intro i l acc _ _; rfl
  | succ n ih =>
    intro i l acc hlen hv
    cases l with
    | nil => simp at hlen
    | cons c next =>
      obtain ⟨h1, h2, h3⟩ := hv c (List.mem_cons_self _ _)
      have hq : 0 < c.blk_size / 2 ^ src_width := Nat.div_pos h2 hpos
      have hbt : (c.blk_size % 2 ^ 32 / 2 ^ src_width + 2 ^ 64 - 1) % 2 ^ 64 =
          c.blk_size / 2 ^ src_width - 1 := by
        rw [Nat.mod_eq_of_lt h1]
        simp only [MAX_BLOCK_SIZE] at h3
        omega
      have hle : ¬ c.blk_size / 2 ^ src_width - 1 > MAX_BLOCK_SIZE := by
        simp only [MAX_BLOCK_SIZE] at h3 ⊢
        omega
      rw [dma_setup_transfer_loop]
      simp only [hpow, hbt, hle, if_false, (Nat.ne_of_gt hpos)]
      exact ih _ _ _ (by simpa using hlen)
        (fun x hx => hv x (List.mem_cons_of_mem _ hx))

/-- C21. The codes of `dma_setup_transfer`, with distinct error numbers `EIO` and
`EFAULT`: a null handle gives `-EINVAL`; with at most `MAX_LLI_PER_CHANNEL`
blocks asked for, a null transfer list gives `-EFAULT`; a channel that is not
open gives `-EIO`, which is not the documented `-EFAULT`; an open channel that
is not idle gives `-EBUSY`; an open idle channel with its descriptor area gives
0 for a list that holds every block asked for with valid sizes.  More than
`MAX_LLI_PER_CHANNEL` blocks give `-EINVAL` whatever the handle points to. -/
theorem dma_setup_transfer_codes (k : DmaConsts) (kc : DmaCtlConsts) (c : dma_ch_cntxt)
    (xfer_list : List dma_xfer_cfg_t) (num_xfers src_width dst_width : Nat)
    (hne : k.EIO ≠ k.EFAULT) :
    (dma_setup_transfer k kc none xfer_list num_xfers src_width dst_width).1 = -k.EINVAL ∧
    (MAX_LLI_PER_CHANNEL < num_xfers →
      (dma_setup_transfer k kc (some c) xfer_list num_xfers src_width dst_width).1 =
        -k.EINVAL) ∧
    (num_xfers ≤ MAX_LLI_PER_CHANNEL →
      (xfer_list = [] →
        (dma_setup_transfer k kc (some c) xfer_list num_xfers src_width dst_width).1 =
          -k.EFAULT) ∧
      (xfer_list ≠ [] → c.is_open ≠ 1 →
        (dma_setup_transfer k kc (some c) xfer_list num_xfers src_width dst_width).1 =
          - k.EIO ∧
        (dma_setup_transfer k kc (some c) xfer_list num_xfers src_width dst_width).1 ≠
          -k.EFAULT) ∧
      (xfer_list ≠ [] → c.is_open = 1 → c.channel_state ≠ DMA_CH_IDLE →
        (dma_setup_transfer k kc (some c) xfer_list num_xfers src_width dst_width).1 =
          -k.EBUSY) ∧
      (xfer_list ≠ [] → c.is_open = 1 → c.channel_state = DMA_CH_IDLE →
        c.linked_list_base ≠ NULL → num_xfers ≤ xfer_list.length → src_width < 64 →
        (∀ x ∈ xfer_list, x.blk_size < 2 ^ 32 ∧ 2 ^ src_width ≤ x.blk_size ∧
          x.blk_size / 2 ^ src_width ≤ MAX_BLOCK_SIZE + 1) →
        (dma_setup_transfer k kc (some c) xfer_list num_xfers src_width dst_width).1 = 0 ∧
        (dma_setup_transfer k kc (some c) xfer_list num_xfers src_width dst_width).2.1 =
          some { c with interrupt_en := kc.TFR_DONE_MASK })) := by
  refine ⟨rfl, ?_, ?_⟩
  · intro hn
    simp [dma_setup_transfer, hn]
  · intro hn
    have hn1 : ¬ num_xfers > MAX_LLI_PER_CHANNEL := by omega
    refine ⟨?_, ?_, ?_, ?_⟩
    · intro hx
      simp [dma_setup_transfer, hn1, hx]
    · intro hx ho
      have h : (dma_setup_transfer k kc (some c) xfer_list num_xfers src_width dst_width).1 =
          - k.EIO := by
        simp [dma_setup_transfer, hn1, hx, ho]
      refine ⟨h, ?_⟩
      rw [h]
      simpa using hne
    · intro hx ho hs
      simp [dma_setup_transfer, hn1, hx, ho, hs]
    · intro hx ho hs hb hlen hsw hv
      have hl := dma_setup_transfer_loop_ok k kc c num_xfers src_width dst_width hsw
        num_xfers 0 xfer_list [] hlen hv
      simp only [dma_setup_transfer, hn1, hx, ho, hs, hb, if_false, ne_eq, not_true_eq_false]
      generalize dma_setup_transfer_loop k kc c num_xfers src_width dst_width num_xfers 0
        xfer_list [] = r at hl
      obtain ⟨r1, r2⟩ := r
      simp only at hl
      subst hl
      exact ⟨rfl, rfl⟩

/-- Witness for C21: setting up a transfer on a channel that was never opened
returns `-5` (`-EIO`), not `-14` (`-EFAULT`). -/
theorem dma_setup_transfer_codes_witness :
    ( dmaConsts0.EIO ≠ dmaConsts0.EFAULT ∧ 1 ≤ MAX_LLI_PER_CHANNEL ∧ dmaXfer0 ≠ [] ∧
      dmaClosed.is_open ≠ 1) ∧
    (dma_setup_transfer dmaConsts0 dmaCtlConsts0 (some dmaClosed) dmaXfer0 1 2 2).1 = -5 ∧
    (dma_setup_transfer dmaConsts0 dmaCtlConsts0 (some dmaClosed) dmaXfer0 1 2 2).1 ≠ -14 :=
  ⟨by decide,
    ((dma_setup_transfer_codes dmaConsts0 dmaCtlConsts0 dmaClosed dmaXfer0 1 2 2
      (by decide)).2.2 (by decide)).2.1 (by decide) (by decide)⟩


/-! ## Interrupt registration and dispatch: claims -/

/-- C22. On the code, with a callback table of `MAX_SPI_HPU_INTERRUPT` entries:
registration returns `ERR_SPI_ID` for an id above `MAX_HPU_SPI_INTERRUPT` and
`ERR_INTERRUPT_CALLBACK` for a null callback, the table unchanged in both
cases; for an id below the table size and a callback that is not null it
returns `ERR_OK`, the handler then calls that callback with that data, and the
entries of all other ids are unchanged.  For the id `MAX_HPU_SPI_INTERRUPT`
itself it returns `ERR_OK` too, but the write falls outside the table and the
handler calls no callback for that id. -/
theorem register_then_dispatch (id cb data redis : Nat) (tbl : List interrupt_handler_t)
    (hlen : tbl.length = MAX_SPI_HPU_INTERRUPT) :
    (MAX_HPU_SPI_INTERRUPT < id →
      interrupt_register_isr id cb data tbl =
        { ret := socfpga_interrupt_err_t.ERR_SPI_ID, interrupt_callbacks := tbl,
          outOfBounds := none }) ∧
    (id ≤ MAX_HPU_SPI_INTERRUPT → cb = 0 →
      interrupt_register_isr id cb data tbl =
        { ret := socfpga_interrupt_err_t.ERR_INTERRUPT_CALLBACK, interrupt_callbacks := tbl,
          outOfBounds := none }) ∧
    (id < MAX_SPI_HPU_INTERRUPT → cb ≠ 0 →
      (interrupt_register_isr id cb data tbl).ret = socfpga_interrupt_err_t.ERR_OK ∧
      (interrupt_register_isr id cb data tbl).outOfBounds = none ∧
      interrupt_irq_handler id redis true
          (interrupt_register_isr id cb data tbl).interrupt_callbacks =
        some [IrqCall.gic_clear_int_pending id redis true, IrqCall.callback cb data,
          IrqCall.gic_enable_interrupts] ∧
      ∀ j, j ≠ id →
        (interrupt_register_isr id cb data tbl).interrupt_callbacks[j]? = tbl[j]?) ∧
    (id = MAX_HPU_SPI_INTERRUPT → cb ≠ 0 →
      interrupt_register_isr id cb data tbl =
        { ret := socfpga_interrupt_err_t.ERR_OK, interrupt_callbacks := tbl,
          outOfBounds := some (id, { callback := cb, data := data }) } ∧
      interrupt_irq_handler id redis true
          (interrupt_register_isr id cb data tbl).interrupt_callbacks =
        some [IrqCall.gic_clear_int_pending id redis true, IrqCall.gic_enable_interrupts]) := by
  refine ⟨?_, ?_, ?_, ?_⟩
  · intro h
    simp [interrupt_register_isr, h]
  · intro h hc
    simp [interrupt_register_isr, Nat.not_lt.mpr h, hc]
  · intro h hc
    have h1 : ¬ id > MAX_HPU_SPI_INTERRUPT := by
      simp only [MAX_HPU_SPI_INTERRUPT, MAX_SPI_HPU_INTERRUPT] at h ⊢
      omega
    have h2 : id < tbl.length := by rw [hlen]; exact h
    have hr : interrupt_register_isr id cb data tbl =
        { ret := socfpga_interrupt_err_t.ERR_OK
          interrupt_callbacks := tbl.set id { callback := cb, data := data }
          outOfBounds := none } := by
      simp [interrupt_register_isr, h1, hc, h2]
    rw [hr]
    refine ⟨rfl, rfl, ?_, ?_⟩
    · simp only [interrupt_irq_handler, h, Bool.not_eq_true, Bool.true_eq_false, if_false,
        if_true]
      rw [List.getElem?_set_self h2]
      simp
    · intro j hj
      simp only
      rw [List.getElem?_set_ne (Ne.symm hj)]
  · intro h hc
    have h1 : ¬ id > MAX_HPU_SPI_INTERRUPT := by omega
    have h2 : ¬ id < tbl.length := by
      rw [hlen, h]; decide
    have hr : interrupt_register_isr id cb data tbl =
        { ret := socfpga_interrupt_err_t.ERR_OK, interrupt_callbacks := tbl,
          outOfBounds := some (id, { callback := cb, data := data }) } := by
      simp [interrupt_register_isr, h1, hc, h2]
    rw [hr]
    refine ⟨rfl, ?_⟩
    subst h
    simp [interrupt_irq_handler, MAX_HPU_SPI_INTERRUPT, MAX_SPI_HPU_INTERRUPT]

/-- Witness for C22: on the initial table, the id 274 with a callback at 100 is
accepted, the table stays as it was and the handler calls no callback. -/
theorem register_then_dispatch_witness :
    ((interrupt_callbacks_init 50).length = MAX_SPI_HPU_INTERRUPT ∧
      (274 : Nat) = MAX_HPU_SPI_INTERRUPT ∧ (100 : Nat) ≠ 0) ∧
    interrupt_register_isr 274 100 7 (interrupt_callbacks_init 50) =
      { ret := socfpga_interrupt_err_t.ERR_OK,
        interrupt_callbacks := interrupt_callbacks_init 50,
        outOfBounds := some (274, { callback := 100, data := 7 }) } ∧
    interrupt_irq_handler 274 0 true
        (interrupt_register_isr 274 100 7 (interrupt_callbacks_init 50)).interrupt_callbacks =
      some [IrqCall.gic_clear_int_pending 274 0 true, IrqCall.gic_enable_interrupts] :=
  ⟨⟨List.length_replicate _ _, rfl, by decide⟩,
    (register_then_dispatch 274 100 7 0 (interrupt_callbacks_init 50)
      (List.length_replicate _ _)).2.2.2 rfl (by decide)⟩

/-- C28. On the code, every id that registration accepts is at most
`MAX_HPU_SPI_INTERRUPT = 274`, but not every one is an index of the callback
table: the id 274 is accepted (`ERR_OK`) although the table has the indices 0
to 273, so the write falls outside the table and the handler cannot dispatch
that id; every accepted id below 274 is written inside the table. -/
theorem register_accepts_id_past_table (id cb data redis : Nat)
    (tbl : List interrupt_handler_t) (hlen : tbl.length = MAX_SPI_HPU_INTERRUPT)
    (hc : cb ≠ 0) :
    ((interrupt_register_isr id cb data tbl).ret = socfpga_interrupt_err_t.ERR_OK ↔
      id ≤ MAX_SPI_HPU_INTERRUPT) ∧
    (id < MAX_SPI_HPU_INTERRUPT → (interrupt_register_isr id cb data tbl).outOfBounds = none) ∧
    (interrupt_register_isr MAX_SPI_HPU_INTERRUPT cb data tbl).ret =
      socfpga_interrupt_err_t.ERR_OK ∧
    ¬ MAX_SPI_HPU_INTERRUPT < tbl.length ∧
    (interrupt_register_isr MAX_SPI_HPU_INTERRUPT cb data tbl).outOfBounds =
      some (MAX_SPI_HPU_INTERRUPT, { callback := cb, data := data }) ∧
    ∀ t : List interrupt_handler_t,
      interrupt_irq_handler MAX_SPI_HPU_INTERRUPT redis true t =
        some [IrqCall.gic_clear_int_pending MAX_SPI_HPU_INTERRUPT redis true,
          IrqCall.gic_enable_interrupts] := by
  have h274 : ¬ MAX_SPI_HPU_INTERRUPT > MAX_HPU_SPI_INTERRUPT := by decide
  have hnl : ¬ MAX_SPI_HPU_INTERRUPT < tbl.length := by rw [hlen]; exact Nat.lt_irrefl _
  refine ⟨?_, ?_, ?_, hnl, ?_, ?_⟩
  · by_cases h : id > MAX_HPU_SPI_INTERRUPT
    · have h' : ¬ id ≤ MAX_SPI_HPU_INTERRUPT := by
        simp only [MAX_HPU_SPI_INTERRUPT, MAX_SPI_HPU_INTERRUPT] at h ⊢
        omega
      simp [interrupt_register_isr, h, h']
    · have h' : id ≤ MAX_SPI_HPU_INTERRUPT := by
        simp only [MAX_HPU_SPI_INTERRUPT, MAX_SPI_HPU_INTERRUPT] at h ⊢
        omega
      simp only [interrupt_register_isr, h, hc, if_false, h', iff_true]
      split_ifs <;> rfl
  · intro h
    have h1 : ¬ id > MAX_HPU_SPI_INTERRUPT := by
      simp only [MAX_HPU_SPI_INTERRUPT, MAX_SPI_HPU_INTERRUPT] at h ⊢
      omega
    have h2 : id < tbl.length := by rw [hlen]; exact h
    simp [interrupt_register_isr, h1, hc, h2]
  · simp [interrupt_register_isr, h274, hc, hnl]
  · simp [interrupt_register_isr, h274, hc, hnl]
  · intro t
    simp [interrupt_irq_handler, MAX_SPI_HPU_INTERRUPT]

/-- Witness for C28: the id 274 on the initial table of 274 entries. -/
theorem register_accepts_id_past_table_witness :
    ((interrupt_callbacks_init 50).length = MAX_SPI_HPU_INTERRUPT ∧ (100 : Nat) ≠ 0) ∧
    (interrupt_register_isr MAX_SPI_HPU_INTERRUPT 100 7 (interrupt_callbacks_init 50)).ret =
      socfpga_interrupt_err_t.ERR_OK ∧
    ¬ MAX_SPI_HPU_INTERRUPT < (interrupt_callbacks_init 50).length :=
  ⟨⟨List.length_replicate _ _, by decide⟩,
    (register_accepts_id_past_table 0 100 7 0 (interrupt_callbacks_init 50)
      (List.length_replicate _ _) (by decide)).2.2.1,
    (register_accepts_id_past_table 0 100 7 0 (interrupt_callbacks_init 50)
      (List.length_replicate _ _) (by decide)).2.2.2.1⟩


/-! ## Interrupt callback and deferred task: fields that persist -/

theorem shiftRight_or (a b n : Nat) : (a ||| b) >>> n = a >>> n ||| b >>> n := by
  apply Nat.eq_of_testBit_eq
  intro i
  simp only [Nat.testBit_shiftRight, Nat.testBit_or]

theorem shiftRight_and (a b n : Nat) : (a &&& b) >>> n = a >>> n &&& b >>> n := by
  apply Nat.eq_of_testBit_eq
  intro i
  simp only [Nat.testBit_shiftRight, Nat.testBit_and]

theorem or_mod_two_pow (a b n : Nat) : (a ||| b) % 2 ^ n = a % 2 ^ n ||| b % 2 ^ n := by
  apply Nat.eq_of_testBit_eq
  intro i
  simp only [Nat.testBit_mod_two_pow, Nat.testBit_or, Bool.and_or_distrib_left]

theorem and_mod_two_pow (a b n : Nat) : (a &&& b) % 2 ^ n = a % 2 ^ n &&& b % 2 ^ n := by
  apply Nat.eq_of_testBit_eq
  intro i
  simp only [Nat.testBit_mod_two_pow, Nat.testBit_and]
  cases decide (i < n) <;> simp

/-- A pass of the deferred task on a word whose low three bits are `100` calls
the error handler only, with bits 24 to 31 as the type and bits 16 to 23 as
the channel. -/
theorem prvEMACHandlerTask_dispatch_err (v : Nat) (hv : v % 8 = 4) :
    prvEMACHandlerTask_dispatch v =
      [TaskCall.prvHandleErrorEvents ((v >>> 24) % 2 ^ 8) ((v >>> 16) % 2 ^ 8)] := by
  have h4 : v &&& XGMAC_IF_ERR_EVENT = XGMAC_IF_ERR_EVENT := and_of_mod_eight v 4 hv (by omega)
  have h1 : v &&& XGMAC_IF_RX_EVENT = 0 := and_of_mod_eight v 1 hv (by omega)
  have h2 : v &&& XGMAC_IF_TX_EVENT = 0 := and_of_mod_eight v 2 hv (by omega)
  have he : XGMAC_IF_ERR_EVENT ≠ 0 := by decide
  have hlow : ((v >>> 16) &&& 0xFFFF) % 2 ^ 8 = (v >>> 16) % 2 ^ 8 := by
    have := Nat.and_pow_two_sub_one_eq_mod (v >>> 16) 16
    have e : (0xFFFF : Nat) = 2 ^ 16 - 1 := by decide
    rw [e, this]
    exact Nat.mod_mod_of_dvd _ (by decide)
  simp only [prvEMACHandlerTask_dispatch, h4, h1, h2, he, hlow, ne_eq, not_true_eq_false,
    not_false_eq_true, if_true, if_false, List.nil_append]

/-- The notification value that the wait of the task keeps after an error event
of type `t` and channel `c` on a clear value: the event bits are gone and the
two fields stay. -/
theorem xTaskNotifyWait_keeps_fields (t c : Nat) (ht : t ≤ 255) (hc : c ≤ 255) :
    (xTaskNotifyWait XGMAC_IF_ALL_EVENT (t * 2 ^ 24 + c * 2 ^ 16 + 4)).2 =
      t * 2 ^ 24 + c * 2 ^ 16 := by
  obtain ⟨w, hw⟩ : ∃ w, w = t * 2 ^ 24 + c * 2 ^ 16 + 4 := ⟨_, rfl⟩
  rw [← hw]
  have hM : (2 ^ 32 - 1) ^^^ (XGMAC_IF_ALL_EVENT % 2 ^ 32) = 4294967288 := by decide
  simp only [xTaskNotifyWait, hM]
  have hlt : w &&& 4294967288 < 2 ^ 32 := Nat.and_lt_two_pow w (by decide)
  have e255 : (255 : Nat) = 2 ^ 8 - 1 := by decide
  have h24 : (w &&& 4294967288) >>> 24 = t := by
    rw [shiftRight_and]
    have e1 : w >>> 24 = t := by rw [Nat.shiftRight_eq_div_pow]; omega
    have e2 : (4294967288 : Nat) >>> 24 = 255 := by decide
    rw [e1, e2, e255]
    exact Nat.and_pow_two_sub_one_of_lt_two_pow (by omega)
  have h16 : ((w &&& 4294967288) >>> 16) % 2 ^ 8 = c := by
    rw [shiftRight_and, and_mod_two_pow]
    have e1 : (w >>> 16) % 2 ^ 8 = c := by rw [Nat.shiftRight_eq_div_pow]; omega
    have e2 : ((4294967288 : Nat) >>> 16) % 2 ^ 8 = 255 := by decide
    rw [e1, e2, e255]
    exact Nat.and_pow_two_sub_one_of_lt_two_pow (by omega)
  have h0 : (w &&& 4294967288) % 2 ^ 16 = 0 := by
    rw [and_mod_two_pow]
    have e1 : w % 2 ^ 16 = 4 := by omega
    rw [e1]
    decide
  generalize w &&& 4294967288 = k at hlt h24 h16 h0
  rw [Nat.shiftRight_eq_div_pow] at h24 h16
  omega

/-- C29. The wait of the deferred task clears only the event bits 1, 2 and 4, so
the type and channel fields of an error event stay in the notification value.
For two error events `(t1, c1)` and `(t2, c2)`, all at most 255, handled in two
separate wakes starting from a clear value: the first wake calls the error
handler with `(t1, c1)` and keeps `t1 << 24 | c1 << 16`; the second event is
ORed onto that, and the second wake calls the error handler with
`(t1 ||| t2, c1 ||| c2)`, which differs from `(t2, c2)` whenever the first
event had a bit that the second has not. -/
theorem error_fields_persist (d : Driver) (t1 c1 t2 c2 : Nat) (ht1 : t1 ≤ 255)
    (hc1 : c1 ≤ 255) (ht2 : t2 ≤ 255) (hc2 : c2 ≤ 255) (hT : d.xEMACTaskHandle ≠ NULL) :
    ∃ v1 v2 w2,
      prvEMACIRQHanlderCallback xgmac_int_status_t.XGMAC_ERR_EVENT
          { err_type := t1, err_ch := c1 } d 0 =
        some { d := d, ulNotifiedValue := v1,
               calls := [IsrCall.xTaskNotifyFromISR d.xEMACTaskHandle v1] } ∧
      prvEMACHandlerTask_dispatch (xTaskNotifyWait XGMAC_IF_ALL_EVENT v1).1 =
        [TaskCall.prvHandleErrorEvents t1 c1] ∧
      (xTaskNotifyWait XGMAC_IF_ALL_EVENT v1).2 = t1 * 2 ^ 24 + c1 * 2 ^ 16 ∧
      prvEMACIRQHanlderCallback xgmac_int_status_t.XGMAC_ERR_EVENT
          { err_type := t2, err_ch := c2 } d (xTaskNotifyWait XGMAC_IF_ALL_EVENT v1).2 =
        some { d := d, ulNotifiedValue := v2,
               calls := [IsrCall.xTaskNotifyFromISR d.xEMACTaskHandle w2] } ∧
      w2 = t2 * 2 ^ 24 + c2 * 2 ^ 16 + 4 ∧
      prvEMACHandlerTask_dispatch (xTaskNotifyWait XGMAC_IF_ALL_EVENT v2).1 =
        [TaskCall.prvHandleErrorEvents (t1 ||| t2) (c1 ||| c2)] ∧
      ((t1 ||| t2 ≠ t2 ∨ c1 ||| c2 ≠ c2) →
        prvEMACHandlerTask_dispatch (xTaskNotifyWait XGMAC_IF_ALL_EVENT v2).1 ≠
          [TaskCall.prvHandleErrorEvents t2 c2]) := by
  have hw1 := prvEMACIRQHanlderCallback_word_err t1 c1 ht1 hc1
  have hw2 := prvEMACIRQHanlderCallback_word_err t2 c2 ht2 hc2
  have hk := xTaskNotifyWait_keeps_fields t1 c1 ht1 hc1
  obtain ⟨w1, hw1d⟩ : ∃ w, w = t1 * 2 ^ 24 + c1 * 2 ^ 16 + 4 := ⟨_, rfl⟩
  obtain ⟨w2, hw2d⟩ : ∃ w, w = t2 * 2 ^ 24 + c2 * 2 ^ 16 + 4 := ⟨_, rfl⟩
  obtain ⟨k1, hk1d⟩ : ∃ k, k = t1 * 2 ^ 24 + c1 * 2 ^ 16 := ⟨_, rfl⟩
  rw [← hw1d] at hw1 hk
  rw [← hw2d] at hw2
  rw [← hk1d] at hk
  have hd1 : prvEMACHandlerTask_dispatch w1 = [TaskCall.prvHandleErrorEvents t1 c1] := by
    rw [prvEMACHandlerTask_dispatch_err w1 (by omega), Nat.shiftRight_eq_div_pow,
      Nat.shiftRight_eq_div_pow]
    have e1 : w1 / 2 ^ 24 % 2 ^ 8 = t1 := by omega
    have e2 : w1 / 2 ^ 16 % 2 ^ 8 = c1 := by omega
    rw [e1, e2]
  have hto : t1 ||| t2 < 2 ^ 8 := Nat.or_lt_two_pow (by omega) (by omega)
  have hv8 : (k1 ||| w2) % 8 = 4 := by
    have := or_mod_two_pow k1 w2 3
    have e1 : k1 % 2 ^ 3 = 0 := by omega
    have e2 : w2 % 2 ^ 3 = 4 := by omega
    rw [e1, e2] at this
    simpa using this
  have h24 : ((k1 ||| w2) >>> 24) % 2 ^ 8 = t1 ||| t2 := by
    rw [shiftRight_or, Nat.shiftRight_eq_div_pow, Nat.shiftRight_eq_div_pow]
    have e1 : k1 / 2 ^ 24 = t1 := by omega
    have e2 : w2 / 2 ^ 24 = t2 := by omega
    rw [e1, e2]
    exact Nat.mod_eq_of_lt hto
  have h16 : ((k1 ||| w2) >>> 16) % 2 ^ 8 = c1 ||| c2 := by
    rw [shiftRight_or, or_mod_two_pow, Nat.shiftRight_eq_div_pow, Nat.shiftRight_eq_div_pow]
    have e1 : k1 / 2 ^ 16 % 2 ^ 8 = c1 := by omega
    have e2 : w2 / 2 ^ 16 % 2 ^ 8 = c2 := by omega
    rw [e1, e2]
  have hd2 : prvEMACHandlerTask_dispatch (k1 ||| w2) =
      [TaskCall.prvHandleErrorEvents (t1 ||| t2) (c1 ||| c2)] := by
    rw [prvEMACHandlerTask_dispatch_err _ hv8, h24, h16]
  refine ⟨w1, k1 ||| w2, w2, ?_, hd1, hk.trans hk1d, ?_, hw2d, hd2, ?_⟩
  · simp only [prvEMACIRQHanlderCallback, hT, hw1, ne_eq, not_false_eq_true, if_true,
      Nat.zero_or]
    simp
  · rw [hk]
    simp only [prvEMACIRQHanlderCallback, hT, hw2, ne_eq, not_false_eq_true, if_true]
    simp
  · intro hne
    show prvEMACHandlerTask_dispatch (k1 ||| w2) ≠ _
    rw [hd2]
    intro heq
    simp only [List.cons.injEq, TaskCall.prvHandleErrorEvents.injEq, and_true] at heq
    rcases hne with h | h
    · exact h heq.1
    · exact h heq.2

/-- Witness for C29: after bring-up, the events (1, 1) and then (2, 2) make the
second wake call the error handler with (3, 3). -/
theorem error_fields_persist_witness :
    ((1 : Nat) ≤ 255 ∧ (2 : Nat) ≤ 255 ∧ afterReady.xEMACTaskHandle ≠ NULL ∧
      ((1 : Nat) ||| 2 ≠ 2 ∨ (1 : Nat) ||| 2 ≠ 2)) ∧
    ∃ v1 v2 w2,
      prvEMACIRQHanlderCallback xgmac_int_status_t.XGMAC_ERR_EVENT
          { err_type := 1, err_ch := 1 } afterReady 0 =
        some { d := afterReady, ulNotifiedValue := v1,
               calls := [IsrCall.xTaskNotifyFromISR afterReady.xEMACTaskHandle v1] } ∧
      prvEMACHandlerTask_dispatch (xTaskNotifyWait XGMAC_IF_ALL_EVENT v1).1 =
        [TaskCall.prvHandleErrorEvents 1 1] ∧
      (xTaskNotifyWait XGMAC_IF_ALL_EVENT v1).2 = 1 * 2 ^ 24 + 1 * 2 ^ 16 ∧
      prvEMACIRQHanlderCallback xgmac_int_status_t.XGMAC_ERR_EVENT
          { err_type := 2, err_ch := 2 } afterReady
          (xTaskNotifyWait XGMAC_IF_ALL_EVENT v1).2 =
        some { d := afterReady, ulNotifiedValue := v2,
               calls := [IsrCall.xTaskNotifyFromISR afterReady.xEMACTaskHandle w2] } ∧
      w2 = 2 * 2 ^ 24 + 2 * 2 ^ 16 + 4 ∧
      prvEMACHandlerTask_dispatch (xTaskNotifyWait XGMAC_IF_ALL_EVENT v2).1 =
        [TaskCall.prvHandleErrorEvents (1 ||| 2) (1 ||| 2)] ∧
      ((1 ||| 2 ≠ 2 ∨ 1 ||| 2 ≠ 2) →
        prvEMACHandlerTask_dispatch (xTaskNotifyWait XGMAC_IF_ALL_EVENT v2).1 ≠
          [TaskCall.prvHandleErrorEvents 2 2]) :=
  ⟨by decide,
    error_fields_persist afterReady 1 1 2 2 (by decide) (by decide) (by decide) (by decide)
      (by decide)⟩


/-! ## Transmit completion and the Tx pool -/

end SocfpgaNet
